import Mathlib

/-!
# local-lvm-provisioner: a shallow embedding of `provisioner.go`

The Go program is embedded as pure Lean functions.

* Go `string` is Lean `String`; byte-level work is done on `String.data`.  Every byte the
  program inspects (`/`, `.`, `-`) is ASCII, so on valid UTF-8 text the byte view and the
  character view agree.
* A Go function returning `(T, error)` returns `GoResult T`, which has a third outcome for a
  run-time panic (index out of range, nil dereference).
* Whatever the process does not decide itself (answers of the Kubernetes API, `os.Getwd`, the
  content of the config file, the unspecified iteration order of a Go map) is read from an
  explicit environment `Env`.  Kubernetes API calls, sleeps, acquisitions of the config lock
  and log lines are recorded, in program order, in a list of `Effect`s returned next to the
  result.
* Slices that `reflect.DeepEqual` inspects keep Go's distinction between a nil slice and an
  empty one (`GoSlice`), and pointers stored in them may be nil (`Option`).
-/

set_option autoImplicit false

namespace LocalLVM

/-! ## Errors and results -/

/-- Go `error` values: `fmt.Errorf` with the formatted message, `errors.Wrapf` around a cause,
and errors handed back by code outside the program (operating system, Kubernetes client). -/
inductive GoError where
  | errorf (msg : String)
  | wrapf (msg : String) (cause : GoError)
  | external (msg : String)
  deriving DecidableEq, Repr

/-- Outcome of a Go call: a value with a nil error, a non-nil error, or a run-time panic. -/
inductive GoResult (α : Type) where
  | ok (v : α)
  | error (e : GoError)
  | panic (msg : String)
  deriving DecidableEq, Repr

/-- Go `errors.Wrapf(err, msg)` applied to the error component of a result: a nil error stays
nil, a non-nil error is wrapped, a panic propagates through the deferred call. -/
def Wrapf {α : Type} (r : GoResult α) (msg : String) : GoResult α :=
  match r with
  | .ok v => .ok v
  | .error e => .error (.wrapf msg e)
  | .panic m => .panic m

/-- The result is a returned (non-nil) error. -/
def GoResult.isError {α : Type} : GoResult α → Bool
  | .error _ => true
  | _ => false

/-- The result is a value with a nil error. -/
def GoResult.isOk {α : Type} : GoResult α → Bool
  | .ok _ => true
  | _ => false

/-- The call panicked. -/
def GoResult.isPanic {α : Type} : GoResult α → Bool
  | .panic _ => true
  | _ => false

/-! ## Constants of the program -/

/-- Go `ActionType`, a string type with the two constants below. -/
abbrev ActionType := String

def ActionTypeCreate : ActionType := "create"
def ActionTypeDelete : ActionType := "delete"

def KeyNode : String := "kubernetes.io/hostname"
def NodeDefaultNonListedNodes : String := "DEFAULT_VGS_FOR_NON_LISTED_NODES"

/-- Initial value of the package variable `CmdTimeoutCounts`. -/
def CmdTimeoutCounts : Int := 120

/-! ## `path/filepath` on Unix

`Clean`, `Join`, `Dir`, `IsAbs` and `Abs` of the Go standard library, for `Separator = '/'`
and an empty volume name. -/

/-- Go `os.IsPathSeparator` on Unix. -/
def isPathSeparator (c : Char) : Bool := c == '/'

/-- The `..` case of `Clean` when `out.w > dotdot`: `out.w--` and then
`for out.w > dotdot && !IsPathSeparator(out.index(out.w)) { out.w-- }`.
The buffer is held most recent byte first; `x` is the byte at index `out.w`, the one that
was dropped last. -/
def backtrackLoop (dotdot : Nat) : List Char → Char → List Char
  | [], _ => []
  | c :: out, x =>
    if (c :: out).length > dotdot ∧ ¬ isPathSeparator x then backtrackLoop dotdot out c
    else c :: out

/-- The whole `..` case of `Clean`: backtrack when `out.w > dotdot`, otherwise on a
non-rooted path append `..` (after a separator when `out.w > 0`) and move `dotdot` to the
end of the buffer; on a rooted path that cannot backtrack nothing happens. -/
def cleanDotDot (rooted : Bool) (out : List Char) (dotdot : Nat) : List Char × Nat :=
  if out.length > dotdot then
    match out with
    | [] => ([], dotdot)
    | x :: out1 => (backtrackLoop dotdot out1 x, dotdot)
  else if ¬ rooted then
    let out1 := if out.length > 0 then '/' :: out else out
    ('.' :: '.' :: out1, ('.' :: '.' :: out1).length)
  else (out, dotdot)

/-- The separator that `Clean` writes before a real path element:
`if rooted && out.w != 1 || !rooted && out.w != 0 { out.append(Separator) }`. -/
def addSeparator (rooted : Bool) (out : List Char) : List Char :=
  if (rooted ∧ out.length ≠ 1) ∨ (¬ rooted ∧ out.length ≠ 0) then '/' :: out else out

/-- The remaining input is at the end of a path element: `r == n` or a separator at `r`. -/
def atElementEnd : List Char → Bool
  | [] => true
  | c :: _ => isPathSeparator c

/-- The main loop `for r < n { switch ... }` of `Clean`, on the unread input `path[r:]`.
`out` is the lazybuf content, most recent byte first, so `out.w = out.length`.
`copying = true` is the inner loop `for ; r < n && !IsPathSeparator(path[r]); r++` that
copies a real element; it hands over to the outer loop at a separator, which the outer
loop then skips as an empty element. -/
def cleanLoop (rooted : Bool) : Bool → List Char → List Char → Nat → List Char
  | _, [], out, _ => out
  | true, c :: rest, out, dotdot =>
    if isPathSeparator c then cleanLoop rooted false rest out dotdot
    else cleanLoop rooted true rest (c :: out) dotdot
  | false, c :: [], out, _ =>
    if isPathSeparator c then out
    else if c = '.' then out
    else c :: addSeparator rooted out
  | false, c :: d :: rest, out, dotdot =>
    if isPathSeparator c then cleanLoop rooted false (d :: rest) out dotdot
    else if c = '.' ∧ isPathSeparator d then cleanLoop rooted false (d :: rest) out dotdot
    else if c = '.' ∧ d = '.' ∧ atElementEnd rest then
      cleanLoop rooted false rest (cleanDotDot rooted out dotdot).1 (cleanDotDot rooted out dotdot).2
    else cleanLoop rooted true (d :: rest) (c :: addSeparator rooted out) dotdot

/-- Go `filepath.Clean` on the bytes of a path. -/
def cleanChars (path : List Char) : List Char :=
  match path with
  | [] => ['.']
  | c :: rest =>
    let rooted := isPathSeparator c
    let out := if rooted then cleanLoop true false rest ['/'] 1
               else cleanLoop false false (c :: rest) [] 0
    if out.length = 0 then ['.'] else out.reverse

/-- Go `filepath.Clean`. -/
def Clean (path : String) : String := ⟨cleanChars path.data⟩

/-- Go `filepath.IsAbs` on Unix: `strings.HasPrefix(path, "/")`. -/
def IsAbs (path : String) : Bool :=
  match path.data with
  | c :: _ => c == '/'
  | [] => false

/-- Go `filepath.Join` of two elements: empty leading elements are skipped, the rest is joined
with the separator and cleaned; all elements empty gives the empty string. -/
def Join (a b : String) : String :=
  if a ≠ "" then Clean (a ++ "/" ++ b)
  else if b ≠ "" then Clean b
  else ""

/-- The prefix `path[:i+1]` that `filepath.Dir` keeps, `i` being the index of the last
separator (`-1` when there is none). -/
def dirPrefix (path : List Char) : List Char :=
  (path.reverse.dropWhile (fun c => ! isPathSeparator c)).reverse

/-- Go `filepath.Dir`. -/
def Dir (path : String) : String := ⟨cleanChars (dirPrefix path.data)⟩

/-- Go `filepath.Abs` on Unix; `getwd` is the answer of `os.Getwd` (the directory, or the
message of the error), asked only for a relative path. -/
def Abs (getwd : Except String String) (path : String) : GoResult String :=
  if IsAbs path then .ok (Clean path)
  else match getwd with
    | .ok wd => .ok (Join wd path)
    | .error msg => .error (.external msg)

/-- Go `strings.TrimSuffix(s, "/")`. -/
def trimSuffixSlash (s : String) : String :=
  match s.data.reverse with
  | c :: rest => if c = '/' then ⟨rest.reverse⟩ else s
  | [] => s

/-- Go `strconv.FormatInt(n, 10)`. -/
def FormatInt (n : Int) : String := toString n

/-! ## Data model -/

/-- A Go slice as `reflect.DeepEqual` sees it: `none` is the nil slice, `some []` the empty
non-nil slice. -/
abbrev GoSlice (α : Type) := Option (List α)

/-- The elements a `for ... range` over the slice visits, in order. -/
def GoSlice.elems {α : Type} : GoSlice α → List α
  | none => []
  | some l => l

/-- Go `NodeVGMapData`, one entry of the config file. -/
structure NodeVGMapData where
  Node : String
  Path : String
  VGs : GoSlice String
  deriving DecidableEq, Repr

/-- Go `ConfigData`: the raw config as decoded from JSON.  The slice holds pointers, which the
JSON decoder leaves nil for a `null` element. -/
structure ConfigData where
  NodeVGMap : GoSlice (Option NodeVGMapData)
  deriving DecidableEq, Repr

/-- Go `NodeVGMap`.  `VGs` is the key set of the Go `map[string]struct{}`, in insertion
order; the keys are pairwise distinct. -/
structure NodeVGMap where
  Path : String
  VGs : List String
  deriving DecidableEq, Repr

/-- Go `Config`.  The Go `map[string]*NodeVGMap` is the association list of its entries in
insertion order; a key is bound at most once and never to a nil pointer. -/
structure Config where
  NodeVGMap : List (String × NodeVGMap)
  deriving DecidableEq, Repr

/-- Go map index expression `c.NodeVGMap[node]`: `none` stands for the nil pointer that an
absent key yields. -/
def Config.get (c : Config) (node : String) : Option LocalLVM.NodeVGMap :=
  c.NodeVGMap.lookup node

/-- Kubernetes string types used by the program, with the constants it compares against. -/
abbrev PersistentVolumeAccessMode := String
abbrev PersistentVolumeReclaimPolicy := String
abbrev PodPhase := String
abbrev NodeSelectorOperator := String

def ReadWriteOnce : PersistentVolumeAccessMode := "ReadWriteOnce"
def PersistentVolumeReclaimRetain : PersistentVolumeReclaimPolicy := "Retain"
def PersistentVolumeReclaimDelete : PersistentVolumeReclaimPolicy := "Delete"
def PodSucceeded : PodPhase := "Succeeded"
def NodeSelectorOpIn : NodeSelectorOperator := "In"

/-- The fields of `v1.PersistentVolumeClaim` that `Provision` reads.  `StorageRequest` is
`pvc.Spec.Resources.Requests[v1.ResourceStorage]` as `size.Value()` returns it, `none` when
the key is absent. -/
structure PersistentVolumeClaim where
  Namespace : String
  Name : String
  Selector : Option (List (String × String))
  AccessModes : List PersistentVolumeAccessMode
  StorageRequest : Option Int
  deriving DecidableEq, Repr

/-- Go `v1.Node`, of which only the name is read. -/
structure Node where
  Name : String
  deriving DecidableEq, Repr

/-- Go `pvController.VolumeOptions`. -/
structure VolumeOptions where
  PersistentVolumeReclaimPolicy : PersistentVolumeReclaimPolicy
  PVName : String
  PVC : PersistentVolumeClaim
  SelectedNode : Option Node
  deriving DecidableEq, Repr

structure NodeSelectorRequirement where
  Key : String
  Operator : NodeSelectorOperator
  Values : List String
  deriving DecidableEq, Repr

structure NodeSelectorTerm where
  MatchExpressions : List NodeSelectorRequirement
  deriving DecidableEq, Repr

structure NodeSelector where
  NodeSelectorTerms : List NodeSelectorTerm
  deriving DecidableEq, Repr

structure VolumeNodeAffinity where
  Required : Option NodeSelector
  deriving DecidableEq, Repr

structure HostPathVolumeSource where
  Path : String
  HostPathType : Option String
  deriving DecidableEq, Repr

/-- The fields of `v1.PersistentVolume` that the program writes or reads. -/
structure PersistentVolume where
  Name : String
  PersistentVolumeReclaimPolicy : PersistentVolumeReclaimPolicy
  AccessModes : List PersistentVolumeAccessMode
  VolumeMode : Option String
  Capacity : Option Int
  HostPath : Option HostPathVolumeSource
  NodeAffinity : Option VolumeNodeAffinity
  deriving DecidableEq, Repr

/-- The helper pod built by `createHelperPod`: one privileged container, one host-path
volume mounted into it, `RestartPolicy: Never`, `HostPID: true`, tolerating every taint. -/
structure Pod where
  Name : String
  NodeName : String
  ContainerName : String
  Image : String
  Args : List String
  VolumeMountPath : String
  HostPathVolume : String
  deriving DecidableEq, Repr

/-- The part of `LocalLVMProvisioner` that is program state.  `podNamespace` is the field
`namespace`; the stop channel, the client handle and the mutex are not data. -/
structure LocalLVMProvisioner where
  podNamespace : String
  helperImage : String
  config : Option Config
  configData : Option ConfigData
  configFile : String
  deriving DecidableEq, Repr

/-- What the surroundings answer during one call; a failing answer carries the message of
the error, which the program receives as `GoError.external`.
* `cmdTimeoutCounts`: the current value of the package variable `CmdTimeoutCounts`;
* `getwd`: the answer of `os.Getwd`;
* `rangeFirst`: which key the runtime yields first when ranging over a map, as an index
  modulo the number of keys (Go leaves the iteration order of a map unspecified);
* `readConfigFile`: opening the named file and decoding its JSON;
* `podCreate ns pod`, `podDelete ns name`: the Kubernetes API answers;
* `podGet i ns name`: the answer to the `i`-th status query of the call, counted from 0. -/
structure Env where
  cmdTimeoutCounts : Int
  getwd : Except String String
  rangeFirst : Nat
  readConfigFile : String → Except String ConfigData
  podCreate : String → Pod → Except String Pod
  podGet : Nat → String → String → Except String PodPhase
  podDelete : String → String → Option String

/-- Observable steps of a call, in program order.  A log line is recorded by the format
string of its logrus call. -/
inductive Effect where
  | configLock
  | configRLock
  | podCreate (ns : String) (pod : Pod)
  | podGet (ns : String) (name : String)
  | podDelete (ns : String) (name : String)
  | sleep (seconds : Nat)
  | log (format : String)
  deriving DecidableEq, Repr

/-! ## Config loading and canonicalization -/

/-- Go `loadConfigFile`: the file is opened and decoded; any failure is wrapped. -/
def loadConfigFile (env : Env) (configFile : String) : GoResult ConfigData :=
  match env.readConfigFile configFile with
  | .ok data => .ok data
  | .error msg => .error (.wrapf ("fail to load config file " ++ configFile) (.external msg))

/-- The inner loop `for _, vg := range n.VGs` of `canonicalizeConfig`; `vgs` is the key set
of `npMap.VGs` built so far. -/
def canonicalizeVGs (node : String) : List String → List String → GoResult (List String)
  | [], vgs => .ok vgs
  | vg :: rest, vgs =>
    if vg ∈ vgs then
      .error (.errorf ("duplicate volume group " ++ vg ++ " on node " ++ node))
    else canonicalizeVGs node rest (vgs ++ [vg])

/-- The loop `for _, n := range data.NodeVGMap` of `canonicalizeConfig`; `m` is
`cfg.NodeVGMap` as built so far.  `n.Node` on a nil entry and `n.Path[0]` on an empty path
panic. -/
def canonicalizeLoop (env : Env) :
    List (Option NodeVGMapData) → List (String × NodeVGMap) → GoResult Config
  | [], m => .ok ⟨m⟩
  | none :: _, _ => .panic "invalid memory address or nil pointer dereference"
  | some n :: rest, m =>
    if (m.lookup n.Node).isSome then .error (.errorf ("duplicate node " ++ n.Node))
    else
      match n.Path.data with
      | [] => .panic "index out of range [0] with length 0"
      | c :: _ =>
        if c ≠ '/' then
          .error (.errorf ("mount path must start with / for path " ++ n.Path
            ++ " on node " ++ n.Node))
        else
          match Abs env.getwd n.Path with
          | .error e => .error e
          | .panic msg => .panic msg
          | .ok path =>
            if path = "/" then
              .error (.errorf ("cannot use root ('/') as mount path on node " ++ n.Node))
            else
              match canonicalizeVGs n.Node n.VGs.elems [] with
              | .error e => .error e
              | .panic msg => .panic msg
              | .ok vgs => canonicalizeLoop env rest (m ++ [(n.Node, ⟨path, vgs⟩)])

/-- Go `canonicalizeConfig`. -/
def canonicalizeConfig (env : Env) (data : ConfigData) : GoResult Config :=
  Wrapf (canonicalizeLoop env data.NodeVGMap.elems []) "config canonicalization failed"

/-- Go `refreshConfig`: the result, the provisioner after the call, and the effects.
`reflect.DeepEqual(configData, p.configData)` compares the freshly loaded value, never nil,
with the stored pointer, nil before the first successful load.  `json.Marshal` of a
`ConfigData` (strings, slices, struct pointers) has no failing case, so the error branch
after it is never taken. -/
def refreshConfig (p : LocalLVMProvisioner) (env : Env) :
    GoResult Unit × LocalLVMProvisioner × List Effect :=
  match loadConfigFile env p.configFile with
  | .error e => (.error e, p, [.configLock])
  | .panic msg => (.panic msg, p, [.configLock])
  | .ok configData =>
    if some configData = p.configData then (.ok (), p, [.configLock])
    else
      match canonicalizeConfig env configData with
      | .error e => (.error e, p, [.configLock])
      | .panic msg => (.panic msg, p, [.configLock])
      | .ok config =>
        (.ok (), { p with configData := some configData, config := some config },
          [.configLock, .log "Applied config: %v"])

/-- The struct literal of `NewProvisioner`: `config` and `configData` start as nil. -/
def initialProvisioner (configFile podNamespace helperImage : String) : LocalLVMProvisioner :=
  { podNamespace := podNamespace
    helperImage := helperImage
    config := none
    configFile := configFile
    configData := none }

/-- Go `watchAndRefreshConfig`, as far as the state is concerned: one `refreshConfig` per
tick of the timer, each in the surroundings of its moment, until the stop channel fires.  A
returned error is only logged; a panic ends the process, so no later tick runs. -/
def watchAndRefreshConfig : LocalLVMProvisioner → List Env → LocalLVMProvisioner × List Effect
  | p, [] => (p, [.log "stop watching config file"])
  | p, env :: ticks =>
    match refreshConfig p env with
    | (.ok _, p2, effects) =>
      ((watchAndRefreshConfig p2 ticks).1, effects ++ (watchAndRefreshConfig p2 ticks).2)
    | (.error _, p2, effects) =>
      ((watchAndRefreshConfig p2 ticks).1,
        effects ++ .log "failed to load the new config file: %v"
          :: (watchAndRefreshConfig p2 ticks).2)
    | (.panic _, p2, effects) => (p2, effects)

/-- Go `NewProvisioner`: the first `refreshConfig` decides whether a provisioner is
returned; the watcher started afterwards is `watchAndRefreshConfig`. -/
def NewProvisioner (env : Env) (configFile podNamespace helperImage : String) :
    GoResult LocalLVMProvisioner × List Effect :=
  match refreshConfig (initialProvisioner configFile podNamespace helperImage) env with
  | (.ok _, p, effects) => (.ok p, effects)
  | (.error e, _, effects) => (.error e, effects)
  | (.panic msg, _, effects) => (.panic msg, effects)

/-! ## Node resolution -/

/-- Go `vg := ""; for vg = range vgs { break }`: the first key of the map iteration. -/
def rangeFirstKey (env : Env) (vgs : List String) : String :=
  (vgs.get? (env.rangeFirst % vgs.length)).getD ""

/-- Go `getPathAndVGOnNode`. -/
def getPathAndVGOnNode (p : LocalLVMProvisioner) (env : Env) (node : String) :
    GoResult (String × String) × List Effect :=
  match p.config with
  | none => (.error (.errorf "no valid config available"), [.configRLock])
  | some c =>
    let entry : Option (NodeVGMap × List Effect) :=
      match c.get node with
      | some npMap => some (npMap, [])
      | none =>
        match c.get NodeDefaultNonListedNodes with
        | some npMap => some (npMap, [.log "config doesn't contain node %v, use %v instead"])
        | none => none
    match entry with
    | none =>
      (.error (.errorf ("config doesn't contain node " ++ node ++ ", and no "
        ++ NodeDefaultNonListedNodes ++ " available")), [.configRLock])
    | some (npMap, logs) =>
      if npMap.Path = "" then
        (.error (.errorf ("no mount path defined on node " ++ node)), .configRLock :: logs)
      else if npMap.VGs.length = 0 then
        (.error (.errorf ("no local volume group available on node " ++ node)),
          .configRLock :: logs)
      else (.ok (npMap.Path, rangeFirstKey env npMap.VGs), .configRLock :: logs)

/-! ## Helper pod -/

/-- The polling loop `for i := 0; i < CmdTimeoutCounts; i++` of `createHelperPod`, with
`remaining = CmdTimeoutCounts - i` iterations left.  The value is `completed`; a failed
status query ends the loop with its error. -/
def pollLoop (env : Env) (ns name : String) : Nat → Nat → GoResult Bool × List Effect
  | 0, _ => (.ok false, [])
  | remaining + 1, i =>
    match env.podGet i ns name with
    | .error msg => (.error (.external msg), [.podGet ns name])
    | .ok phase =>
      if phase = PodSucceeded then (.ok true, [.podGet ns name])
      else
        let r := pollLoop env ns name remaining (i + 1)
        (r.1, .podGet ns name :: .sleep 1 :: r.2)

/-- The deferred removal of the helper pod: the API call, and a log line when it fails. -/
def deleteHelperPod (env : Env) (ns name : String) : List Effect :=
  match env.podDelete ns name with
  | none => [.podDelete ns name]
  | some _ => [.podDelete ns name, .log "unable to delete the helper pod: %v"]

/-- The pod object that `createHelperPod` submits. -/
def helperPod (p : LocalLVMProvisioner) (action : ActionType) (name : String)
    (vgOperationArgs : List String) (arg1 : String) (node : String) : Pod :=
  { Name := action ++ "-" ++ name
    NodeName := node
    ContainerName := "local-lvm-" ++ action
    Image := p.helperImage
    Args := vgOperationArgs
    VolumeMountPath := arg1
    HostPathVolume := arg1 }

/-- Go `createHelperPod`.  The two deferred functions run in reverse order of registration:
first the removal of the pod (registered only after `Create` succeeded), then the wrapping
of the error. -/
def createHelperPod (p : LocalLVMProvisioner) (env : Env) (action : ActionType)
    (vgOperationArgs : List String) (node : String) : GoResult Unit × List Effect :=
  match (if action = ActionTypeCreate then vgOperationArgs.get? 4 else vgOperationArgs.get? 2) with
  | none => (.panic "index out of range", [])
  | some name =>
    let wrapMsg := "failed to " ++ action ++ " volume " ++ name
    if name = "" ∨ node = "" then
      (.error (.wrapf wrapMsg (.errorf "invalid empty name or node")), [])
    else
      match vgOperationArgs.get? 1 with
      | none => (.panic "index out of range", [])
      | some arg1 =>
        match Abs env.getwd arg1 with
        | .panic msg => (.panic msg, [])
        | .error e => (.error (.wrapf wrapMsg e), [])
        | .ok path0 =>
          let path := trimSuffixSlash path0
          if path = "" then
            (.error (.wrapf wrapMsg (.errorf ("invalid path for " ++ action))), [])
          else
            let pod0 := helperPod p action name vgOperationArgs arg1 node
            match env.podCreate p.podNamespace pod0 with
            | .error msg =>
              (.error (.wrapf wrapMsg (.external msg)), [.podCreate p.podNamespace pod0])
            | .ok pod =>
              let polled := pollLoop env p.podNamespace pod.Name env.cmdTimeoutCounts.toNat 0
              let cleanup := deleteHelperPod env p.podNamespace pod.Name
              match polled.1 with
              | .panic msg => (.panic msg, .podCreate p.podNamespace pod0 :: polled.2 ++ cleanup)
              | .error e =>
                (.error (.wrapf wrapMsg e), .podCreate p.podNamespace pod0 :: polled.2 ++ cleanup)
              | .ok false =>
                (.error (.wrapf wrapMsg (.errorf ("create process timeout after "
                    ++ toString env.cmdTimeoutCounts ++ " seconds"))),
                  .podCreate p.podNamespace pod0 :: polled.2 ++ cleanup)
              | .ok true =>
                (.ok (), .podCreate p.podNamespace pod0 :: polled.2
                  ++ .log "Volume %v has been %vd on %v:%v" :: cleanup)

/-! ## Provision and Delete -/

/-- The descriptor that `Provision` returns. -/
def newPersistentVolume (opts : VolumeOptions) (path : String) (node : Node) :
    PersistentVolume :=
  { Name := opts.PVName
    PersistentVolumeReclaimPolicy := opts.PersistentVolumeReclaimPolicy
    AccessModes := opts.PVC.AccessModes
    VolumeMode := some "Filesystem"
    Capacity := opts.PVC.StorageRequest
    HostPath := some { Path := path, HostPathType := some "DirectoryOrCreate" }
    NodeAffinity := some { Required := some { NodeSelectorTerms :=
      [{ MatchExpressions :=
        [{ Key := KeyNode, Operator := NodeSelectorOpIn, Values := [node.Name] }] }] } } }

/-- Go `Provision`. -/
def Provision (p : LocalLVMProvisioner) (env : Env) (opts : VolumeOptions) :
    GoResult PersistentVolume × List Effect :=
  let pvc := opts.PVC
  if pvc.Selector.isSome then
    (.error (.errorf "claim.Spec.Selector is not supported"), [])
  else if pvc.AccessModes.any (fun accessMode => accessMode ≠ ReadWriteOnce) then
    (.error (.errorf "Only support ReadWriteOnce access mode"), [])
  else
    match opts.SelectedNode with
    | none => (.error (.errorf "configuration error, no node was specified"), [])
    | some node =>
      match pvc.StorageRequest with
      | none =>
        (.error (.errorf "Cannot handle physical volume claim without storage size request"), [])
      | some size =>
        if size < 1024 * 1024 * 4 then
          (.error (.errorf "Physical volume needs to be at least 4MB in size"), [])
        else
          let resolved := getPathAndVGOnNode p env node.Name
          match resolved.1 with
          | .error e => (.error e, resolved.2)
          | .panic msg => (.panic msg, resolved.2)
          | .ok (mountPath, vgName) =>
            let pvcName := pvc.Namespace ++ "-" ++ pvc.Name
            let name := opts.PVName
            let path := Join mountPath pvcName
            let createVGOperationArgs :=
              ["create", mountPath, vgName, pvcName, name, FormatInt size]
            let helper := createHelperPod p env ActionTypeCreate createVGOperationArgs node.Name
            let effects := resolved.2 ++ .log "Creating volume %v (%v/%v) at %v:%v" :: helper.2
            match helper.1 with
            | .error e => (.error e, effects)
            | .panic msg => (.panic msg, effects)
            | .ok _ => (.ok (newPersistentVolume opts path node), effects)

/-- The inner loop `for _, expression := range selectorTerm.MatchExpressions` of
`getPathAndNodeForPV`: the value assigned to `node` by the first expression on
`kubernetes.io/hostname` with operator `In`, `none` when no expression matches. -/
def nodeOfExpressions : List NodeSelectorRequirement → GoResult (Option String)
  | [] => .ok none
  | expression :: rest =>
    if expression.Key = KeyNode ∧ expression.Operator = NodeSelectorOpIn then
      match expression.Values with
      | [value] => .ok (some value)
      | _ => .error (.errorf "multiple values for the node affinity")
    else nodeOfExpressions rest

/-- The outer loop `for _, selectorTerm := range required.NodeSelectorTerms`; it is entered
with `node == ""` and leaves at the first term after which `node != ""`. -/
def nodeOfTerms : List NodeSelectorTerm → GoResult String
  | [] => .ok ""
  | selectorTerm :: rest =>
    match nodeOfExpressions selectorTerm.MatchExpressions with
    | .error e => .error e
    | .panic msg => .panic msg
    | .ok (some node) => if node ≠ "" then .ok node else nodeOfTerms rest
    | .ok none => nodeOfTerms rest

/-- The body of `getPathAndNodeForPV`, before the deferred wrapping. -/
def getPathAndNodeForPVBody (pv : PersistentVolume) : GoResult (String × String) :=
  match pv.HostPath with
  | none => .error (.errorf "no HostPath set")
  | some hostPath =>
    let path := Dir hostPath.Path
    if path = "." ∨ path = "/" then .error (.errorf "invalid HostPath set")
    else
      match pv.NodeAffinity with
      | none => .error (.errorf "no NodeAffinity set")
      | some nodeAffinity =>
        match nodeAffinity.Required with
        | none => .error (.errorf "no NodeAffinity.Required set")
        | some required =>
          match nodeOfTerms required.NodeSelectorTerms with
          | .error e => .error e
          | .panic msg => .panic msg
          | .ok node =>
            if node = "" then .error (.errorf "cannot find affinited node")
            else .ok (path, node)

/-- Go `getPathAndNodeForPV`. -/
def getPathAndNodeForPV (pv : PersistentVolume) : GoResult (String × String) :=
  Wrapf (getPathAndNodeForPVBody pv) ("failed to delete volume " ++ pv.Name)

/-- Go `Delete`. -/
def Delete (p : LocalLVMProvisioner) (env : Env) (pv : PersistentVolume) :
    GoResult Unit × List Effect :=
  let wrapMsg := "failed to delete volume " ++ pv.Name
  match getPathAndNodeForPV pv with
  | .error e => (.error (.wrapf wrapMsg e), [])
  | .panic msg => (.panic msg, [])
  | .ok (path, node) =>
    if pv.PersistentVolumeReclaimPolicy ≠ PersistentVolumeReclaimRetain then
      let cleanupVGOperationArgs := ["delete", path, pv.Name]
      let helper := createHelperPod p env ActionTypeDelete cleanupVGOperationArgs node
      match helper.1 with
      | .error e =>
        (.error (.wrapf wrapMsg e),
          .log "Deleting volume %v at %v:%v" :: helper.2 ++ [.log "clean up volume %v failed: %v"])
      | .panic msg => (.panic msg, .log "Deleting volume %v at %v:%v" :: helper.2)
      | .ok _ => (.ok (), .log "Deleting volume %v at %v:%v" :: helper.2)
    else (.ok (), [.log "Retained volume %v"])

/-! ## Path elements

Vocabulary for reasoning about `Clean` on rooted paths. -/

/-- A real path element: non-empty, free of separators, and neither `.` nor `..`. -/
def IsRealElement (e : List Char) : Prop :=
  e ≠ [] ∧ '/' ∉ e ∧ e ≠ ['.'] ∧ e ≠ ['.', '.']

/-- The bytes `/e1/e2/.../ek` of a rooted path with the given elements. -/
def rootedPath : List (List Char) → List Char
  | [] => []
  | e :: es => '/' :: e ++ rootedPath es

/-- The lazybuf content (most recent byte first) after the elements of the stack, top
first, have been written behind the leading separator. -/
def elementsBuf : List (List Char) → List Char
  | [] => []
  | e :: es => e.reverse ++ '/' :: elementsBuf es

/-- The lazybuf content of a rooted path: the lone leading separator, or the elements. -/
def rootedBuf (es : List (List Char)) : List Char :=
  if es = [] then ['/'] else elementsBuf es

/-- A path as `canonicalizeConfig` stores it: `/e1/.../ek` with `k ≥ 1` real elements. -/
def IsCanonicalPath (path : String) : Prop :=
  ∃ fs : List (List Char), fs ≠ [] ∧ (∀ x ∈ fs, IsRealElement x) ∧ path.data = rootedPath fs

/-! ## Vocabulary for the statements -/

/-- The entry that `getPathAndVGOnNode` works with: the one keyed by the node name when it
exists, else the one keyed by `NodeDefaultNonListedNodes`. -/
def matchedEntry (c : Config) (node : String) : Option NodeVGMap :=
  match c.get node with
  | some npMap => some npMap
  | none => c.get NodeDefaultNonListedNodes

/-- The argument list that `Provision` hands to the helper pod. -/
def createArgs (opts : VolumeOptions) (mountPath vgName : String) (size : Int) : List String :=
  ["create", mountPath, vgName, opts.PVC.Namespace ++ "-" ++ opts.PVC.Name, opts.PVName,
    FormatInt size]

/-- Number of removal requests for a helper pod among the effects. -/
def podDeleteCount (effects : List Effect) : Nat :=
  effects.countP fun e => match e with
    | .podDelete _ _ => true
    | _ => false

/-- Number of creation requests for a helper pod among the effects. -/
def podCreateCount (effects : List Effect) : Nat :=
  effects.countP fun e => match e with
    | .podCreate _ _ => true
    | _ => false

/-- The helper pod of the call was created: the volume name `name` and the node are not
empty, the path argument resolves to a non-empty path, and the Kubernetes API answered the
`Create` request with `pod`. -/
def HelperPodCreated (p : LocalLVMProvisioner) (env : Env) (action : ActionType)
    (args : List String) (node name : String) (pod : Pod) : Prop :=
  (if action = ActionTypeCreate then args.get? 4 else args.get? 2) = some name
    ∧ name ≠ "" ∧ node ≠ ""
    ∧ ∃ arg1 path0, args.get? 1 = some arg1 ∧ Abs env.getwd arg1 = .ok path0
      ∧ trimSuffixSlash path0 ≠ ""
      ∧ env.podCreate p.podNamespace (helperPod p action name args arg1 node) = .ok pod

/-- The error that `createHelperPod` returns when the polling loop ends without having seen
the pod succeeded. -/
def timeoutError (env : Env) (action : ActionType) (name : String) : GoError :=
  .wrapf ("failed to " ++ action ++ " volume " ++ name)
    (.errorf ("create process timeout after " ++ toString env.cmdTimeoutCounts ++ " seconds"))

/-- The error of `getPathAndVGOnNode` for a node that has neither an entry of its own nor
the fallback entry. -/
def nodeNotConfiguredError (node : String) : GoError :=
  .errorf ("config doesn't contain node " ++ node ++ ", and no "
    ++ NodeDefaultNonListedNodes ++ " available")

/-- The error of `getPathAndVGOnNode` for an entry with an empty path. -/
def noMountPathError (node : String) : GoError :=
  .errorf ("no mount path defined on node " ++ node)

/-- What `getPathAndVGOnNode` makes of the entry `npMap` once it has settled on it: the
checks on path and volume groups and the pick of a volume group. -/
def resolveEntry (env : Env) (node : String) (npMap : NodeVGMap) : GoResult (String × String) :=
  if npMap.Path = "" then .error (noMountPathError node)
  else if npMap.VGs.length = 0 then
    .error (.errorf ("no local volume group available on node " ++ node))
  else .ok (npMap.Path, rangeFirstKey env npMap.VGs)

/-- The entry that `canonicalizeConfig` stores for a raw entry: keyed by the node name, with
the cleaned path and the volume groups as keys of the set. -/
def canonicalEntry (n : NodeVGMapData) : String × NodeVGMap :=
  (n.Node, ⟨Clean n.Path, n.VGs.elems⟩)

/-- The raw entries that are not nil, in order. -/
def rawEntries (data : ConfigData) : List NodeVGMapData :=
  data.NodeVGMap.elems.filterMap id

/-- The expression of a selector term that `getPathAndNodeForPV` looks at: the first one on
`kubernetes.io/hostname` with the operator `In`. -/
def firstNodeExpression : List NodeSelectorRequirement → Option NodeSelectorRequirement
  | [] => none
  | expression :: rest =>
    if expression.Key = KeyNode ∧ expression.Operator = NodeSelectorOpIn then some expression
    else firstNodeExpression rest

/-- The expression at which the scan of `getPathAndNodeForPV` over the selector terms ends:
terms without an expression on the host name, and terms whose expression lists just the
empty name, are passed over; later terms are not looked at. -/
def scannedExpression : List NodeSelectorTerm → Option NodeSelectorRequirement
  | [] => none
  | selectorTerm :: rest =>
    match firstNodeExpression selectorTerm.MatchExpressions with
    | some expression =>
      if expression.Values = [""] then scannedExpression rest else some expression
    | none => scannedExpression rest

/-- Number of status queries among the effects. -/
def podGetCount (effects : List Effect) : Nat :=
  effects.countP fun e => match e with
    | .podGet _ _ => true
    | _ => false

/-- The effect is a request to create a pod. -/
def Effect.isPodCreate : Effect → Bool
  | .podCreate _ _ => true
  | _ => false

/-- The invariant of the config store: config and raw snapshot are both unset, or both set
with the config being what `canonicalizeConfig` makes of the snapshot. -/
def ConfigStoreInvariant (p : LocalLVMProvisioner) : Prop :=
  (p.config = none ∧ p.configData = none)
    ∨ ∃ data cfg, p.configData = some data ∧ p.config = some cfg
        ∧ ∀ env : Env, canonicalizeConfig env data = .ok cfg

/-- The provisioner after a sequence of `refreshConfig` calls, one per element of `loads`,
each with its own surroundings and hence its own load result. -/
def refreshAll (p : LocalLVMProvisioner) (loads : List Env) : LocalLVMProvisioner :=
  loads.foldl (fun q env => (refreshConfig q env).2.1) p


/-! ## Decimal notation -/

/-- The number written by a list of decimal digits, most significant first. -/
def decimalValue (ds : List Char) : Nat :=
  ds.foldl (fun acc c => acc * 10 + (c.toNat - 48)) 0

/-- A digit string in decimal notation: at least one character, only the characters `0` to
`9`, and no leading `0` except in the string `0` itself. -/
def isDecimalString (ds : List Char) : Bool :=
  ds ≠ [] ∧ ds.all Char.isDigit ∧ (ds.head? = some '0' → ds = ['0'])

/-- The integer that a string denotes in decimal notation, if it is the decimal notation of
one: digits as in `isDecimalString`, preceded by `-` for a negative number. -/
def readDecimal (s : String) : Option Int :=
  match s.data with
  | [] => none
  | c :: ds =>
    if c = '-' then
      if isDecimalString ds ∧ decimalValue ds ≠ 0 then some (-(decimalValue ds : Int)) else none
    else if isDecimalString (c :: ds) then some (decimalValue (c :: ds) : Int)
    else none

/-! ## Sample inputs -/

/-- The raw config `[{node: "n1", path: "/data", vgs: ["vg0"]}]`. -/
def sampleConfigData : ConfigData :=
  ⟨some [some ⟨"n1", "/data", some ["vg0"]⟩]⟩

/-- Surroundings in which the config file holds `sampleConfigData`, the helper pod is
created, reported running at the first status query and succeeded at the second, and
removed without error. -/
def sampleEnv : Env :=
  { cmdTimeoutCounts := 3
    getwd := .ok "/"
    rangeFirst := 0
    readConfigFile := fun _ => .ok sampleConfigData
    podCreate := fun _ pod => .ok pod
    podGet := fun i _ _ => .ok (if i = 0 then "Running" else PodSucceeded)
    podDelete := fun _ _ => none }

/-- A provisioner before its first `refreshConfig`, as `NewProvisioner` builds it. -/
def freshProvisioner : LocalLVMProvisioner :=
  { podNamespace := "kube-system"
    helperImage := "helper:latest"
    config := none
    configData := none
    configFile := "/etc/config/config.json" }

/-- The provisioner after loading `sampleConfigData`. -/
def sampleProvisioner : LocalLVMProvisioner :=
  { freshProvisioner with
    config := some ⟨[("n1", ⟨"/data", ["vg0"]⟩)]⟩
    configData := some sampleConfigData }

/-- A request for 8 MiB on node `n1` for the claim `ns/claim1`. -/
def sampleOptions : VolumeOptions :=
  { PersistentVolumeReclaimPolicy := PersistentVolumeReclaimDelete
    PVName := "pvc-1"
    PVC :=
      { Namespace := "ns"
        Name := "claim1"
        Selector := none
        AccessModes := [ReadWriteOnce]
        StorageRequest := some (8 * 1024 * 1024) }
    SelectedNode := some ⟨"n1"⟩ }

/-- The descriptor that `Provision` returns for `sampleOptions`. -/
def samplePV : PersistentVolume :=
  newPersistentVolume sampleOptions "/data/ns-claim1" ⟨"n1"⟩

/-- The request `sampleOptions` with a label selector on the claim. -/
def selectorOptions : VolumeOptions :=
  { sampleOptions with PVC := { sampleOptions.PVC with Selector := some [("tier", "fast")] } }

/-- The request `sampleOptions` asking for `ReadWriteOnce` and `ReadWriteMany`. -/
def sharedOptions : VolumeOptions :=
  { sampleOptions with
    PVC := { sampleOptions.PVC with AccessModes := [ReadWriteOnce, "ReadWriteMany"] } }

/-- The request `sampleOptions` asking for one byte less than 4 MiB. -/
def smallOptions : VolumeOptions :=
  { sampleOptions with
    PVC := { sampleOptions.PVC with StorageRequest := some (4 * 1024 * 1024 - 1) } }

/-- The request `sampleOptions` asking for exactly 4 MiB. -/
def floorOptions : VolumeOptions :=
  { sampleOptions with PVC := { sampleOptions.PVC with StorageRequest := some (4 * 1024 * 1024) } }

/-- The request `sampleOptions` without a selected node. -/
def unboundOptions : VolumeOptions :=
  { sampleOptions with SelectedNode := none }

/-- The descriptor `samplePV` with the reclaim policy `Retain`. -/
def retainedPV : PersistentVolume :=
  { samplePV with PersistentVolumeReclaimPolicy := PersistentVolumeReclaimRetain }

/-- The raw config `[{node: "n1", path: "/data", vgs: ["vg0", "vg1"]}]`. -/
def twoVGConfigData : ConfigData :=
  ⟨some [some ⟨"n1", "/data", some ["vg0", "vg1"]⟩]⟩

/-- The provisioner after loading `twoVGConfigData`. -/
def twoVGProvisioner : LocalLVMProvisioner :=
  { freshProvisioner with
    config := some ⟨[("n1", ⟨"/data", ["vg0", "vg1"]⟩)]⟩
    configData := some twoVGConfigData }

/-- The surroundings `sampleEnv` with the map iteration starting at the second key. -/
def secondKeyEnv : Env :=
  { sampleEnv with rangeFirst := 1 }

/-- The arguments of the helper pod for `sampleOptions`. -/
def sampleArgs : List String :=
  createArgs sampleOptions "/data" "vg0" (8 * 1024 * 1024)

/-- The pod that `createHelperPod` submits for `sampleArgs` on node `n1`. -/
def samplePod : Pod :=
  helperPod sampleProvisioner ActionTypeCreate "pvc-1" sampleArgs "/data" "n1"

/-- The surroundings `sampleEnv` with every status query failing. -/
def getFailsEnv : Env :=
  { sampleEnv with podGet := fun _ _ _ => .error "connection refused" }

/-- The surroundings `sampleEnv` with the pod never leaving the phase `Running`. -/
def neverDoneEnv : Env :=
  { sampleEnv with podGet := fun _ _ _ => .ok "Running" }

/-- The surroundings `sampleEnv` with the `Create` request refused. -/
def createFailsEnv : Env :=
  { sampleEnv with podCreate := fun _ _ => .error "pods \"create-pvc-1\" already exists" }

/-- A raw config whose only entry has the empty path. -/
def emptyPathConfigData : ConfigData :=
  ⟨some [some ⟨"n1", "", some ["vg0"]⟩]⟩

/-- Surroundings in which the config file cannot be read. -/
def unreadableEnv : Env :=
  { sampleEnv with readConfigFile := fun _ => .error "open: no such file" }

/-- The provisioner with an entry for `n1` and the fallback entry. -/
def fallbackProvisioner : LocalLVMProvisioner :=
  { freshProvisioner with
    config := some ⟨[("n1", ⟨"/data", ["vg0"]⟩),
      (NodeDefaultNonListedNodes, ⟨"/shared", ["vgx"]⟩)]⟩
    configData := some ⟨some [some ⟨"n1", "/data", some ["vg0"]⟩,
      some ⟨NodeDefaultNonListedNodes, "/shared", some ["vgx"]⟩]⟩ }

/-- A raw config whose first entry has the empty path and whose second entry repeats the
node name of the first. -/
def duplicateNodeConfigData : ConfigData :=
  ⟨some [some ⟨"n1", "", some ["vg0"]⟩, some ⟨"n1", "/data", some ["vg0"]⟩]⟩

/-- A raw config whose only entry has the empty path and lists one volume group twice. -/
def duplicateVGConfigData : ConfigData :=
  ⟨some [some ⟨"n1", "", some ["vg0", "vg0"]⟩]⟩

/-- The descriptor `samplePV` with a second selector term that offers the nodes `n2` and
`n3`. -/
def twoTermPV : PersistentVolume :=
  { samplePV with
    NodeAffinity := some { Required := some { NodeSelectorTerms :=
      [{ MatchExpressions :=
          [{ Key := KeyNode, Operator := NodeSelectorOpIn, Values := ["n1"] }] },
        { MatchExpressions :=
          [{ Key := KeyNode, Operator := NodeSelectorOpIn, Values := ["n2", "n3"] }] }] } } }

/-- The descriptor `samplePV` with the single expression offering the nodes `n1` and `n2`. -/
def twoValuePV : PersistentVolume :=
  { samplePV with
    NodeAffinity := some { Required := some { NodeSelectorTerms :=
      [{ MatchExpressions :=
          [{ Key := KeyNode, Operator := NodeSelectorOpIn, Values := ["n1", "n2"] }] }] } } }

/-- The descriptor `samplePV` without node affinity. -/
def unpinnedPV : PersistentVolume :=
  { samplePV with NodeAffinity := none }

/-- The arguments of the helper pod that `Delete` runs for `samplePV`. -/
def sampleDeleteArgs : List String :=
  ["delete", "/data", "pvc-1"]

/-- A provisioner whose raw snapshot is `emptyPathConfigData`, on which
`canonicalizeConfig` would panic. -/
def staleProvisioner : LocalLVMProvisioner :=
  { freshProvisioner with configData := some emptyPathConfigData }

/-- The surroundings `sampleEnv` with the config file holding `emptyPathConfigData`. -/
def emptyPathEnv : Env :=
  { sampleEnv with readConfigFile := fun _ => .ok emptyPathConfigData }

/-- The surroundings `sampleEnv` with the config file holding `twoVGConfigData`. -/
def twoVGEnv : Env :=
  { sampleEnv with readConfigFile := fun _ => .ok twoVGConfigData }

/-- The surroundings `sampleEnv` with the pod reported failed at every status query. -/
def failedPodEnv : Env :=
  { sampleEnv with podGet := fun _ _ _ => .ok "Failed" }

/-- The surroundings `sampleEnv` with the pod reported failed at the first status query and
the second query failing. -/
def secondQueryFailsEnv : Env :=
  { sampleEnv with
    podGet := fun i _ _ => if i = 0 then .ok "Failed" else .error "connection refused" }


/-- The request of `sampleOptions` with an empty volume name. -/
def unnamedOptions : VolumeOptions := { sampleOptions with PVName := "" }

/-! # Theorems -/

/-! ## The loop of `Clean`, element by element -/

theorem isPathSeparator_iff (c : Char) : isPathSeparator c = true ↔ c = '/' := by
  simp [isPathSeparator]

theorem atElementEnd_cons (c : Char) (t : List Char) :
    atElementEnd (c :: t) = true ↔ c = '/' := by
  simp [atElementEnd, isPathSeparator]

theorem cleanLoop_nil (rooted copying : Bool) (out : List Char) (dd : Nat) :
    cleanLoop rooted copying [] out dd = out := by
  cases copying <;> simp [cleanLoop]

/-- The outer loop skips a separator. -/
theorem cleanLoop_skip (rooted : Bool) (t out : List Char) (dd : Nat) :
    cleanLoop rooted false ('/' :: t) out dd = cleanLoop rooted false t out dd := by
  cases t with
  | nil => simp [cleanLoop, isPathSeparator]
  | cons d r => simp [cleanLoop, isPathSeparator]

/-- Leaving the copy loop at the end of an element is the same as being in the outer loop. -/
theorem cleanLoop_copy_end (rooted : Bool) (tail out : List Char) (dd : Nat)
    (ht : atElementEnd tail = true) :
    cleanLoop rooted true tail out dd = cleanLoop rooted false tail out dd := by
  cases tail with
  | nil => simp [cleanLoop]
  | cons c t =>
    have hc : c = '/' := (atElementEnd_cons c t).1 ht
    subst hc
    rw [cleanLoop_skip]
    simp [cleanLoop, isPathSeparator]

/-- The copy loop writes the rest of an element. -/
theorem cleanLoop_copy (rooted : Bool) (e tail : List Char) (ht : atElementEnd tail = true)
    (he : '/' ∉ e) (out : List Char) (dd : Nat) :
    cleanLoop rooted true (e ++ tail) out dd
      = cleanLoop rooted false tail (e.reverse ++ out) dd := by
  induction e generalizing out with
  | nil => simpa using cleanLoop_copy_end rooted tail out dd ht
  | cons c e ih =>
    have hc : c ≠ '/' := fun h => he (by simp [h])
    have he2 : '/' ∉ e := fun h => he (List.mem_cons_of_mem _ h)
    have : cleanLoop rooted true (c :: (e ++ tail)) out dd
        = cleanLoop rooted true (e ++ tail) (c :: out) dd := by
      simp [cleanLoop, isPathSeparator, hc]
    simp only [List.cons_append, this, ih he2, List.reverse_cons, List.append_assoc,
      List.singleton_append]
    simp

/-- The outer loop drops a `.` element. -/
theorem cleanLoop_dot (rooted : Bool) (tail out : List Char) (dd : Nat)
    (ht : atElementEnd tail = true) :
    cleanLoop rooted false ('.' :: tail) out dd = cleanLoop rooted false tail out dd := by
  cases tail with
  | nil => simp [cleanLoop, isPathSeparator]
  | cons c t =>
    have hc : c = '/' := (atElementEnd_cons c t).1 ht
    subst hc
    simp [cleanLoop, isPathSeparator]

/-- The outer loop handles a `..` element by `cleanDotDot`. -/
theorem cleanLoop_dotdot (rooted : Bool) (tail out : List Char) (dd : Nat)
    (ht : atElementEnd tail = true) :
    cleanLoop rooted false ('.' :: '.' :: tail) out dd
      = cleanLoop rooted false tail (cleanDotDot rooted out dd).1 (cleanDotDot rooted out dd).2 := by
  simp [cleanLoop, isPathSeparator, ht]

/-- The default case of the switch: the first byte of a real element is written behind a
separator and the copy loop takes over. -/
theorem cleanLoop_default (rooted : Bool) (c : Char) (rest out : List Char) (dd : Nat)
    (hc : c ≠ '/') (h1 : ¬ (c = '.' ∧ atElementEnd rest = true))
    (h2 : ∀ rest2, rest = '.' :: rest2 → ¬ (c = '.' ∧ atElementEnd rest2 = true)) :
    cleanLoop rooted false (c :: rest) out dd
      = cleanLoop rooted true rest (c :: addSeparator rooted out) dd := by
  cases rest with
  | nil =>
    have hc2 : c ≠ '.' := fun h => h1 ⟨h, rfl⟩
    simp [cleanLoop, isPathSeparator, hc, hc2]
  | cons d rest2 =>
    have h1a : ¬ (c = '.' ∧ isPathSeparator d = true) := by
      simpa [atElementEnd] using h1
    have h2a : ¬ (c = '.' ∧ d = '.' ∧ atElementEnd rest2 = true) := by
      rintro ⟨hcd, hd, hr⟩
      exact h2 rest2 (by rw [hd]) ⟨hcd, hr⟩
    have hL : cleanLoop rooted false (c :: d :: rest2) out dd
        = if isPathSeparator c then cleanLoop rooted false (d :: rest2) out dd
          else if c = '.' ∧ isPathSeparator d then cleanLoop rooted false (d :: rest2) out dd
          else if c = '.' ∧ d = '.' ∧ atElementEnd rest2 then
            cleanLoop rooted false rest2 (cleanDotDot rooted out dd).1
              (cleanDotDot rooted out dd).2
          else cleanLoop rooted true (d :: rest2) (c :: addSeparator rooted out) dd := by
      conv_lhs => rw [cleanLoop]
    have hc3 : ¬ (isPathSeparator c = true) := fun h => hc ((isPathSeparator_iff c).1 h)
    rw [hL, if_neg hc3, if_neg h1a, if_neg h2a]

/-- The outer loop writes a real element behind a separator. -/
theorem cleanLoop_element (rooted : Bool) (e tail : List Char) (ht : atElementEnd tail = true)
    (he : IsRealElement e) (out : List Char) (dd : Nat) :
    cleanLoop rooted false (e ++ tail) out dd
      = cleanLoop rooted false tail (e.reverse ++ addSeparator rooted out) dd := by
  obtain ⟨hne, hsep, hdot, hdotdot⟩ := he
  cases e with
  | nil => exact absurd rfl hne
  | cons c e =>
    have hc : c ≠ '/' := fun h => hsep (by simp [h])
    have he2 : '/' ∉ e := fun h => hsep (List.mem_cons_of_mem _ h)
    have h1 : ¬ (c = '.' ∧ atElementEnd (e ++ tail) = true) := by
      rintro ⟨hcd, hend⟩
      cases e with
      | nil => exact hdot (by rw [hcd])
      | cons x e3 =>
        have hx : x = '/' := (atElementEnd_cons _ _).1 hend
        exact he2 (by simp [hx])
    have h2 : ∀ rest2, e ++ tail = '.' :: rest2 → ¬ (c = '.' ∧ atElementEnd rest2 = true) := by
      rintro rest2 hrest ⟨hcd, hend⟩
      cases e with
      | nil =>
        simp only [List.nil_append] at hrest
        rw [hrest] at ht
        exact absurd ((atElementEnd_cons _ _).1 ht) (by decide)
      | cons x e3 =>
        simp only [List.cons_append, List.cons.injEq] at hrest
        cases e3 with
        | nil => exact hdotdot (by rw [hcd, hrest.1])
        | cons y e4 =>
          have hr2 := hrest.2
          simp only [List.cons_append] at hr2
          rw [← hr2] at hend
          have hy : y = '/' := (atElementEnd_cons _ _).1 hend
          exact he2 (by simp [hy])
    rw [List.cons_append, cleanLoop_default rooted c (e ++ tail) out dd hc h1 h2,
      cleanLoop_copy rooted e tail ht he2]
    simp

/-! ## Rooted paths -/

theorem elementsBuf_length_two (e : List Char) (es : List (List Char)) (he : e ≠ []) :
    2 ≤ (elementsBuf (e :: es)).length := by
  cases e with
  | nil => exact absurd rfl he
  | cons c e => simp [elementsBuf]; omega

theorem rootedBuf_cons (e : List Char) (es : List (List Char)) :
    rootedBuf (e :: es) = e.reverse ++ '/' :: elementsBuf es := by
  simp [rootedBuf, elementsBuf]

/-- Writing a real element on a rooted buffer pushes it on the stack. -/
theorem addSeparator_rootedBuf (e : List Char) (es : List (List Char))
    (hes : ∀ x ∈ es, IsRealElement x) :
    e.reverse ++ addSeparator true (rootedBuf es) = rootedBuf (e :: es) := by
  cases es with
  | nil => simp [rootedBuf, addSeparator, elementsBuf]
  | cons x xs =>
    have hx : x ≠ [] := (hes x (by simp)).1
    have hlen := elementsBuf_length_two x xs hx
    have hrb : rootedBuf (x :: xs) = elementsBuf (x :: xs) := by simp [rootedBuf]
    have h1 : (elementsBuf (x :: xs)).length ≠ 1 := by omega
    rw [rootedBuf_cons e (x :: xs), hrb]
    simp [addSeparator, h1]

/-- Backtracking over the bytes of one element stops at the separator before it. -/
theorem backtrackLoop_element (r base : List Char) (x : Char) (hx : x ≠ '/') (hr : '/' ∉ r) :
    backtrackLoop 1 (r ++ '/' :: base) x = if base = [] then ['/'] else base := by
  induction r generalizing x with
  | nil =>
    cases base with
    | nil => simp [backtrackLoop]
    | cons b base =>
      have hxs : ¬ (isPathSeparator x = true) := fun h => hx ((isPathSeparator_iff x).1 h)
      simp [backtrackLoop, hx, isPathSeparator]
  | cons y r ih =>
    have hy : y ≠ '/' := fun h => hr (by simp [h])
    have hr2 : '/' ∉ r := fun h => hr (List.mem_cons_of_mem _ h)
    have hxs : ¬ (isPathSeparator x = true) := fun h => hx ((isPathSeparator_iff x).1 h)
    have hstep : backtrackLoop 1 (y :: (r ++ '/' :: base)) x
        = backtrackLoop 1 (r ++ '/' :: base) y := by
      conv_lhs => rw [backtrackLoop]
      simp [hxs]
    rw [List.cons_append, hstep, ih y hy hr2]

/-- On a rooted buffer `..` pops the top element, and does nothing at the root. -/
theorem cleanDotDot_rootedBuf (es : List (List Char)) (hes : ∀ x ∈ es, IsRealElement x) :
    cleanDotDot true (rootedBuf es) 1 = (rootedBuf es.tail, 1) := by
  cases es with
  | nil => simp [rootedBuf, cleanDotDot]
  | cons e es =>
    obtain ⟨hne, hsep, -, -⟩ := hes e (by simp)
    have hlen := elementsBuf_length_two e es hne
    have hrev : '/' ∉ e.reverse := by simpa using hsep
    cases hre : e.reverse with
    | nil => exact absurd (List.reverse_eq_nil_iff.1 hre) hne
    | cons x r =>
      rw [hre] at hrev
      have hx : x ≠ '/' := fun h => hrev (by simp [h])
      have hr : '/' ∉ r := fun h => hrev (List.mem_cons_of_mem _ h)
      have hbuf : rootedBuf (e :: es) = x :: (r ++ '/' :: elementsBuf es) := by
        rw [rootedBuf_cons, hre]; rfl
      have hgt : (x :: (r ++ '/' :: elementsBuf es)).length > 1 := by
        simp
      rw [hbuf]
      simp only [cleanDotDot, if_pos hgt, List.tail_cons]
      rw [backtrackLoop_element r (elementsBuf es) x hx hr]
      cases es with
      | nil => simp [rootedBuf, elementsBuf]
      | cons y ys =>
        have : elementsBuf (y :: ys) ≠ [] := by simp [elementsBuf]
        simp [rootedBuf, this]

theorem atElementEnd_rootedPath_append (fs : List (List Char)) (tail : List Char)
    (ht : atElementEnd tail = true) : atElementEnd (rootedPath fs ++ tail) = true := by
  cases fs with
  | nil => simpa [rootedPath] using ht
  | cons e fs => simp [rootedPath, atElementEnd, isPathSeparator]

/-- Reading the bytes `/e1/.../ek` pushes the real elements `e1 ... ek`. -/
theorem cleanLoop_rootedPath (fs : List (List Char)) (hfs : ∀ x ∈ fs, IsRealElement x)
    (tail : List Char) (ht : atElementEnd tail = true)
    (es : List (List Char)) (hes : ∀ x ∈ es, IsRealElement x) :
    cleanLoop true false (rootedPath fs ++ tail) (rootedBuf es) 1
      = cleanLoop true false tail (rootedBuf (fs.reverse ++ es)) 1 := by
  induction fs generalizing es with
  | nil => simp [rootedPath]
  | cons e fs ih =>
    have he : IsRealElement e := hfs e (by simp)
    have hfs2 : ∀ x ∈ fs, IsRealElement x := fun x hx => hfs x (List.mem_cons_of_mem _ hx)
    have hes2 : ∀ x ∈ e :: es, IsRealElement x := by
      intro x hx
      rcases List.mem_cons.1 hx with h | h
      · exact h ▸ he
      · exact hes x h
    have hshape : rootedPath (e :: fs) ++ tail = '/' :: (e ++ (rootedPath fs ++ tail)) := by
      simp [rootedPath]
    rw [hshape, cleanLoop_skip,
      cleanLoop_element true e _ (atElementEnd_rootedPath_append fs tail ht) he,
      addSeparator_rootedBuf e es hes, ih hfs2 (e :: es) hes2]
    simp

/-- Every input starts with a separator-free run of bytes that ends at a separator or at the
end of the input. -/
theorem exists_element_split (l : List Char) :
    ∃ e tail, l = e ++ tail ∧ '/' ∉ e ∧ atElementEnd tail = true := by
  induction l with
  | nil => exact ⟨[], [], rfl, by simp, rfl⟩
  | cons c l ih =>
    by_cases hc : c = '/'
    · exact ⟨[], c :: l, rfl, by simp, by simp [atElementEnd, isPathSeparator, hc]⟩
    · obtain ⟨e, tail, hl, he, ht⟩ := ih
      refine ⟨c :: e, tail, by rw [hl]; rfl, ?_, ht⟩
      intro hmem
      rcases List.mem_cons.1 hmem with h | h
      · exact hc h.symm
      · exact he h

/-- The loop of `Clean` keeps a rooted buffer a rooted buffer, whatever it reads. -/
theorem cleanLoop_rootedBuf (n : Nat) : ∀ (input : List Char), input.length ≤ n →
    ∀ es : List (List Char), (∀ x ∈ es, IsRealElement x) →
    ∃ es2 : List (List Char), (∀ x ∈ es2, IsRealElement x) ∧
      cleanLoop true false input (rootedBuf es) 1 = rootedBuf es2 := by
  induction n with
  | zero =>
    intro input hlen es hes
    have : input = [] := List.length_eq_zero.1 (Nat.le_zero.1 hlen)
    subst this
    exact ⟨es, hes, by simp [cleanLoop]⟩
  | succ n ih =>
    intro input hlen es hes
    cases input with
    | nil => exact ⟨es, hes, by simp [cleanLoop]⟩
    | cons c rest =>
      have hrest : rest.length ≤ n := by simpa using hlen
      by_cases hc : c = '/'
      · subst hc
        rw [cleanLoop_skip]
        exact ih rest hrest es hes
      · -- split off the element that starts at `c`
        obtain ⟨e1, tail, hsplit1, hsep1, htail⟩ := exists_element_split rest
        have hsplit : c :: rest = (c :: e1) ++ tail := by rw [hsplit1]; rfl
        generalize he1 : c :: e1 = e at hsplit
        have hesep : '/' ∉ e := by
          rw [← he1]
          intro hmem
          rcases List.mem_cons.1 hmem with h | h
          · exact hc h.symm
          · exact hsep1 h
        have hene : e ≠ [] := by rw [← he1]; simp
        have hlen2 : tail.length ≤ n := by
          have h1 : (c :: rest).length = e.length + tail.length := by
            conv_lhs => rw [hsplit]
            simp
          have h2 : 0 < e.length := List.length_pos.2 hene
          simp at h1 hlen
          omega
        rw [hsplit]
        by_cases hdot : e = ['.']
        · subst hdot
          rw [List.singleton_append, cleanLoop_dot true tail _ 1 htail]
          exact ih tail hlen2 es hes
        · by_cases hdd : e = ['.', '.']
          · subst hdd
            have : ['.', '.'] ++ tail = '.' :: '.' :: tail := rfl
            rw [this, cleanLoop_dotdot true tail _ 1 htail, cleanDotDot_rootedBuf es hes]
            exact ih tail hlen2 es.tail (fun x hx => hes x (List.mem_of_mem_tail hx))
          · have he : IsRealElement e := ⟨hene, hesep, hdot, hdd⟩
            rw [cleanLoop_element true e tail htail he, addSeparator_rootedBuf e es hes]
            refine ih tail hlen2 (e :: es) ?_
            intro x hx
            rcases List.mem_cons.1 hx with h | h
            · exact h ▸ he
            · exact hes x h

theorem rootedPath_append (as bs : List (List Char)) :
    rootedPath (as ++ bs) = rootedPath as ++ rootedPath bs := by
  induction as with
  | nil => rfl
  | cons a as ih => simp [rootedPath, ih]

theorem elementsBuf_reverse (es : List (List Char)) :
    (elementsBuf es).reverse = rootedPath es.reverse := by
  induction es with
  | nil => rfl
  | cons e es ih => simp [elementsBuf, rootedPath_append, rootedPath, ih]

theorem rootedBuf_ne_nil (es : List (List Char)) : rootedBuf es ≠ [] := by
  cases es with
  | nil => simp [rootedBuf]
  | cons e es => simp [rootedBuf, elementsBuf]

theorem rootedBuf_reverse (es : List (List Char)) :
    (rootedBuf es).reverse = if es = [] then ['/'] else rootedPath es.reverse := by
  cases es with
  | nil => simp [rootedBuf]
  | cons e es =>
    have : rootedBuf (e :: es) = elementsBuf (e :: es) := by simp [rootedBuf]
    rw [this, elementsBuf_reverse]
    simp

/-- Cleaning a rooted path, in terms of the loop started on the whole path. -/
theorem cleanChars_rooted (rest : List Char) :
    cleanChars ('/' :: rest)
      = if (cleanLoop true false ('/' :: rest) (rootedBuf []) 1).length = 0 then ['.']
        else (cleanLoop true false ('/' :: rest) (rootedBuf []) 1).reverse := by
  rw [cleanLoop_skip]
  simp [cleanChars, isPathSeparator, rootedBuf]

/-- Cleaning a rooted path gives the root or a separator-led sequence of real elements. -/
theorem cleanChars_rooted_shape (rest : List Char) :
    ∃ fs : List (List Char), (∀ x ∈ fs, IsRealElement x) ∧
      cleanChars ('/' :: rest) = if fs = [] then ['/'] else rootedPath fs := by
  obtain ⟨es, hes, hrun⟩ :=
    cleanLoop_rootedBuf ('/' :: rest).length ('/' :: rest) (Nat.le_refl _) [] (by simp)
  refine ⟨es.reverse, fun x hx => hes x (List.mem_reverse.1 hx), ?_⟩
  have hne : (rootedBuf es).length ≠ 0 := by
    intro h
    exact rootedBuf_ne_nil es (List.length_eq_zero.1 h)
  rw [cleanChars_rooted, hrun, if_neg hne, rootedBuf_reverse]
  simp

/-- Cleaning `/e1/.../ek` followed by further input is decided by the loop on that
further input, started with `e1 ... ek` on the stack. -/
theorem cleanChars_rootedPath_append (e : List Char) (fs : List (List Char))
    (hfs : ∀ x ∈ e :: fs, IsRealElement x) (tail : List Char) (ht : atElementEnd tail = true) :
    cleanChars (rootedPath (e :: fs) ++ tail)
      = (cleanLoop true false tail (rootedBuf ((e :: fs).reverse)) 1).reverse := by
  have hshape : rootedPath (e :: fs) ++ tail = '/' :: (e ++ rootedPath fs ++ tail) := by
    simp [rootedPath]
  have hrun := cleanLoop_rootedPath (e :: fs) hfs tail ht [] (by simp)
  rw [hshape] at hrun ⊢
  rw [cleanChars_rooted, hrun]
  simp only [List.append_nil]
  obtain ⟨es2, -, hes2⟩ := cleanLoop_rootedBuf tail.length tail (Nat.le_refl _)
    ((e :: fs).reverse) (fun x hx => hfs x (List.mem_reverse.1 hx))
  have hne : (rootedBuf es2).length ≠ 0 := by
    intro h
    exact rootedBuf_ne_nil es2 (List.length_eq_zero.1 h)
  rw [hes2, if_neg hne]

theorem IsCanonicalPath.ne_empty {path : String} (h : IsCanonicalPath path) : path ≠ "" := by
  obtain ⟨fs, hne, -, hdata⟩ := h
  intro hp
  subst hp
  cases fs with
  | nil => exact hne rfl
  | cons e fs => simp [rootedPath] at hdata

/-- Cleaning an absolute path gives a canonical path unless it gives the root. -/
theorem Clean_isCanonicalPath (path : String) (habs : IsAbs path = true)
    (hroot : Clean path ≠ "/") : IsCanonicalPath (Clean path) := by
  cases hdata : path.data with
  | nil => simp [IsAbs, hdata] at habs
  | cons c rest =>
    have hc : c = '/' := by simpa [IsAbs, hdata] using habs
    subst hc
    obtain ⟨fs, hfs, hshape⟩ := cleanChars_rooted_shape rest
    have hclean : (Clean path).data = cleanChars ('/' :: rest) := by simp [Clean, hdata]
    by_cases hnil : fs = []
    · exfalso
      apply hroot
      apply String.ext
      rw [hclean, hshape, if_pos hnil]
    · exact ⟨fs, hnil, hfs, by rw [hclean, hshape, if_neg hnil]⟩

/-- Cleaning a canonical path extended by one real element changes nothing. -/
theorem Clean_append_element (m x : String) (hm : IsCanonicalPath m)
    (hx : IsRealElement x.data) : Clean (m ++ "/" ++ x) = m ++ "/" ++ x := by
  obtain ⟨fs, hne, hfs, hdata⟩ := hm
  cases fs with
  | nil => exact absurd rfl hne
  | cons e fs =>
    have hall : ∀ y ∈ (e :: fs) ++ [x.data], IsRealElement y := by
      intro y hy
      rcases List.mem_append.1 hy with h | h
      · exact hfs y h
      · rw [List.mem_singleton.1 h]; exact hx
    have hin : (m ++ "/" ++ x).data = rootedPath (e :: (fs ++ [x.data])) ++ [] := by
      have : e :: (fs ++ [x.data]) = (e :: fs) ++ [x.data] := rfl
      rw [this, rootedPath_append]
      simp [String.data_append, hdata, rootedPath]
    apply String.ext
    have hout : (Clean (m ++ "/" ++ x)).data = cleanChars ((m ++ "/" ++ x).data) := rfl
    rw [hout, hin, cleanChars_rootedPath_append e (fs ++ [x.data]) hall [] rfl]
    rw [cleanLoop_nil, rootedBuf_reverse]
    simp

/-- Cleaning a canonical path followed by a separator gives the path back. -/
theorem cleanChars_append_separator (m : String) (hm : IsCanonicalPath m) :
    cleanChars (m.data ++ ['/']) = m.data := by
  obtain ⟨fs, hne, hfs, hdata⟩ := hm
  cases fs with
  | nil => exact absurd rfl hne
  | cons e fs =>
    rw [hdata, cleanChars_rootedPath_append e fs hfs ['/'] rfl, cleanLoop_skip, cleanLoop_nil,
      rootedBuf_reverse]
    simp

theorem dirPrefix_append (a x : List Char) (hx : '/' ∉ x) :
    dirPrefix (a ++ '/' :: x) = a ++ ['/'] := by
  have hdrop : ∀ (r b : List Char), '/' ∉ r →
      (r ++ '/' :: b).dropWhile (fun c => ! isPathSeparator c) = '/' :: b := by
    intro r b hr
    induction r with
    | nil => simp [List.dropWhile, isPathSeparator]
    | cons y r ih =>
      have hy : y ≠ '/' := fun h => hr (by simp [h])
      have hr2 : '/' ∉ r := fun h => hr (List.mem_cons_of_mem _ h)
      have hp : (! isPathSeparator y) = true := by simp [isPathSeparator, hy]
      rw [List.cons_append, List.dropWhile_cons, if_pos hp]
      exact ih hr2
  have hrev : (a ++ '/' :: x).reverse = x.reverse ++ '/' :: a.reverse := by simp
  have hxr : '/' ∉ x.reverse := by simpa using hx
  simp [dirPrefix, hrev, hdrop x.reverse a.reverse hxr]

/-- The directory of a canonical path extended by one separator-free element is that path. -/
theorem Dir_append_element (m x : String) (hm : IsCanonicalPath m) (hx : '/' ∉ x.data) :
    Dir (m ++ "/" ++ x) = m := by
  apply String.ext
  have hin : (m ++ "/" ++ x).data = m.data ++ '/' :: x.data := by
    simp [String.data_append]
  have hout : (Dir (m ++ "/" ++ x)).data = cleanChars (dirPrefix (m ++ "/" ++ x).data) := rfl
  rw [hout, hin, dirPrefix_append _ _ hx, cleanChars_append_separator m hm]

/-- Joining a canonical path and one real element is plain concatenation. -/
theorem Join_append_element (m x : String) (hm : IsCanonicalPath m)
    (hx : IsRealElement x.data) : Join m x = m ++ "/" ++ x := by
  simp [Join, hm.ne_empty, Clean_append_element m x hm hx]

/-- The name `namespace-name` of a claim is a real path element when neither part holds a
separator. -/
theorem isRealElement_pvcName (ns name : String) (hns : '/' ∉ ns.data) (hname : '/' ∉ name.data) :
    IsRealElement (ns ++ "-" ++ name).data := by
  have hdata : (ns ++ "-" ++ name).data = ns.data ++ '-' :: name.data := by
    simp [String.data_append]
  have hmem : '-' ∈ (ns ++ "-" ++ name).data := by rw [hdata]; simp
  refine ⟨?_, ?_, ?_, ?_⟩
  · intro h; rw [h] at hmem; simp at hmem
  · rw [hdata]
    intro h
    rcases List.mem_append.1 h with h | h
    · exact hns h
    · rcases List.mem_cons.1 h with h | h
      · exact absurd h (by decide)
      · exact hname h
  · intro h; rw [h] at hmem; simp at hmem
  · intro h; rw [h] at hmem; simp at hmem

/-! ## Config store -/

theorem canonicalizeConfig_isOk (env : Env) (data : ConfigData) (cfg : Config) :
    canonicalizeConfig env data = .ok cfg ↔ canonicalizeLoop env data.NodeVGMap.elems [] = .ok cfg := by
  unfold canonicalizeConfig Wrapf
  cases canonicalizeLoop env data.NodeVGMap.elems [] <;> simp

theorem lookup_mem {β : Type} (l : List (String × β)) (k : String) (v : β)
    (h : l.lookup k = some v) : (k, v) ∈ l := by
  induction l with
  | nil => simp [List.lookup] at h
  | cons kv l ih =>
    obtain ⟨k1, v1⟩ := kv
    by_cases hk : k = k1
    · subst hk
      simp [List.lookup] at h
      simp [h]
    · have hbeq : (k == k1) = false := by simpa using hk
      simp only [List.lookup, hbeq] at h
      exact List.mem_cons_of_mem _ (ih h)

theorem IsAbs_of_data (path : String) (rest : List Char) (h : path.data = '/' :: rest) :
    IsAbs path = true := by
  simp [IsAbs, h]

/-- Every path that the loop of `canonicalizeConfig` stores is canonical. -/
theorem canonicalizeLoop_paths (env : Env) (l : List (Option NodeVGMapData)) :
    ∀ (m : List (String × NodeVGMap)) (cfg : Config),
      canonicalizeLoop env l m = .ok cfg →
      (∀ kv ∈ m, IsCanonicalPath kv.2.Path) →
      ∀ kv ∈ cfg.NodeVGMap, IsCanonicalPath kv.2.Path := by
  induction l with
  | nil =>
    intro m cfg h hm
    simp only [canonicalizeLoop, GoResult.ok.injEq] at h
    rw [← h]
    exact hm
  | cons entry rest ih =>
    intro m cfg h hm
    cases entry with
    | none => simp [canonicalizeLoop] at h
    | some n =>
      simp only [canonicalizeLoop] at h
      split at h
      · simp at h
      · split at h
        · simp at h
        · rename_i c tl hdata
          split at h
          · simp at h
          · rename_i hc
            have hc2 : c = '/' := by simpa using hc
            have habs : IsAbs n.Path = true := IsAbs_of_data n.Path tl (by rw [hdata, hc2])
            have hAbs : Abs env.getwd n.Path = .ok (Clean n.Path) := by simp [Abs, habs]
            rw [hAbs] at h
            simp only at h
            split at h
            · simp at h
            · rename_i hroot
              split at h
              · simp at h
              · simp at h
              · rename_i vgs hvgs
                refine ih _ cfg h ?_
                intro kv hkv
                rcases List.mem_append.1 hkv with hin | hin
                · exact hm kv hin
                · rw [List.mem_singleton.1 hin]
                  exact Clean_isCanonicalPath n.Path habs hroot

/-- Every path in a config returned by `canonicalizeConfig` is canonical. -/
theorem canonicalizeConfig_paths (env : Env) (data : ConfigData) (cfg : Config)
    (h : canonicalizeConfig env data = .ok cfg) :
    ∀ kv ∈ cfg.NodeVGMap, IsCanonicalPath kv.2.Path :=
  canonicalizeLoop_paths env _ [] cfg ((canonicalizeConfig_isOk env data cfg).1 h) (by simp)

theorem matchedEntry_mem (c : Config) (node : String) (npMap : NodeVGMap)
    (h : matchedEntry c node = some npMap) : ∃ k, (k, npMap) ∈ c.NodeVGMap := by
  unfold matchedEntry at h
  cases hget : c.get node with
  | some v =>
    rw [hget] at h
    simp only [Option.some.injEq] at h
    rw [← h]
    exact ⟨node, lookup_mem _ _ _ hget⟩
  | none =>
    rw [hget] at h
    exact ⟨_, lookup_mem _ _ _ h⟩

theorem Wrapf_isOk {α : Type} (r : GoResult α) (msg : String) :
    (Wrapf r msg).isOk = r.isOk := by
  cases r <;> rfl

theorem Wrapf_isPanic {α : Type} (r : GoResult α) (msg : String) :
    (Wrapf r msg).isPanic = r.isPanic := by
  cases r <;> rfl

theorem isError_of_not_ok_not_panic {α : Type} (r : GoResult α) (hok : r.isOk = false)
    (hpanic : r.isPanic = false) : r.isError = true := by
  cases r <;> simp_all [GoResult.isOk, GoResult.isPanic, GoResult.isError]

theorem canonicalizeVGs_isPanic (node : String) (l : List String) :
    ∀ vgs, (canonicalizeVGs node l vgs).isPanic = false := by
  induction l with
  | nil => intro vgs; rfl
  | cons vg rest ih =>
    intro vgs
    simp only [canonicalizeVGs]
    split
    · rfl
    · exact ih _

/-- The loop of `canonicalizeConfig` returns no config when some entry has a path that is
empty, not absolute, or cleans to the root. -/
theorem canonicalizeLoop_bad_path (env : Env) (l : List (Option NodeVGMapData)) :
    ∀ m, (∃ n, some n ∈ l ∧ (IsAbs n.Path = false ∨ Clean n.Path = "/")) →
      (canonicalizeLoop env l m).isOk = false := by
  induction l with
  | nil => intro m ⟨n, hn, _⟩; simp at hn
  | cons entry rest ih =>
    intro m ⟨n, hn, hbad⟩
    cases entry with
    | none => rfl
    | some n0 =>
      simp only [canonicalizeLoop]
      split
      · rfl
      · split
        · rfl
        · rename_i c tl hdata
          split
          · rfl
          · rename_i hc
            have hc2 : c = '/' := by simpa using hc
            have habs : IsAbs n0.Path = true := IsAbs_of_data n0.Path tl (by rw [hdata, hc2])
            have hAbs : Abs env.getwd n0.Path = .ok (Clean n0.Path) := by simp [Abs, habs]
            rw [hAbs]
            simp only
            split
            · rfl
            · rename_i hroot
              split
              · rfl
              · rfl
              · apply ih
                rcases List.mem_cons.1 hn with h0 | hin
                · simp only [Option.some.injEq] at h0
                  subst h0
                  rcases hbad with hb | hb
                  · rw [habs] at hb; cases hb
                  · exact absurd hb hroot
                · exact ⟨n, hin, hbad⟩

/-- The loop of `canonicalizeConfig` panics only on a nil entry or an empty path. -/
theorem canonicalizeLoop_isPanic (env : Env) (l : List (Option NodeVGMapData)) :
    ∀ m, (∀ entry ∈ l, ∃ n, entry = some n ∧ n.Path ≠ "") →
      (canonicalizeLoop env l m).isPanic = false := by
  induction l with
  | nil => intro m _; rfl
  | cons entry rest ih =>
    intro m hall
    obtain ⟨n0, hn0, hpath⟩ := hall entry (by simp)
    subst hn0
    simp only [canonicalizeLoop]
    split
    · rfl
    · split
      · rename_i hdata
        exact absurd (String.ext (by rw [hdata])) hpath
      · rename_i c tl hdata
        split
        · rfl
        · rename_i hc
          have hc2 : c = '/' := by simpa using hc
          have habs : IsAbs n0.Path = true := IsAbs_of_data n0.Path tl (by rw [hdata, hc2])
          have hAbs : Abs env.getwd n0.Path = .ok (Clean n0.Path) := by simp [Abs, habs]
          rw [hAbs]
          simp only
          split
          · rfl
          · split
            · rfl
            · rename_i msg hvg
              have := canonicalizeVGs_isPanic n0.Node n0.VGs.elems []
              rw [hvg] at this
              cases this
            · exact ih _ (fun e he => hall e (List.mem_cons_of_mem _ he))

/-- No config is returned for a raw config with an entry whose path is empty, relative, or
cleans to the root; when no entry is nil and no path is empty the outcome is an error. -/
theorem canonicalizeConfig_bad_path (env : Env) (data : ConfigData)
    (h : ∃ n, some n ∈ data.NodeVGMap.elems ∧ (IsAbs n.Path = false ∨ Clean n.Path = "/")) :
    (canonicalizeConfig env data).isOk = false
      ∧ ((∀ entry ∈ data.NodeVGMap.elems, ∃ n, entry = some n ∧ n.Path ≠ "") →
          (canonicalizeConfig env data).isError = true) := by
  have hok : (canonicalizeConfig env data).isOk = false := by
    unfold canonicalizeConfig
    rw [Wrapf_isOk]
    exact canonicalizeLoop_bad_path env _ [] h
  refine ⟨hok, fun hall => isError_of_not_ok_not_panic _ hok ?_⟩
  unfold canonicalizeConfig
  rw [Wrapf_isPanic]
  exact canonicalizeLoop_isPanic env _ [] hall

/-- C1: a raw config whose entry has the empty path makes `canonicalizeConfig` panic on
`n.Path[0]` (index out of range) instead of returning a validation error; the call neither
returns an error nor a config. -/
theorem canonicalizeConfig_empty_path_panics (env : Env) :
    canonicalizeConfig env emptyPathConfigData = .panic "index out of range [0] with length 0"
      ∧ (canonicalizeConfig env emptyPathConfigData).isError = false := by
  constructor <;> rfl

/-- C10: when `refreshConfig` returns an error, the provisioner after the call is the
provisioner before it; in particular the active config and the raw snapshot are unchanged.
An error is returned exactly when loading fails or canonicalization returns an error. -/
theorem refreshConfig_error_keeps_state (p : LocalLVMProvisioner) (env : Env) (e : GoError)
    (h : (refreshConfig p env).1 = .error e) :
    (refreshConfig p env).2.1 = p
      ∧ (refreshConfig p env).2.1.config = p.config
      ∧ (refreshConfig p env).2.1.configData = p.configData
      ∧ (loadConfigFile env p.configFile = .error e
          ∨ ∃ data, loadConfigFile env p.configFile = .ok data
              ∧ canonicalizeConfig env data = .error e) := by
  unfold refreshConfig at h ⊢
  cases hload : loadConfigFile env p.configFile with
  | error e1 =>
    simp only [hload, GoResult.error.injEq] at h ⊢
    simp [h]
  | panic msg => simp [hload] at h
  | ok data =>
    simp only [hload] at h ⊢
    by_cases heq : some data = p.configData
    · simp [heq] at h
    · cases hcanon : canonicalizeConfig env data with
      | error e1 =>
        simp only [if_neg heq, hcanon, GoResult.error.injEq] at h ⊢
        simp [← h, hcanon]
      | panic msg => simp [if_neg heq, hcanon] at h
      | ok cfg => simp [if_neg heq, hcanon] at h

theorem refreshConfig_error_keeps_state_witness :
    (refreshConfig sampleProvisioner unreadableEnv).1
        = .error (.wrapf "fail to load config file /etc/config/config.json"
            (.external "open: no such file"))
      ∧ (refreshConfig sampleProvisioner unreadableEnv).2.1 = sampleProvisioner
      ∧ (refreshConfig sampleProvisioner unreadableEnv).2.1.config = sampleProvisioner.config :=
  ⟨by decide,
    (refreshConfig_error_keeps_state sampleProvisioner unreadableEnv
      (.wrapf "fail to load config file /etc/config/config.json"
        (.external "open: no such file")) (by decide)).1,
    (refreshConfig_error_keeps_state sampleProvisioner unreadableEnv
      (.wrapf "fail to load config file /etc/config/config.json"
        (.external "open: no such file")) (by decide)).2.1⟩

/-! ## Node resolution -/

/-- Two strings whose first bytes differ are different, whatever follows the first. -/
theorem append_ne_of_head (pre x t : String) (hpre : pre.data.head? ≠ none)
    (hne : pre.data.head? ≠ t.data.head?) : pre ++ x ≠ t := by
  intro h
  apply hne
  rw [← h, String.data_append]
  cases hd : pre.data with
  | nil => rw [hd] at hpre; exact absurd rfl hpre
  | cons c r => rfl

/-- The result of `getPathAndVGOnNode` in terms of the matched entry. -/
theorem getPathAndVGOnNode_result (p : LocalLVMProvisioner) (env : Env) (node : String) :
    (getPathAndVGOnNode p env node).1 =
      match p.config with
      | none => .error (.errorf "no valid config available")
      | some c =>
        match matchedEntry c node with
        | none =>
          .error (.errorf ("config doesn't contain node " ++ node ++ ", and no "
            ++ NodeDefaultNonListedNodes ++ " available"))
        | some npMap =>
          if npMap.Path = "" then .error (.errorf ("no mount path defined on node " ++ node))
          else if npMap.VGs.length = 0 then
            .error (.errorf ("no local volume group available on node " ++ node))
          else .ok (npMap.Path, rangeFirstKey env npMap.VGs) := by
  unfold getPathAndVGOnNode matchedEntry
  cases p.config with
  | none => rfl
  | some c =>
    simp only
    cases c.get node with
    | some npMap =>
      simp only
      split <;> [rfl; (split <;> rfl)]
    | none =>
      simp only
      cases c.get NodeDefaultNonListedNodes with
      | none => rfl
      | some npMap =>
        simp only
        split <;> [rfl; (split <;> rfl)]

/-- No error of `getPathAndVGOnNode` is the size error of `Provision`. -/
theorem getPathAndVGOnNode_ne_size_error (p : LocalLVMProvisioner) (env : Env) (node : String) :
    (getPathAndVGOnNode p env node).1
      ≠ .error (.errorf "Physical volume needs to be at least 4MB in size") := by
  rw [getPathAndVGOnNode_result]
  cases p.config with
  | none => simp only; decide
  | some c =>
    simp only
    cases matchedEntry c node with
    | none =>
      simp only [ne_eq, GoResult.error.injEq, GoError.errorf.injEq, String.append_assoc]
      exact append_ne_of_head _ _ _ (by decide) (by decide)
    | some npMap =>
      simp only
      split
      · simp only [ne_eq, GoResult.error.injEq, GoError.errorf.injEq]
        exact append_ne_of_head _ _ _ (by decide) (by decide)
      · split
        · simp only [ne_eq, GoResult.error.injEq, GoError.errorf.injEq]
          exact append_ne_of_head _ _ _ (by decide) (by decide)
        · simp

theorem rangeFirstKey_mem (env : Env) (vgs : List String) (h : vgs ≠ []) :
    rangeFirstKey env vgs ∈ vgs := by
  have hlen : 0 < vgs.length := List.length_pos.2 h
  have hlt : env.rangeFirst % vgs.length < vgs.length := Nat.mod_lt _ hlen
  unfold rangeFirstKey
  rw [List.get?_eq_get hlt]
  exact List.get_mem _ _ _

theorem rangeFirstKey_surjective (env : Env) (vgs : List String) (v : String) (h : v ∈ vgs) :
    ∃ k, rangeFirstKey { env with rangeFirst := k } vgs = v := by
  obtain ⟨i, hi⟩ := List.mem_iff_get.1 h
  refine ⟨i.1, ?_⟩
  unfold rangeFirstKey
  simp only [Nat.mod_eq_of_lt i.2]
  rw [List.get?_eq_get i.2]
  simpa using hi

/-- A successful `getPathAndVGOnNode` returns the path of the matched entry and one of its
volume groups. -/
theorem getPathAndVGOnNode_selects_entry (p : LocalLVMProvisioner) (env : Env)
    (node path vg : String) (h : (getPathAndVGOnNode p env node).1 = .ok (path, vg)) :
    ∃ c npMap, p.config = some c ∧ matchedEntry c node = some npMap
      ∧ path = npMap.Path ∧ vg = rangeFirstKey env npMap.VGs ∧ npMap.VGs ≠ []
      ∧ ∀ env2 : Env, (getPathAndVGOnNode p env2 node).1
          = .ok (path, rangeFirstKey env2 npMap.VGs) := by
  rw [getPathAndVGOnNode_result] at h
  cases hc : p.config with
  | none => rw [hc] at h; simp at h
  | some c =>
    rw [hc] at h
    simp only at h
    cases hm : matchedEntry c node with
    | none => rw [hm] at h; simp at h
    | some npMap =>
      rw [hm] at h
      simp only at h
      by_cases hpath : npMap.Path = ""
      · rw [if_pos hpath] at h; simp at h
      · by_cases hvgs : npMap.VGs.length = 0
        · rw [if_neg hpath, if_pos hvgs] at h; simp at h
        · rw [if_neg hpath, if_neg hvgs] at h
          simp only [GoResult.ok.injEq, Prod.mk.injEq] at h
          have hne : npMap.VGs ≠ [] := fun hnil => hvgs (by rw [hnil]; rfl)
          refine ⟨c, npMap, rfl, hm, h.1.symm, h.2.symm, hne, ?_⟩
          intro env2
          rw [getPathAndVGOnNode_result, hc]
          simp only [hm, if_neg hpath, if_neg hvgs]
          rw [h.1]

/-- C2, counterexample: on the config canonicalized from `twoVGConfigData` and for the node
`n1`, one call returns `vg0` and another returns `vg1`; Go does not fix the iteration order
of the map `npMap.VGs`, from which the first key is taken. -/
theorem getPathAndVGOnNode_calls_differ :
    canonicalizeConfig sampleEnv twoVGConfigData = .ok ⟨[("n1", ⟨"/data", ["vg0", "vg1"]⟩)]⟩
      ∧ twoVGProvisioner.config = some ⟨[("n1", ⟨"/data", ["vg0", "vg1"]⟩)]⟩
      ∧ (getPathAndVGOnNode twoVGProvisioner sampleEnv "n1").1 = .ok ("/data", "vg0")
      ∧ (getPathAndVGOnNode twoVGProvisioner secondKeyEnv "n1").1 = .ok ("/data", "vg1")
      ∧ (getPathAndVGOnNode twoVGProvisioner sampleEnv "n1").1
          ≠ (getPathAndVGOnNode twoVGProvisioner secondKeyEnv "n1").1 := by
  decide

/-- C2, amended: a successful `getPathAndVGOnNode` returns the path of the matched entry
(exact match, else fallback) and one of its volume groups.  Every call on the same config and
node returns the same path and a member of the same set, every member can be the one
returned, and the volume group is determined when the entry lists exactly one. -/
theorem getPathAndVGOnNode_selects_member (p : LocalLVMProvisioner) (env : Env)
    (node path vg : String) (h : (getPathAndVGOnNode p env node).1 = .ok (path, vg)) :
    ∃ c npMap, p.config = some c ∧ matchedEntry c node = some npMap
      ∧ path = npMap.Path ∧ vg ∈ npMap.VGs
      ∧ (∀ env2 : Env, ∃ vg2 ∈ npMap.VGs,
          (getPathAndVGOnNode p env2 node).1 = .ok (path, vg2))
      ∧ (∀ v ∈ npMap.VGs, ∃ env2 : Env, (getPathAndVGOnNode p env2 node).1 = .ok (path, v))
      ∧ (∀ v, npMap.VGs = [v] → vg = v) := by
  obtain ⟨c, npMap, hc, hm, hpath, hvg, hne, hres⟩ :=
    getPathAndVGOnNode_selects_entry p env node path vg h
  refine ⟨c, npMap, hc, hm, hpath, ?_, ?_, ?_, ?_⟩
  · rw [hvg]; exact rangeFirstKey_mem env _ hne
  · exact fun env2 => ⟨_, rangeFirstKey_mem env2 _ hne, hres env2⟩
  · intro v hv
    obtain ⟨k, hk⟩ := rangeFirstKey_surjective env _ v hv
    exact ⟨{ env with rangeFirst := k }, by rw [hres, hk]⟩
  · intro v hv
    have := rangeFirstKey_mem env _ hne
    rw [← hvg, hv] at this
    simpa using this

theorem getPathAndVGOnNode_selects_member_witness :
    (getPathAndVGOnNode twoVGProvisioner secondKeyEnv "n1").1 = .ok ("/data", "vg1")
      ∧ ∃ c npMap, twoVGProvisioner.config = some c ∧ matchedEntry c "n1" = some npMap
        ∧ "/data" = npMap.Path ∧ "vg1" ∈ npMap.VGs
        ∧ (∀ env2 : Env, ∃ vg2 ∈ npMap.VGs,
            (getPathAndVGOnNode twoVGProvisioner env2 "n1").1 = .ok ("/data", vg2))
        ∧ (∀ v ∈ npMap.VGs, ∃ env2 : Env,
            (getPathAndVGOnNode twoVGProvisioner env2 "n1").1 = .ok ("/data", v))
        ∧ (∀ v, npMap.VGs = [v] → "vg1" = v) :=
  ⟨by decide,
    getPathAndVGOnNode_selects_member twoVGProvisioner secondKeyEnv "n1" "/data" "vg1"
      (by decide)⟩

/-! ## Helper pod -/

/-- Every error that `createHelperPod` returns has been wrapped by its deferred `Wrapf`. -/
theorem createHelperPod_error_wrapped (p : LocalLVMProvisioner) (env : Env)
    (action : ActionType) (args : List String) (node : String) (e : GoError)
    (h : (createHelperPod p env action args node).1 = .error e) :
    ∃ msg cause, e = .wrapf msg cause := by
  simp only [createHelperPod] at h
  repeat' split at h
  all_goals first
    | (simp at h; done)
    | (simp only [GoResult.error.injEq] at h; exact ⟨_, _, h.symm⟩)

/-- The call `createHelperPod` once the helper pod has been created: the outcome is decided by the
polling loop, and the removal of the pod closes the list of effects. -/
theorem createHelperPod_created (p : LocalLVMProvisioner) (env : Env) (action : ActionType)
    (args : List String) (node name : String) (pod : Pod)
    (h : HelperPodCreated p env action args node name pod) :
    ∃ pod0 : Pod, createHelperPod p env action args node =
      match (pollLoop env p.podNamespace pod.Name env.cmdTimeoutCounts.toNat 0).1 with
      | .panic msg =>
        (.panic msg, .podCreate p.podNamespace pod0
          :: (pollLoop env p.podNamespace pod.Name env.cmdTimeoutCounts.toNat 0).2
          ++ deleteHelperPod env p.podNamespace pod.Name)
      | .error e =>
        (.error (.wrapf ("failed to " ++ action ++ " volume " ++ name) e),
          .podCreate p.podNamespace pod0
          :: (pollLoop env p.podNamespace pod.Name env.cmdTimeoutCounts.toNat 0).2
          ++ deleteHelperPod env p.podNamespace pod.Name)
      | .ok false =>
        (.error (timeoutError env action name),
          .podCreate p.podNamespace pod0
          :: (pollLoop env p.podNamespace pod.Name env.cmdTimeoutCounts.toNat 0).2
          ++ deleteHelperPod env p.podNamespace pod.Name)
      | .ok true =>
        (.ok (), .podCreate p.podNamespace pod0
          :: (pollLoop env p.podNamespace pod.Name env.cmdTimeoutCounts.toNat 0).2
          ++ .log "Volume %v has been %vd on %v:%v"
            :: deleteHelperPod env p.podNamespace pod.Name) := by
  obtain ⟨hname, hne, hnode, arg1, path0, harg, habs, hpath, hcreate⟩ := h
  refine ⟨helperPod p action name args arg1 node, ?_⟩
  have hcond : ¬ (name = "" ∨ node = "") := by simp [hne, hnode]
  simp only [createHelperPod, hname, harg, habs, hcreate, if_neg hcond, if_neg hpath,
    timeoutError]

/-- The polling loop returns `completed = false` exactly when every status query it may
issue is answered without error by a phase other than `Succeeded`. -/
theorem pollLoop_not_completed (env : Env) (ns name : String) (n : Nat) :
    ∀ i, (pollLoop env ns name n i).1 = .ok false ↔
      ∀ k, k < n → ∃ phase, env.podGet (i + k) ns name = .ok phase ∧ phase ≠ PodSucceeded := by
  induction n with
  | zero => intro i; simp [pollLoop]
  | succ n ih =>
    intro i
    cases hget : env.podGet i ns name with
    | error msg =>
      simp only [pollLoop, hget]
      constructor
      · intro h; simp at h
      · intro h
        obtain ⟨phase, hp, -⟩ := h 0 (Nat.succ_pos n)
        rw [Nat.add_zero, hget] at hp
        cases hp
    | ok phase =>
      by_cases hph : phase = PodSucceeded
      · simp only [pollLoop, hget, if_pos hph]
        constructor
        · intro h; simp at h
        · intro h
          obtain ⟨phase2, hp, hne⟩ := h 0 (Nat.succ_pos n)
          rw [Nat.add_zero, hget] at hp
          cases hp
          exact absurd hph hne
      · simp only [pollLoop, hget, if_neg hph]
        rw [ih (i + 1)]
        constructor
        · intro h k hk
          cases k with
          | zero => exact ⟨phase, by rw [Nat.add_zero, hget], hph⟩
          | succ k =>
            have := h k (Nat.lt_of_succ_lt_succ hk)
            rwa [Nat.add_assoc, Nat.add_comm 1 k] at this
        · intro h k hk
          have := h (k + 1) (Nat.succ_lt_succ hk)
          rwa [Nat.add_assoc, Nat.add_comm 1 k]

/-- An error of the polling loop is the error of a status query. -/
theorem pollLoop_error_external (env : Env) (ns name : String) (n : Nat) :
    ∀ i e, (pollLoop env ns name n i).1 = .error e → ∃ msg, e = .external msg := by
  induction n with
  | zero => intro i e h; simp [pollLoop] at h
  | succ n ih =>
    intro i e h
    simp only [pollLoop] at h
    split at h
    · simp only [GoResult.error.injEq] at h
      exact ⟨_, h.symm⟩
    · split at h
      · simp at h
      · exact ih _ _ h

/-- C8, counterexample: the helper pod is created and all three status queries fail, so the
polled status never reaches `Succeeded` within the budget, yet `createHelperPod` returns the
error of the first query, not the timeout error. -/
theorem createHelperPod_query_failure_is_not_timeout :
    HelperPodCreated sampleProvisioner getFailsEnv ActionTypeCreate sampleArgs "n1" "pvc-1"
        samplePod
      ∧ (∀ i, i < getFailsEnv.cmdTimeoutCounts.toNat →
          getFailsEnv.podGet i "kube-system" samplePod.Name ≠ .ok PodSucceeded)
      ∧ (createHelperPod sampleProvisioner getFailsEnv ActionTypeCreate sampleArgs "n1").1
          = .error (.wrapf "failed to create volume pvc-1" (.external "connection refused"))
      ∧ (createHelperPod sampleProvisioner getFailsEnv ActionTypeCreate sampleArgs "n1").1
          ≠ .error (timeoutError getFailsEnv ActionTypeCreate "pvc-1") := by
  refine ⟨⟨by decide, by decide, by decide, "/data", "/data", by decide, by decide, by decide,
    rfl⟩, ?_, by decide, by decide⟩
  intro i _
  simp [getFailsEnv]

/-- C8, amended: with the helper pod created, `createHelperPod` returns the timeout error
if and only if each of the `CmdTimeoutCounts` status queries is answered without error and
reports a phase other than `Succeeded`. -/
theorem createHelperPod_timeout_iff (p : LocalLVMProvisioner) (env : Env)
    (action : ActionType) (args : List String) (node name : String) (pod : Pod)
    (h : HelperPodCreated p env action args node name pod) :
    (createHelperPod p env action args node).1 = .error (timeoutError env action name) ↔
      ∀ i, i < env.cmdTimeoutCounts.toNat →
        ∃ phase, env.podGet i p.podNamespace pod.Name = .ok phase ∧ phase ≠ PodSucceeded := by
  obtain ⟨pod0, heq⟩ := createHelperPod_created p env action args node name pod h
  have hpoll := pollLoop_not_completed env p.podNamespace pod.Name env.cmdTimeoutCounts.toNat 0
  simp only [Nat.zero_add] at hpoll
  rw [← hpoll, heq]
  cases hres : (pollLoop env p.podNamespace pod.Name env.cmdTimeoutCounts.toNat 0).1 with
  | panic msg => simp
  | error e =>
    obtain ⟨msg, hmsg⟩ := pollLoop_error_external _ _ _ _ _ _ hres
    simp [timeoutError, hmsg]
  | ok completed => cases completed <;> simp

theorem createHelperPod_timeout_iff_witness :
    HelperPodCreated sampleProvisioner neverDoneEnv ActionTypeCreate sampleArgs "n1" "pvc-1"
        samplePod
      ∧ (createHelperPod sampleProvisioner neverDoneEnv ActionTypeCreate sampleArgs "n1").1
          = .error (timeoutError neverDoneEnv ActionTypeCreate "pvc-1")
      ∧ ∀ i, i < neverDoneEnv.cmdTimeoutCounts.toNat →
          ∃ phase, neverDoneEnv.podGet i sampleProvisioner.podNamespace samplePod.Name = .ok phase
            ∧ phase ≠ PodSucceeded :=
  ⟨⟨by decide, by decide, by decide, "/data", "/data", by decide, by decide, by decide,
      rfl⟩,
    by decide,
    (createHelperPod_timeout_iff sampleProvisioner neverDoneEnv ActionTypeCreate sampleArgs
      "n1" "pvc-1" samplePod
      ⟨by decide, by decide, by decide, "/data", "/data", by decide, by decide, by decide,
        rfl⟩).1 (by decide)⟩

/-- The polling loop only depends on the answers to the status queries. -/
theorem pollLoop_congr (env env2 : Env) (ns name : String) (h : env2.podGet = env.podGet)
    (n : Nat) : ∀ i, pollLoop env2 ns name n i = pollLoop env ns name n i := by
  induction n with
  | zero => intro i; rfl
  | succ n ih =>
    intro i
    simp only [pollLoop, h, ih]

/-- The polling loop never removes a pod. -/
theorem pollLoop_podDeleteCount (env : Env) (ns name : String) (n : Nat) :
    ∀ i, podDeleteCount (pollLoop env ns name n i).2 = 0 := by
  induction n with
  | zero => intro i; rfl
  | succ n ih =>
    intro i
    simp only [pollLoop]
    split
    · rfl
    · split
      · rfl
      · have := ih (i + 1)
        simpa [podDeleteCount] using this

theorem deleteHelperPod_podDeleteCount (env : Env) (ns name : String) :
    podDeleteCount (deleteHelperPod env ns name) = 1 := by
  unfold deleteHelperPod
  split <;> rfl

theorem podDeleteCount_append (l1 l2 : List Effect) :
    podDeleteCount (l1 ++ l2) = podDeleteCount l1 + podDeleteCount l2 := by
  simp [podDeleteCount, List.countP_append]

theorem deleteHelperPod_mem (env : Env) (ns name : String) :
    Effect.podDelete ns name ∈ deleteHelperPod env ns name := by
  unfold deleteHelperPod
  split <;> simp

/-- The answer to the removal request has no part in what `createHelperPod` returns. -/
theorem createHelperPod_podDelete_irrelevant (p : LocalLVMProvisioner) (env : Env)
    (answer : String → String → Option String) (action : ActionType) (args : List String)
    (node : String) :
    (createHelperPod p { env with podDelete := answer } action args node).1
      = (createHelperPod p env action args node).1 := by
  have hpoll : ∀ ns name n i,
      pollLoop { env with podDelete := answer } ns name n i = pollLoop env ns name n i :=
    fun ns name n i => pollLoop_congr env { env with podDelete := answer } ns name rfl n i
  simp only [createHelperPod, hpoll]
  repeat' split
  all_goals rfl

/-- Without a created helper pod `createHelperPod` has turned the call down or the `Create`
request was refused: its effects are none, or that request alone, and it does not succeed. -/
theorem createHelperPod_not_created (p : LocalLVMProvisioner) (env : Env) (action : ActionType)
    (args : List String) (node : String)
    (h : ∀ name pod, ¬ HelperPodCreated p env action args node name pod) :
    ((createHelperPod p env action args node).2 = []
        ∨ ∃ pod0, (createHelperPod p env action args node).2 = [.podCreate p.podNamespace pod0])
      ∧ (createHelperPod p env action args node).1.isOk = false := by
  cases hname : (if action = ActionTypeCreate then args.get? 4 else args.get? 2) with
  | none => refine ⟨Or.inl ?_, ?_⟩ <;> simp only [createHelperPod, hname, GoResult.isOk]
  | some name =>
    by_cases hcond : name = "" ∨ node = ""
    · refine ⟨Or.inl ?_, ?_⟩ <;>
        simp only [createHelperPod, hname, if_pos hcond, GoResult.isOk]
    · cases harg : args.get? 1 with
      | none =>
        refine ⟨Or.inl ?_, ?_⟩ <;>
          simp only [createHelperPod, hname, if_neg hcond, harg, GoResult.isOk]
      | some arg1 =>
        cases habs : Abs env.getwd arg1 with
        | panic msg =>
          refine ⟨Or.inl ?_, ?_⟩ <;>
            simp only [createHelperPod, hname, if_neg hcond, harg, habs, GoResult.isOk]
        | error e =>
          refine ⟨Or.inl ?_, ?_⟩ <;>
            simp only [createHelperPod, hname, if_neg hcond, harg, habs, GoResult.isOk]
        | ok path0 =>
          by_cases hpath : trimSuffixSlash path0 = ""
          · refine ⟨Or.inl ?_, ?_⟩ <;>
              simp only [createHelperPod, hname, if_neg hcond, harg, habs, if_pos hpath,
                GoResult.isOk]
          · cases hcreate : env.podCreate p.podNamespace
                (helperPod p action name args arg1 node) with
            | error msg =>
              refine ⟨Or.inr ⟨helperPod p action name args arg1 node, ?_⟩, ?_⟩ <;>
                simp only [createHelperPod, hname, if_neg hcond, harg, habs, if_neg hpath,
                  hcreate, GoResult.isOk]
            | ok pod =>
              have hne : name ≠ "" ∧ node ≠ "" :=
                ⟨fun h0 => hcond (Or.inl h0), fun h0 => hcond (Or.inr h0)⟩
              exact absurd ⟨hname, hne.1, hne.2, arg1, path0, harg, habs, hpath, hcreate⟩
                (h name pod)

/-- Without a created helper pod `createHelperPod` makes no removal request. -/
theorem createHelperPod_not_created_podDeleteCount (p : LocalLVMProvisioner) (env : Env)
    (action : ActionType) (args : List String) (node : String)
    (h : ∀ name pod, ¬ HelperPodCreated p env action args node name pod) :
    podDeleteCount (createHelperPod p env action args node).2 = 0 := by
  rcases (createHelperPod_not_created p env action args node h).1 with h0 | ⟨pod0, h0⟩ <;>
    rw [h0] <;> rfl

/-- With a created helper pod `createHelperPod` makes exactly one removal request, for that
pod. -/
theorem createHelperPod_created_podDeleteCount (p : LocalLVMProvisioner) (env : Env)
    (action : ActionType) (args : List String) (node name : String) (pod : Pod)
    (h : HelperPodCreated p env action args node name pod) :
    podDeleteCount (createHelperPod p env action args node).2 = 1
      ∧ Effect.podDelete p.podNamespace pod.Name
          ∈ (createHelperPod p env action args node).2 := by
  obtain ⟨pod0, heq⟩ := createHelperPod_created p env action args node name pod h
  have hcount := pollLoop_podDeleteCount env p.podNamespace pod.Name env.cmdTimeoutCounts.toNat 0
  have hdel := deleteHelperPod_podDeleteCount env p.podNamespace pod.Name
  have hmem := deleteHelperPod_mem env p.podNamespace pod.Name
  refine ⟨?_, ?_⟩
  · rw [heq]
    split <;>
      simp only [List.cons_append] <;>
      rw [← List.singleton_append, podDeleteCount_append, podDeleteCount_append] <;>
      first
        | (rw [hcount, hdel]; rfl)
        | (rw [← List.singleton_append (l := deleteHelperPod _ _ _), podDeleteCount_append,
            hcount, hdel]; rfl)
  · rw [heq]
    split <;> simp [hmem]

/-- C9, counterexample: when the `Create` request is refused, `createHelperPod` returns
through its failure path without any removal request; the same holds when the call is
rejected for an empty node name, where no request is made at all. -/
theorem createHelperPod_failure_without_cleanup :
    (createHelperPod sampleProvisioner createFailsEnv ActionTypeCreate sampleArgs "n1").1
        = .error (.wrapf "failed to create volume pvc-1"
            (.external "pods \"create-pvc-1\" already exists"))
      ∧ podCreateCount
          (createHelperPod sampleProvisioner createFailsEnv ActionTypeCreate sampleArgs "n1").2 = 1
      ∧ podDeleteCount
          (createHelperPod sampleProvisioner createFailsEnv ActionTypeCreate sampleArgs "n1").2 = 0
      ∧ createHelperPod sampleProvisioner sampleEnv ActionTypeCreate sampleArgs ""
          = (.error (.wrapf "failed to create volume pvc-1"
              (.errorf "invalid empty name or node")), []) := by
  decide

/-- C9, amended: when the helper pod has been created, `createHelperPod` makes exactly one
removal request, for the created pod, whichever way it ends (success, failed status query,
timeout).  When it has not been created, no removal request is made; this is the case for
an empty volume or node name, for a path argument that does not resolve to a non-empty
path, and for a refused `Create` request.  The answer to the removal request never changes
the returned outcome. -/
theorem createHelperPod_cleanup_once (p : LocalLVMProvisioner) (env : Env)
    (action : ActionType) (args : List String) (node : String) :
    (∀ name pod, HelperPodCreated p env action args node name pod →
        podDeleteCount (createHelperPod p env action args node).2 = 1
          ∧ Effect.podDelete p.podNamespace pod.Name
              ∈ (createHelperPod p env action args node).2)
      ∧ ((∀ name pod, ¬ HelperPodCreated p env action args node name pod) →
          podDeleteCount (createHelperPod p env action args node).2 = 0)
      ∧ (∀ name,
          (if action = ActionTypeCreate then args.get? 4 else args.get? 2) = some name →
          name = "" ∨ node = "" →
          podDeleteCount (createHelperPod p env action args node).2 = 0)
      ∧ (∀ arg1, args.get? 1 = some arg1 →
          (∀ path0, Abs env.getwd arg1 = .ok path0 → trimSuffixSlash path0 = "") →
          podDeleteCount (createHelperPod p env action args node).2 = 0)
      ∧ (∀ name arg1 msg,
          (if action = ActionTypeCreate then args.get? 4 else args.get? 2) = some name →
          args.get? 1 = some arg1 →
          env.podCreate p.podNamespace (helperPod p action name args arg1 node) = .error msg →
          podDeleteCount (createHelperPod p env action args node).2 = 0)
      ∧ ∀ answer : String → String → Option String,
          (createHelperPod p { env with podDelete := answer } action args node).1
            = (createHelperPod p env action args node).1 := by
  refine ⟨fun name pod h => createHelperPod_created_podDeleteCount p env action args node
      name pod h,
    createHelperPod_not_created_podDeleteCount p env action args node, ?_, ?_, ?_,
    fun answer => createHelperPod_podDelete_irrelevant p env answer action args node⟩
  · intro name hname hcond
    apply createHelperPod_not_created_podDeleteCount
    rintro name2 pod ⟨hname2, hne, hnode, -⟩
    rw [hname] at hname2
    simp only [Option.some.injEq] at hname2
    subst hname2
    rcases hcond with h0 | h0
    · exact hne h0
    · exact hnode h0
  · intro arg1 harg hpath
    apply createHelperPod_not_created_podDeleteCount
    rintro name2 pod ⟨-, -, -, arg2, path0, harg2, habs, hne, -⟩
    rw [harg] at harg2
    simp only [Option.some.injEq] at harg2
    subst harg2
    exact hne (hpath path0 habs)
  · intro name arg1 msg hname harg hcreate
    apply createHelperPod_not_created_podDeleteCount
    rintro name2 pod ⟨hname2, -, -, arg2, path0, harg2, -, -, hcreate2⟩
    rw [hname] at hname2
    rw [harg] at harg2
    simp only [Option.some.injEq] at hname2 harg2
    subst hname2
    subst harg2
    rw [hcreate] at hcreate2
    cases hcreate2

theorem createHelperPod_cleanup_once_witness :
    HelperPodCreated sampleProvisioner getFailsEnv ActionTypeCreate sampleArgs "n1" "pvc-1"
        samplePod
      ∧ (createHelperPod sampleProvisioner getFailsEnv ActionTypeCreate sampleArgs "n1").2
          = [.podCreate "kube-system" samplePod, .podGet "kube-system" "create-pvc-1",
              .podDelete "kube-system" "create-pvc-1"]
      ∧ podDeleteCount
          (createHelperPod sampleProvisioner getFailsEnv ActionTypeCreate sampleArgs "n1").2 = 1
      ∧ podDeleteCount
          (createHelperPod sampleProvisioner createFailsEnv ActionTypeCreate sampleArgs "n1").2
          = 0
      ∧ podDeleteCount
          (createHelperPod sampleProvisioner sampleEnv ActionTypeCreate sampleArgs "").2 = 0 :=
  ⟨⟨by decide, by decide, by decide, "/data", "/data", by decide, by decide, by decide, rfl⟩,
    by decide,
    ((createHelperPod_cleanup_once sampleProvisioner getFailsEnv ActionTypeCreate sampleArgs
      "n1").1 "pvc-1" samplePod
      ⟨by decide, by decide, by decide, "/data", "/data", by decide, by decide, by decide,
        rfl⟩).1,
    (createHelperPod_cleanup_once sampleProvisioner createFailsEnv ActionTypeCreate sampleArgs
      "n1").2.2.2.2.1 "pvc-1" "/data" "pods \"create-pvc-1\" already exists" (by decide)
      (by decide) rfl,
    (createHelperPod_cleanup_once sampleProvisioner sampleEnv ActionTypeCreate sampleArgs
      "").2.2.1 "pvc-1" (by decide) (Or.inr rfl)⟩

/-! ## Request validation in `Provision` -/

/-- The four validation failures of `Provision`: selector set, an access mode other than
`ReadWriteOnce`, no selected node, requested size below 4 MiB.  The error and the empty
list of effects are the same for every provisioner and every environment. -/
theorem Provision_validation (opts : VolumeOptions)
    (h : opts.PVC.Selector.isSome = true
      ∨ (∃ m ∈ opts.PVC.AccessModes, m ≠ ReadWriteOnce)
      ∨ opts.SelectedNode = none
      ∨ (∃ size, opts.PVC.StorageRequest = some size ∧ size < 4 * 1024 * 1024)) :
    ∃ msg, ∀ (p : LocalLVMProvisioner) (env : Env),
      Provision p env opts = (.error (.errorf msg), []) := by
  by_cases hsel : opts.PVC.Selector.isSome = true
  · exact ⟨"claim.Spec.Selector is not supported", fun p env => by simp [Provision, hsel]⟩
  · by_cases hmode : (opts.PVC.AccessModes.any fun accessMode => accessMode ≠ ReadWriteOnce) = true
    · exact ⟨"Only support ReadWriteOnce access mode", fun p env => by
        simp only [Provision, hsel, hmode, if_true]; simp⟩
    · have hmode2 : ¬ ∃ m ∈ opts.PVC.AccessModes, m ≠ ReadWriteOnce := by
        intro ⟨m, hm, hne⟩
        apply hmode
        simp only [List.any_eq_true]
        exact ⟨m, hm, by simpa using hne⟩
      cases hnode : opts.SelectedNode with
      | none =>
        exact ⟨"configuration error, no node was specified", fun p env => by
          simp only [Provision, hsel, hmode, hnode, if_false]; simp⟩
      | some node =>
        cases hsize : opts.PVC.StorageRequest with
        | none =>
          exact ⟨"Cannot handle physical volume claim without storage size request",
            fun p env => by simp only [Provision, hsel, hmode, hnode, hsize, if_false]; simp⟩
        | some size =>
          have hlt : size < 4 * 1024 * 1024 := by
            rcases h with h | h | h | ⟨sz, hsz, hlt⟩
            · exact absurd h hsel
            · exact absurd h hmode2
            · rw [hnode] at h; cases h
            · rw [hsize] at hsz
              cases hsz
              exact hlt
          have hlt2 : size < 1024 * 1024 * 4 := by omega
          exact ⟨"Physical volume needs to be at least 4MB in size", fun p env => by
            simp only [Provision, hsel, hmode, hnode, hsize, if_false, Bool.false_eq_true]
            rw [if_pos hlt2]⟩

/-- The call `Provision` once the request has passed validation. -/
theorem Provision_valid (p : LocalLVMProvisioner) (env : Env) (opts : VolumeOptions)
    (node : Node) (size : Int)
    (hsel : opts.PVC.Selector.isSome = false)
    (hmode : ∀ m ∈ opts.PVC.AccessModes, m = ReadWriteOnce)
    (hnode : opts.SelectedNode = some node)
    (hsize : opts.PVC.StorageRequest = some size)
    (hge : 4 * 1024 * 1024 ≤ size) :
    Provision p env opts =
      match (getPathAndVGOnNode p env node.Name).1 with
      | .error e => (.error e, (getPathAndVGOnNode p env node.Name).2)
      | .panic msg => (.panic msg, (getPathAndVGOnNode p env node.Name).2)
      | .ok (mountPath, vgName) =>
        match (createHelperPod p env ActionTypeCreate
            (createArgs opts mountPath vgName size) node.Name).1 with
        | .error e =>
          (.error e, (getPathAndVGOnNode p env node.Name).2
            ++ .log "Creating volume %v (%v/%v) at %v:%v"
              :: (createHelperPod p env ActionTypeCreate
                  (createArgs opts mountPath vgName size) node.Name).2)
        | .panic msg =>
          (.panic msg, (getPathAndVGOnNode p env node.Name).2
            ++ .log "Creating volume %v (%v/%v) at %v:%v"
              :: (createHelperPod p env ActionTypeCreate
                  (createArgs opts mountPath vgName size) node.Name).2)
        | .ok _ =>
          (.ok (newPersistentVolume opts
              (Join mountPath (opts.PVC.Namespace ++ "-" ++ opts.PVC.Name)) node),
            (getPathAndVGOnNode p env node.Name).2
            ++ .log "Creating volume %v (%v/%v) at %v:%v"
              :: (createHelperPod p env ActionTypeCreate
                  (createArgs opts mountPath vgName size) node.Name).2) := by
  have hmode2 : (opts.PVC.AccessModes.any fun accessMode => accessMode ≠ ReadWriteOnce) = false := by
    rw [List.any_eq_false]
    intro m hm
    simp [hmode m hm]
  have hge2 : ¬ (size < 1024 * 1024 * 4) := by omega
  unfold Provision createArgs
  simp only [hsel, hmode2, hnode, hsize, if_neg hge2, Bool.false_eq_true, if_false]

/-- C3: `Provision` returns an error whenever the selector is set, whenever some listed
access mode is not `ReadWriteOnce`, and whenever the requested size is below
`4*1024*1024`, for every provisioner, every environment and all other request fields; a
request of exactly `4*1024*1024` bytes never gets the size error. -/
theorem Provision_rejects (p : LocalLVMProvisioner) (env : Env) (opts : VolumeOptions) :
    (opts.PVC.Selector.isSome = true → (Provision p env opts).1.isError = true)
      ∧ ((∃ m ∈ opts.PVC.AccessModes, m ≠ ReadWriteOnce) →
          (Provision p env opts).1.isError = true)
      ∧ ((∃ size, opts.PVC.StorageRequest = some size ∧ size < 4 * 1024 * 1024) →
          (Provision p env opts).1.isError = true)
      ∧ (opts.PVC.StorageRequest = some (4 * 1024 * 1024) →
          (Provision p env opts).1
            ≠ .error (.errorf "Physical volume needs to be at least 4MB in size")) := by
  refine ⟨fun h => ?_, fun h => ?_, fun h => ?_, fun h => ?_⟩
  · obtain ⟨msg, hmsg⟩ := Provision_validation opts (Or.inl h)
    rw [hmsg p env]; rfl
  · obtain ⟨msg, hmsg⟩ := Provision_validation opts (Or.inr (Or.inl h))
    rw [hmsg p env]; rfl
  · obtain ⟨msg, hmsg⟩ := Provision_validation opts (Or.inr (Or.inr (Or.inr h)))
    rw [hmsg p env]; rfl
  · intro hcontra
    by_cases hsel : opts.PVC.Selector.isSome = true
    · have hP : Provision p env opts
          = (.error (.errorf "claim.Spec.Selector is not supported"), []) := by
        simp [Provision, hsel]
      rw [hP] at hcontra
      revert hcontra
      decide
    · by_cases hmode : (opts.PVC.AccessModes.any fun accessMode => accessMode ≠ ReadWriteOnce) = true
      · have hP : Provision p env opts
            = (.error (.errorf "Only support ReadWriteOnce access mode"), []) := by
          simp only [Provision, hsel, hmode, if_true]; simp
        rw [hP] at hcontra
        revert hcontra
        decide
      · cases hnode : opts.SelectedNode with
        | none =>
          have hP : Provision p env opts
              = (.error (.errorf "configuration error, no node was specified"), []) := by
            simp only [Provision, hsel, hmode, hnode, if_false]; simp
          rw [hP] at hcontra
          revert hcontra
          decide
        | some node =>
          have hmode2 : ∀ m ∈ opts.PVC.AccessModes, m = ReadWriteOnce := by
            intro m hm
            by_contra hne
            apply hmode
            simp only [List.any_eq_true]
            exact ⟨m, hm, by simpa using hne⟩
          rw [Provision_valid p env opts node (4 * 1024 * 1024) (by simpa using hsel) hmode2
            hnode h (le_refl _)] at hcontra
          cases hres : (getPathAndVGOnNode p env node.Name).1 with
          | error e =>
            rw [hres] at hcontra
            simp only [GoResult.error.injEq] at hcontra
            rw [hcontra] at hres
            exact getPathAndVGOnNode_ne_size_error p env node.Name hres
          | panic msg =>
            rw [hres] at hcontra
            simp at hcontra
          | ok r =>
            obtain ⟨mountPath, vgName⟩ := r
            rw [hres] at hcontra
            simp only at hcontra
            cases hhelp : (createHelperPod p env ActionTypeCreate
              (createArgs opts mountPath vgName (4 * 1024 * 1024)) node.Name).1 with
            | ok u => rw [hhelp] at hcontra; simp at hcontra
            | panic msg => rw [hhelp] at hcontra; simp at hcontra
            | error e =>
              rw [hhelp] at hcontra
              simp only [GoResult.error.injEq] at hcontra
              obtain ⟨msg, cause, hw⟩ := createHelperPod_error_wrapped _ _ _ _ _ _ hhelp
              rw [hw] at hcontra
              cases hcontra

theorem Provision_rejects_witness :
    (Provision sampleProvisioner sampleEnv selectorOptions).1.isError = true
      ∧ (Provision sampleProvisioner sampleEnv sharedOptions).1.isError = true
      ∧ (Provision sampleProvisioner sampleEnv smallOptions).1.isError = true
      ∧ (Provision sampleProvisioner sampleEnv floorOptions).1
          ≠ .error (.errorf "Physical volume needs to be at least 4MB in size")
      ∧ (Provision sampleProvisioner sampleEnv floorOptions).1.isOk = true :=
  ⟨(Provision_rejects sampleProvisioner sampleEnv selectorOptions).1 (by decide),
    (Provision_rejects sampleProvisioner sampleEnv sharedOptions).2.1
      ⟨"ReadWriteMany", by decide, by decide⟩,
    (Provision_rejects sampleProvisioner sampleEnv smallOptions).2.2.1
      ⟨4 * 1024 * 1024 - 1, by decide, by decide⟩,
    (Provision_rejects sampleProvisioner sampleEnv floorOptions).2.2.2 (by decide),
    by decide⟩

/-- C4: a request that fails one of the validations of `Provision` (selector set, access
mode other than `ReadWriteOnce`, no selected node, size below 4 MiB) gets an error and causes
no effect at all: the config lock is not taken, no helper pod is created, and the outcome is
the same for every config and every environment. -/
theorem Provision_validation_no_effects (p : LocalLVMProvisioner) (env : Env)
    (opts : VolumeOptions)
    (h : opts.PVC.Selector.isSome = true
      ∨ (∃ m ∈ opts.PVC.AccessModes, m ≠ ReadWriteOnce)
      ∨ opts.SelectedNode = none
      ∨ (∃ size, opts.PVC.StorageRequest = some size ∧ size < 4 * 1024 * 1024)) :
    (Provision p env opts).1.isError = true
      ∧ (Provision p env opts).2 = []
      ∧ ∀ (p2 : LocalLVMProvisioner) (env2 : Env), Provision p2 env2 opts = Provision p env opts := by
  obtain ⟨msg, hmsg⟩ := Provision_validation opts h
  refine ⟨by rw [hmsg p env]; rfl, by rw [hmsg p env], fun p2 env2 => ?_⟩
  rw [hmsg p env, hmsg p2 env2]

theorem Provision_validation_no_effects_witness :
    (Provision sampleProvisioner sampleEnv unboundOptions).1.isError = true
      ∧ (Provision sampleProvisioner sampleEnv unboundOptions).2 = []
      ∧ (Provision sampleProvisioner sampleEnv smallOptions).2 = []
      ∧ Provision freshProvisioner unreadableEnv smallOptions
          = Provision sampleProvisioner sampleEnv smallOptions :=
  ⟨(Provision_validation_no_effects sampleProvisioner sampleEnv unboundOptions
      (Or.inr (Or.inr (Or.inl rfl)))).1,
    (Provision_validation_no_effects sampleProvisioner sampleEnv unboundOptions
      (Or.inr (Or.inr (Or.inl rfl)))).2.1,
    (Provision_validation_no_effects sampleProvisioner sampleEnv smallOptions
      (Or.inr (Or.inr (Or.inr ⟨4 * 1024 * 1024 - 1, by decide, by decide⟩)))).2.1,
    (Provision_validation_no_effects sampleProvisioner sampleEnv smallOptions
      (Or.inr (Or.inr (Or.inr ⟨4 * 1024 * 1024 - 1, by decide, by decide⟩)))).2.2
      freshProvisioner unreadableEnv⟩

/-! ## The descriptor of a successful `Provision` -/

theorem createHelperPod_ok_node (p : LocalLVMProvisioner) (env : Env) (action : ActionType)
    (args : List String) (node : String) (u : Unit)
    (h : (createHelperPod p env action args node).1 = .ok u) : node ≠ "" := by
  intro hnode
  simp only [createHelperPod] at h
  repeat' split at h
  all_goals first
    | (simp at h; done)
    | simp_all

/-- What a successful `Provision` went through: the request passed validation, the node
was resolved, the helper pod ran, and the descriptor was built from the joined path. -/
theorem Provision_ok (p : LocalLVMProvisioner) (env : Env) (opts : VolumeOptions)
    (pv : PersistentVolume) (h : (Provision p env opts).1 = .ok pv) :
    ∃ node size mountPath vgName, opts.SelectedNode = some node
      ∧ opts.PVC.StorageRequest = some size ∧ 4 * 1024 * 1024 ≤ size
      ∧ (getPathAndVGOnNode p env node.Name).1 = .ok (mountPath, vgName)
      ∧ (createHelperPod p env ActionTypeCreate
          (createArgs opts mountPath vgName size) node.Name).1 = .ok ()
      ∧ pv = newPersistentVolume opts
          (Join mountPath (opts.PVC.Namespace ++ "-" ++ opts.PVC.Name)) node := by
  by_cases hbad : opts.PVC.Selector.isSome = true
      ∨ (∃ m ∈ opts.PVC.AccessModes, m ≠ ReadWriteOnce)
      ∨ opts.SelectedNode = none
      ∨ (∃ size, opts.PVC.StorageRequest = some size ∧ size < 4 * 1024 * 1024)
  · obtain ⟨msg, hmsg⟩ := Provision_validation opts hbad
    rw [hmsg p env] at h
    simp at h
  · simp only [not_or, not_exists, not_and, not_not] at hbad
    obtain ⟨hsel, hmode, hnode, hsize⟩ := hbad
    have hsel2 : opts.PVC.Selector.isSome = false := by simpa using hsel
    cases hn : opts.SelectedNode with
    | none => exact absurd hn hnode
    | some node =>
      cases hs : opts.PVC.StorageRequest with
      | none =>
        have hmode2 : (opts.PVC.AccessModes.any fun accessMode => accessMode ≠ ReadWriteOnce) = false := by
          rw [List.any_eq_false]
          intro m hm
          simp [hmode m hm]
        simp only [Provision, hsel2, hmode2, hn, hs, Bool.false_eq_true, if_false] at h
        simp at h
      | some size =>
        have hge : 4 * 1024 * 1024 ≤ size := not_lt.1 (hsize size hs)
        rw [Provision_valid p env opts node size hsel2 hmode hn hs hge] at h
        cases hres : (getPathAndVGOnNode p env node.Name).1 with
        | error e => rw [hres] at h; simp at h
        | panic msg => rw [hres] at h; simp at h
        | ok r =>
          obtain ⟨mountPath, vgName⟩ := r
          rw [hres] at h
          simp only at h
          cases hhelp : (createHelperPod p env ActionTypeCreate
              (createArgs opts mountPath vgName size) node.Name).1 with
          | error e => rw [hhelp] at h; simp at h
          | panic msg => rw [hhelp] at h; simp at h
          | ok u =>
            rw [hhelp] at h
            simp only [GoResult.ok.injEq] at h
            exact ⟨node, size, mountPath, vgName, rfl, rfl, hge, hres, hhelp, h.symm⟩

/-- The mount path that `getPathAndVGOnNode` resolves from a canonicalized config is
canonical. -/
theorem getPathAndVGOnNode_canonical (env0 : Env) (raw : ConfigData) (cfg : Config)
    (p : LocalLVMProvisioner) (env : Env) (node mountPath vgName : String)
    (hcfg : canonicalizeConfig env0 raw = .ok cfg) (hp : p.config = some cfg)
    (h : (getPathAndVGOnNode p env node).1 = .ok (mountPath, vgName)) :
    IsCanonicalPath mountPath := by
  obtain ⟨c, npMap, hc, hm, hpath, -⟩ := getPathAndVGOnNode_selects_entry p env node _ _ h
  rw [hp] at hc
  cases hc
  obtain ⟨k, hk⟩ := matchedEntry_mem cfg node npMap hm
  rw [hpath]
  exact canonicalizeConfig_paths env0 raw cfg hcfg (k, npMap) hk

/-- C5: when the config was produced by `canonicalizeConfig` and neither the namespace nor
the name of the claim contains `/`, the host path of the descriptor returned by a successful
`Provision` is `mountPath + "/" + claimNamespace + "-" + claimName`, where `mountPath` is
what `getPathAndVGOnNode` resolved for the selected node. -/
theorem Provision_hostPath (env0 : Env) (raw : ConfigData) (cfg : Config)
    (p : LocalLVMProvisioner) (env : Env) (opts : VolumeOptions) (pv : PersistentVolume)
    (hcfg : canonicalizeConfig env0 raw = .ok cfg) (hp : p.config = some cfg)
    (hns : '/' ∉ opts.PVC.Namespace.data) (hname : '/' ∉ opts.PVC.Name.data)
    (h : (Provision p env opts).1 = .ok pv) :
    ∃ node mountPath vgName, opts.SelectedNode = some node
      ∧ (getPathAndVGOnNode p env node.Name).1 = .ok (mountPath, vgName)
      ∧ pv.HostPath = some ⟨mountPath ++ "/" ++ opts.PVC.Namespace ++ "-" ++ opts.PVC.Name,
          some "DirectoryOrCreate"⟩ := by
  obtain ⟨node, size, mountPath, vgName, hnode, -, -, hres, -, hpv⟩ := Provision_ok p env opts pv h
  have hcanon := getPathAndVGOnNode_canonical env0 raw cfg p env _ _ _ hcfg hp hres
  refine ⟨node, mountPath, vgName, hnode, hres, ?_⟩
  rw [hpv]
  simp only [newPersistentVolume]
  rw [Join_append_element mountPath _ hcanon (isRealElement_pvcName _ _ hns hname)]
  simp only [String.append_assoc]

theorem Provision_hostPath_witness :
    canonicalizeConfig sampleEnv sampleConfigData = .ok ⟨[("n1", ⟨"/data", ["vg0"]⟩)]⟩
      ∧ (Provision sampleProvisioner sampleEnv sampleOptions).1 = .ok samplePV
      ∧ samplePV.HostPath = some ⟨"/data/ns-claim1", some "DirectoryOrCreate"⟩
      ∧ ∃ node mountPath vgName, sampleOptions.SelectedNode = some node
        ∧ (getPathAndVGOnNode sampleProvisioner sampleEnv node.Name).1 = .ok (mountPath, vgName)
        ∧ samplePV.HostPath = some ⟨mountPath ++ "/" ++ sampleOptions.PVC.Namespace ++ "-"
            ++ sampleOptions.PVC.Name, some "DirectoryOrCreate"⟩ :=
  ⟨by decide, by decide, by decide,
    Provision_hostPath sampleEnv sampleConfigData ⟨[("n1", ⟨"/data", ["vg0"]⟩)]⟩
      sampleProvisioner sampleEnv sampleOptions samplePV (by decide) rfl (by decide) (by decide)
      (by decide)⟩

theorem IsCanonicalPath.ne_root {path : String} (h : IsCanonicalPath path) : path ≠ "/" := by
  obtain ⟨fs, hne, hfs, hdata⟩ := h
  intro hp
  subst hp
  cases fs with
  | nil => exact hne rfl
  | cons e fs =>
    have he : e ≠ [] := (hfs e (by simp)).1
    cases e with
    | nil => exact he rfl
    | cons c e =>
      have : ("/" : String).data = ['/'] := rfl
      rw [this] at hdata
      simp [rootedPath] at hdata

theorem IsCanonicalPath.ne_dot {path : String} (h : IsCanonicalPath path) : path ≠ "." := by
  obtain ⟨fs, hne, -, hdata⟩ := h
  intro hp
  subst hp
  cases fs with
  | nil => exact hne rfl
  | cons e fs =>
    have : (".": String).data = ['.'] := rfl
    rw [this] at hdata
    simp [rootedPath] at hdata

/-- Extraction by `getPathAndNodeForPV` from a descriptor built by `Provision` from a canonical mount path
and a separator-free claim name gives back the mount path and the node. -/
theorem getPathAndNodeForPV_newPersistentVolume (opts : VolumeOptions) (mountPath x : String)
    (node : Node) (hm : IsCanonicalPath mountPath) (hx : '/' ∉ x.data) (hnode : node.Name ≠ "") :
    getPathAndNodeForPV (newPersistentVolume opts (mountPath ++ "/" ++ x) node)
      = .ok (mountPath, node.Name) := by
  have hterms : nodeOfTerms [{ MatchExpressions :=
      [{ Key := KeyNode, Operator := NodeSelectorOpIn, Values := [node.Name] }] }]
      = .ok node.Name := by
    simp [nodeOfTerms, nodeOfExpressions, hnode]
  simp only [getPathAndNodeForPV, getPathAndNodeForPVBody, newPersistentVolume,
    Dir_append_element mountPath x hm hx, hterms]
  simp [hm.ne_root, hm.ne_dot, hnode, Wrapf]

/-- C6: when the config was produced by `canonicalizeConfig` and neither the namespace nor
the name of the claim contains `/`, `getPathAndNodeForPV` applied to the descriptor returned
by a successful `Provision` succeeds and returns the mount path that `getPathAndVGOnNode`
resolved and the name of the selected node. -/
theorem Provision_roundtrip (env0 : Env) (raw : ConfigData) (cfg : Config)
    (p : LocalLVMProvisioner) (env : Env) (opts : VolumeOptions) (pv : PersistentVolume)
    (hcfg : canonicalizeConfig env0 raw = .ok cfg) (hp : p.config = some cfg)
    (hns : '/' ∉ opts.PVC.Namespace.data) (hname : '/' ∉ opts.PVC.Name.data)
    (h : (Provision p env opts).1 = .ok pv) :
    ∃ node mountPath vgName, opts.SelectedNode = some node
      ∧ (getPathAndVGOnNode p env node.Name).1 = .ok (mountPath, vgName)
      ∧ getPathAndNodeForPV pv = .ok (mountPath, node.Name) := by
  obtain ⟨node, size, mountPath, vgName, hnode, -, -, hres, hhelp, hpv⟩ :=
    Provision_ok p env opts pv h
  have hcanon := getPathAndVGOnNode_canonical env0 raw cfg p env _ _ _ hcfg hp hres
  have hreal := isRealElement_pvcName _ _ hns hname
  refine ⟨node, mountPath, vgName, hnode, hres, ?_⟩
  rw [hpv, Join_append_element mountPath _ hcanon hreal]
  exact getPathAndNodeForPV_newPersistentVolume opts mountPath _ node hcanon hreal.2.1
    (createHelperPod_ok_node _ _ _ _ _ _ hhelp)

theorem Provision_roundtrip_witness :
    (Provision sampleProvisioner sampleEnv sampleOptions).1 = .ok samplePV
      ∧ getPathAndNodeForPV samplePV = .ok ("/data", "n1")
      ∧ ∃ node mountPath vgName, sampleOptions.SelectedNode = some node
        ∧ (getPathAndVGOnNode sampleProvisioner sampleEnv node.Name).1 = .ok (mountPath, vgName)
        ∧ getPathAndNodeForPV samplePV = .ok (mountPath, node.Name) :=
  ⟨by decide, by decide,
    Provision_roundtrip sampleEnv sampleConfigData ⟨[("n1", ⟨"/data", ["vg0"]⟩)]⟩
      sampleProvisioner sampleEnv sampleOptions samplePV (by decide) rfl (by decide) (by decide)
      (by decide)⟩

/-! ## Delete -/

/-- C7: for a descriptor with reclaim policy `Retain`, `Delete` creates no helper pod (its
only possible effect is the log line `Retained volume`), and it returns a nil error whenever
`getPathAndNodeForPV` succeeds on the descriptor. -/
theorem Delete_retain (p : LocalLVMProvisioner) (env : Env) (pv : PersistentVolume)
    (h : pv.PersistentVolumeReclaimPolicy = PersistentVolumeReclaimRetain) :
    podCreateCount (Delete p env pv).2 = 0
      ∧ (∀ e ∈ (Delete p env pv).2, e = .log "Retained volume %v")
      ∧ ((getPathAndNodeForPV pv).isOk = true → (Delete p env pv).1 = .ok ()) := by
  unfold Delete
  cases hext : getPathAndNodeForPV pv with
  | error e => simp [podCreateCount, GoResult.isOk]
  | panic msg => simp [podCreateCount, GoResult.isOk]
  | ok r =>
    obtain ⟨path, node⟩ := r
    simp [h, podCreateCount]

theorem Delete_retain_witness :
    retainedPV.PersistentVolumeReclaimPolicy = PersistentVolumeReclaimRetain
      ∧ getPathAndNodeForPV retainedPV = .ok ("/data", "n1")
      ∧ podCreateCount (Delete sampleProvisioner sampleEnv retainedPV).2 = 0
      ∧ (Delete sampleProvisioner sampleEnv retainedPV).1 = .ok () :=
  ⟨rfl, by decide,
    (Delete_retain sampleProvisioner sampleEnv retainedPV rfl).1,
    (Delete_retain sampleProvisioner sampleEnv retainedPV rfl).2.2 (by decide)⟩


/-! ## Lookup order of `getPathAndVGOnNode` -/

/-- Two strings that differ within their first `k` bytes stay different whatever is
appended to them. -/
theorem append_ne_append_of_take (k : Nat) (a x b y : String) (ha : k ≤ a.data.length)
    (hb : k ≤ b.data.length) (hne : a.data.take k ≠ b.data.take k) : a ++ x ≠ b ++ y := by
  intro h
  apply hne
  have hdata : (a ++ x).data.take k = (b ++ y).data.take k := by rw [h]
  rwa [String.data_append, String.data_append, List.take_append_of_le_length ha,
    List.take_append_of_le_length hb] at hdata

theorem getPathAndVGOnNode_resolveEntry (p : LocalLVMProvisioner) (env : Env) (node : String)
    (c : Config) (npMap : NodeVGMap) (hp : p.config = some c)
    (hm : matchedEntry c node = some npMap) :
    (getPathAndVGOnNode p env node).1 = resolveEntry env node npMap := by
  rw [getPathAndVGOnNode_result, hp]
  simp only [hm, resolveEntry, noMountPathError]

theorem resolveEntry_ne_nodeNotConfigured (env : Env) (node : String) (npMap : NodeVGMap) :
    resolveEntry env node npMap ≠ .error (nodeNotConfiguredError node) := by
  unfold resolveEntry noMountPathError nodeNotConfiguredError
  split
  · simp only [ne_eq, GoResult.error.injEq, GoError.errorf.injEq, String.append_assoc]
    exact append_ne_append_of_take 1 _ _ _ _ (by decide) (by decide) (by decide)
  · split
    · simp only [ne_eq, GoResult.error.injEq, GoError.errorf.injEq, String.append_assoc]
      exact append_ne_append_of_take 1 _ _ _ _ (by decide) (by decide) (by decide)
    · simp

/-- C11: with a config in place, `getPathAndVGOnNode` works on the entry keyed by the node
name when there is one, whatever the fallback entry holds; otherwise on the entry keyed by
`DEFAULT_VGS_FOR_NON_LISTED_NODES`; it returns the node-not-configured error exactly when
neither entry exists, so a node without an entry of its own is resolved only if the fallback
entry exists. -/
theorem getPathAndVGOnNode_lookup_order (p : LocalLVMProvisioner) (env : Env) (node : String)
    (c : Config) (hp : p.config = some c) :
    (∀ npMap, c.get node = some npMap →
        (getPathAndVGOnNode p env node).1 = resolveEntry env node npMap)
      ∧ (∀ npMap, c.get node = none → c.get NodeDefaultNonListedNodes = some npMap →
        (getPathAndVGOnNode p env node).1 = resolveEntry env node npMap)
      ∧ ((getPathAndVGOnNode p env node).1 = .error (nodeNotConfiguredError node)
          ↔ c.get node = none ∧ c.get NodeDefaultNonListedNodes = none)
      ∧ (c.get node = none → (getPathAndVGOnNode p env node).1.isOk = true →
          (c.get NodeDefaultNonListedNodes).isSome = true) := by
  have hexact : ∀ npMap, c.get node = some npMap →
      (getPathAndVGOnNode p env node).1 = resolveEntry env node npMap := by
    intro npMap h
    exact getPathAndVGOnNode_resolveEntry p env node c npMap hp (by simp [matchedEntry, h])
  have hfallback : ∀ npMap, c.get node = none → c.get NodeDefaultNonListedNodes = some npMap →
      (getPathAndVGOnNode p env node).1 = resolveEntry env node npMap := by
    intro npMap h1 h2
    exact getPathAndVGOnNode_resolveEntry p env node c npMap hp (by simp [matchedEntry, h1, h2])
  have hnone : c.get node = none → c.get NodeDefaultNonListedNodes = none →
      (getPathAndVGOnNode p env node).1 = .error (nodeNotConfiguredError node) := by
    intro h1 h2
    rw [getPathAndVGOnNode_result, hp]
    simp only [matchedEntry, h1, h2, nodeNotConfiguredError]
  refine ⟨hexact, hfallback, ⟨fun h => ?_, fun h => hnone h.1 h.2⟩, fun h1 hok => ?_⟩
  · cases h1 : c.get node with
    | some npMap =>
      rw [hexact npMap h1] at h
      exact absurd h (resolveEntry_ne_nodeNotConfigured env node npMap)
    | none =>
      cases h2 : c.get NodeDefaultNonListedNodes with
      | some npMap =>
        rw [hfallback npMap h1 h2] at h
        exact absurd h (resolveEntry_ne_nodeNotConfigured env node npMap)
      | none => exact ⟨rfl, rfl⟩
  · cases h2 : c.get NodeDefaultNonListedNodes with
    | some npMap => rfl
    | none =>
      rw [hnone h1 h2] at hok
      cases hok


theorem getPathAndVGOnNode_lookup_order_witness :
    (getPathAndVGOnNode fallbackProvisioner sampleEnv "n1").1 = .ok ("/data", "vg0")
      ∧ (getPathAndVGOnNode fallbackProvisioner sampleEnv "n2").1 = .ok ("/shared", "vgx")
      ∧ (getPathAndVGOnNode sampleProvisioner sampleEnv "n2").1
          = .error (nodeNotConfiguredError "n2") :=
  ⟨(getPathAndVGOnNode_lookup_order fallbackProvisioner sampleEnv "n1" _ rfl).1
      ⟨"/data", ["vg0"]⟩ (by decide),
    (getPathAndVGOnNode_lookup_order fallbackProvisioner sampleEnv "n2" _ rfl).2.1
      ⟨"/shared", ["vgx"]⟩ (by decide) (by decide),
    (getPathAndVGOnNode_lookup_order sampleProvisioner sampleEnv "n2" _ rfl).2.2.1.2
      ⟨by decide, by decide⟩⟩


/-! ## What `canonicalizeConfig` returns -/

theorem canonicalizeVGs_ok (node : String) (l : List String) :
    ∀ acc vgs, canonicalizeVGs node l acc = .ok vgs →
      vgs = acc ++ l ∧ l.Nodup ∧ ∀ x ∈ l, x ∉ acc := by
  induction l with
  | nil =>
    intro acc vgs h
    simp only [canonicalizeVGs, GoResult.ok.injEq] at h
    simp [h]
  | cons vg rest ih =>
    intro acc vgs h
    simp only [canonicalizeVGs] at h
    split at h
    · simp at h
    · rename_i hnot
      obtain ⟨hvgs, hnodup, hfresh⟩ := ih _ _ h
      refine ⟨by simp [hvgs], ?_, ?_⟩
      · refine List.nodup_cons.2 ⟨fun hmem => ?_, hnodup⟩
        exact hfresh vg hmem (by simp)
      · intro x hx
        rcases List.mem_cons.1 hx with h1 | h1
        · rw [h1]; exact hnot
        · exact fun hacc => hfresh x h1 (by simp [hacc])

theorem lookup_append_singleton {β : Type} (m : List (String × β)) (k k2 : String) (v : β)
    (h : (m ++ [(k, v)]).lookup k2 = none) : m.lookup k2 = none ∧ k2 ≠ k := by
  induction m with
  | nil =>
    by_cases hk : k2 = k
    · subst hk; simp [List.lookup] at h
    · exact ⟨rfl, hk⟩
  | cons kv m ih =>
    obtain ⟨k1, v1⟩ := kv
    by_cases hk : k2 = k1
    · subst hk; simp [List.lookup] at h
    · have hbeq : (k2 == k1) = false := by simpa using hk
      simp only [List.cons_append, List.lookup, hbeq] at h ⊢
      exact ih h

/-- One step of the loop of `canonicalizeConfig` on a non-nil entry; `filepath.Abs` is
only reached with an absolute path, on which it is `Clean`. -/
theorem canonicalizeLoop_cons (env : Env) (n : NodeVGMapData)
    (rest : List (Option NodeVGMapData)) (m : List (String × NodeVGMap)) :
    canonicalizeLoop env (some n :: rest) m =
      if (m.lookup n.Node).isSome then .error (.errorf ("duplicate node " ++ n.Node))
      else if n.Path = "" then .panic "index out of range [0] with length 0"
      else if IsAbs n.Path = false then
        .error (.errorf ("mount path must start with / for path " ++ n.Path
          ++ " on node " ++ n.Node))
      else if Clean n.Path = "/" then
        .error (.errorf ("cannot use root ('/') as mount path on node " ++ n.Node))
      else
        match canonicalizeVGs n.Node n.VGs.elems [] with
        | .error e => .error e
        | .panic msg => .panic msg
        | .ok vgs => canonicalizeLoop env rest (m ++ [(n.Node, ⟨Clean n.Path, vgs⟩)]) := by
  simp only [canonicalizeLoop]
  split
  · rfl
  · cases hdata : n.Path.data with
    | nil =>
      have hempty : n.Path = "" := String.ext (by rw [hdata])
      simp [hempty]
    | cons c tl =>
      have hne : n.Path ≠ "" := by
        intro h
        rw [h] at hdata
        cases hdata
      simp only [if_neg hne]
      by_cases hc : c = '/'
      · subst hc
        have habs : IsAbs n.Path = true := IsAbs_of_data n.Path tl hdata
        simp [Abs, habs]
      · have habs : IsAbs n.Path = false := by simp [IsAbs, hdata, hc]
        simp [hc, habs]

/-- The loop of `canonicalizeConfig` never asks the surroundings anything. -/
theorem canonicalizeLoop_env (env env2 : Env) (l : List (Option NodeVGMapData)) :
    ∀ m, canonicalizeLoop env l m = canonicalizeLoop env2 l m := by
  induction l with
  | nil => intro m; rfl
  | cons entry rest ih =>
    intro m
    cases entry with
    | none => rfl
    | some n =>
      rw [canonicalizeLoop_cons, canonicalizeLoop_cons]
      simp only [ih]

/-- The outcome of `canonicalizeConfig` is a function of the raw config alone. -/
theorem canonicalizeConfig_env (env env2 : Env) (data : ConfigData) :
    canonicalizeConfig env data = canonicalizeConfig env2 data := by
  unfold canonicalizeConfig
  rw [canonicalizeLoop_env env env2]

/-- A successful run of the loop of `canonicalizeConfig`: no entry is nil, the node names
are new and pairwise distinct, every path is absolute and does not clean to the root, no
volume group is listed twice, and the map gains the canonical entries in order. -/
theorem canonicalizeLoop_ok (env : Env) (l : List (Option NodeVGMapData)) :
    ∀ (m : List (String × NodeVGMap)) (cfg : Config), canonicalizeLoop env l m = .ok cfg →
      ∃ entries : List NodeVGMapData, l = entries.map some
        ∧ cfg.NodeVGMap = m ++ entries.map canonicalEntry
        ∧ (∀ n ∈ entries, m.lookup n.Node = none)
        ∧ (entries.map fun n => n.Node).Nodup
        ∧ ∀ n ∈ entries, IsAbs n.Path = true ∧ Clean n.Path ≠ "/" ∧ n.VGs.elems.Nodup := by
  induction l with
  | nil =>
    intro m cfg h
    simp only [canonicalizeLoop, GoResult.ok.injEq] at h
    exact ⟨[], rfl, by simp [← h], by simp, by simp, by simp⟩
  | cons entry rest ih =>
    intro m cfg h
    cases entry with
    | none => simp [canonicalizeLoop] at h
    | some n =>
      rw [canonicalizeLoop_cons] at h
      split at h
      · simp at h
      · rename_i hnew
        split at h
        · simp at h
        · split at h
          · simp at h
          · rename_i habs
            split at h
            · simp at h
            · rename_i hroot
              split at h
              · simp at h
              · simp at h
              · rename_i vgs hvgs
                obtain ⟨hvgs2, hnodup, -⟩ := canonicalizeVGs_ok _ _ _ _ hvgs
                simp only [List.nil_append] at hvgs2
                obtain ⟨entries, hl, hcfg, hfresh, hnodes, hprops⟩ := ih _ cfg h
                have hnew2 : m.lookup n.Node = none := by
                  cases hlk : m.lookup n.Node with
                  | none => rfl
                  | some v => rw [hlk] at hnew; simp at hnew
                refine ⟨n :: entries, by simp [hl], ?_, ?_, ?_, ?_⟩
                · rw [hcfg, hvgs2]
                  simp [canonicalEntry]
                · intro n2 hn2
                  rcases List.mem_cons.1 hn2 with h1 | h1
                  · rw [h1]; exact hnew2
                  · exact (lookup_append_singleton m _ _ _ (hfresh n2 h1)).1
                · simp only [List.map_cons]
                  refine List.nodup_cons.2 ⟨?_, hnodes⟩
                  intro hmem
                  obtain ⟨n2, hn2, hname⟩ := List.mem_map.1 hmem
                  exact (lookup_append_singleton m _ _ _ (hfresh n2 hn2)).2 hname
                · intro n2 hn2
                  rcases List.mem_cons.1 hn2 with h1 | h1
                  · rw [h1]
                    exact ⟨by simpa using habs, hroot, hnodup⟩
                  · exact hprops n2 h1


theorem lookup_canonicalEntry (entries : List NodeVGMapData)
    (hnodup : (entries.map fun n => n.Node).Nodup) (n : NodeVGMapData) (hn : n ∈ entries) :
    (entries.map canonicalEntry).lookup n.Node = some (canonicalEntry n).2 := by
  induction entries with
  | nil => simp at hn
  | cons n0 rest ih =>
    simp only [List.map_cons, List.nodup_cons] at hnodup
    by_cases h0 : n.Node = n0.Node
    · have hn0 : n = n0 := by
        rcases List.mem_cons.1 hn with h1 | h1
        · exact h1
        · exact absurd (List.mem_map.2 ⟨n, h1, h0⟩) hnodup.1
      subst hn0
      simp [List.lookup, canonicalEntry]
    · have hbeq : (n.Node == n0.Node) = false := by simpa using h0
      have hin : n ∈ rest := by
        rcases List.mem_cons.1 hn with h1 | h1
        · rw [h1] at h0; exact absurd rfl h0
        · exact h1
      simp only [List.map_cons, List.lookup, canonicalEntry, hbeq]
      exact ih hnodup.2 hin

theorem lookup_canonicalEntry_none (entries : List NodeVGMapData) (k : String)
    (hk : k ∉ entries.map fun n => n.Node) : (entries.map canonicalEntry).lookup k = none := by
  induction entries with
  | nil => rfl
  | cons n0 rest ih =>
    simp only [List.map_cons, List.mem_cons, not_or] at hk
    have hbeq : (k == n0.Node) = false := by simpa using hk.1
    simp only [List.map_cons, List.lookup, canonicalEntry, hbeq]
    exact ih hk.2

theorem filterMap_id_map_some {α : Type} (l : List α) : (l.map some).filterMap id = l := by
  induction l with
  | nil => rfl
  | cons a l ih => simp [List.filterMap_cons, ih]

theorem IsCanonicalPath.isAbs {path : String} (h : IsCanonicalPath path) : IsAbs path = true := by
  obtain ⟨fs, hne, -, hdata⟩ := h
  cases fs with
  | nil => exact absurd rfl hne
  | cons e fs => exact IsAbs_of_data path _ hdata

/-- The successful outcome of `canonicalizeConfig` in terms of the raw entries. -/
theorem canonicalizeConfig_ok (env : Env) (data : ConfigData) (cfg : Config)
    (h : canonicalizeConfig env data = .ok cfg) :
    data.NodeVGMap.elems = (rawEntries data).map some
      ∧ cfg.NodeVGMap = (rawEntries data).map canonicalEntry
      ∧ ((rawEntries data).map fun n => n.Node).Nodup
      ∧ ∀ n ∈ rawEntries data, IsAbs n.Path = true ∧ Clean n.Path ≠ "/" ∧ n.VGs.elems.Nodup := by
  obtain ⟨entries, hl, hcfg, -, hnodes, hprops⟩ :=
    canonicalizeLoop_ok env _ [] cfg ((canonicalizeConfig_isOk env data cfg).1 h)
  have hraw : rawEntries data = entries := by
    unfold rawEntries
    rw [hl, filterMap_id_map_some]
  rw [hraw]
  exact ⟨hl, by simpa using hcfg, hnodes, hprops⟩

/-- No config is returned for a raw config in which two entries carry the same node name or
one entry lists a volume group twice; when no entry is nil and no path is empty the outcome
is an error. -/
theorem canonicalizeConfig_duplicate (env : Env) (data : ConfigData)
    (h : ¬ ((rawEntries data).map fun n => n.Node).Nodup
      ∨ ∃ n ∈ rawEntries data, ¬ n.VGs.elems.Nodup) :
    (canonicalizeConfig env data).isOk = false
      ∧ ((∀ entry ∈ data.NodeVGMap.elems, ∃ n, entry = some n ∧ n.Path ≠ "") →
          (canonicalizeConfig env data).isError = true) := by
  have hok : (canonicalizeConfig env data).isOk = false := by
    cases hres : canonicalizeConfig env data with
    | error e => rfl
    | panic msg => rfl
    | ok cfg =>
      obtain ⟨-, -, hnodes, hprops⟩ := canonicalizeConfig_ok env data cfg hres
      rcases h with h | ⟨n, hn, hdup⟩
      · exact absurd hnodes h
      · exact absurd (hprops n hn).2.2 hdup
  refine ⟨hok, fun hall => isError_of_not_ok_not_panic _ hok ?_⟩
  unfold canonicalizeConfig
  rw [Wrapf_isPanic]
  exact canonicalizeLoop_isPanic env _ [] hall

/-- C12: a raw config with a repeated node name, or with a volume group listed twice, whose
first entry has the empty path makes `canonicalizeConfig` panic on `n.Path[0]` before the
duplicate is looked at, so no error is returned. -/
theorem canonicalizeConfig_duplicate_panics (env : Env) :
    canonicalizeConfig env duplicateNodeConfigData
        = .panic "index out of range [0] with length 0"
      ∧ (canonicalizeConfig env duplicateNodeConfigData).isError = false
      ∧ canonicalizeConfig env duplicateVGConfigData
        = .panic "index out of range [0] with length 0"
      ∧ (canonicalizeConfig env duplicateVGConfigData).isError = false := by
  refine ⟨rfl, rfl, rfl, rfl⟩

/-- C13: when `canonicalizeConfig` succeeds, no raw entry is nil, the node names of the raw
entries are pairwise distinct, and the config holds exactly one entry per raw entry, found
under its node name; the path of that entry is `Clean` of the raw path, is absolute and is
not the root; its volume groups are those of the raw entry, which are pairwise distinct.
A name that is no raw node name has no entry. -/
theorem canonicalizeConfig_invariants (env : Env) (data : ConfigData) (cfg : Config)
    (h : canonicalizeConfig env data = .ok cfg) :
    data.NodeVGMap.elems = (rawEntries data).map some
      ∧ cfg.NodeVGMap = (rawEntries data).map canonicalEntry
      ∧ cfg.NodeVGMap.length = data.NodeVGMap.elems.length
      ∧ ((rawEntries data).map fun n => n.Node).Nodup
      ∧ (∀ n ∈ rawEntries data,
          cfg.get n.Node = some ⟨Clean n.Path, n.VGs.elems⟩
            ∧ IsAbs (Clean n.Path) = true ∧ Clean n.Path ≠ "/" ∧ n.VGs.elems.Nodup)
      ∧ ∀ k, k ∉ (rawEntries data).map (fun n => n.Node) → cfg.get k = none := by
  obtain ⟨hl, hcfg, hnodes, hprops⟩ := canonicalizeConfig_ok env data cfg h
  refine ⟨hl, hcfg, by rw [hcfg, hl]; simp, hnodes, ?_, ?_⟩
  · intro n hn
    obtain ⟨habs, hroot, hvgs⟩ := hprops n hn
    refine ⟨?_, (Clean_isCanonicalPath n.Path habs hroot).isAbs, hroot, hvgs⟩
    unfold Config.get
    rw [hcfg]
    exact lookup_canonicalEntry _ hnodes n hn
  · intro k hk
    unfold Config.get
    rw [hcfg]
    exact lookup_canonicalEntry_none _ k hk

theorem canonicalizeConfig_invariants_witness :
    canonicalizeConfig sampleEnv twoVGConfigData = .ok ⟨[("n1", ⟨"/data", ["vg0", "vg1"]⟩)]⟩
      ∧ rawEntries twoVGConfigData = [⟨"n1", "/data", some ["vg0", "vg1"]⟩]
      ∧ (⟨[("n1", ⟨"/data", ["vg0", "vg1"]⟩)]⟩ : Config).NodeVGMap
          = (rawEntries twoVGConfigData).map canonicalEntry :=
  ⟨by decide, by decide,
    (canonicalizeConfig_invariants sampleEnv twoVGConfigData
      ⟨[("n1", ⟨"/data", ["vg0", "vg1"]⟩)]⟩ (by decide)).2.1⟩


/-! ## Extraction of the node from a descriptor -/

theorem nodeOfExpressions_eq (l : List NodeSelectorRequirement) :
    nodeOfExpressions l =
      match firstNodeExpression l with
      | none => .ok none
      | some expression =>
        match expression.Values with
        | [value] => .ok (some value)
        | _ => .error (.errorf "multiple values for the node affinity") := by
  induction l with
  | nil => rfl
  | cons expression rest ih =>
    simp only [nodeOfExpressions, firstNodeExpression]
    split
    · rfl
    · exact ih

theorem firstNodeExpression_some (l : List NodeSelectorRequirement)
    (e : NodeSelectorRequirement) (h : firstNodeExpression l = some e) :
    e ∈ l ∧ e.Key = KeyNode ∧ e.Operator = NodeSelectorOpIn := by
  induction l with
  | nil => simp [firstNodeExpression] at h
  | cons expression rest ih =>
    simp only [firstNodeExpression] at h
    split at h
    · rename_i hcond
      simp only [Option.some.injEq] at h
      subst h
      exact ⟨by simp, hcond.1, hcond.2⟩
    · obtain ⟨hmem, hkey, hop⟩ := ih h
      exact ⟨List.mem_cons_of_mem _ hmem, hkey, hop⟩

/-- The scan over the selector terms, in terms of the expression it ends at. -/
theorem nodeOfTerms_eq (terms : List NodeSelectorTerm) :
    nodeOfTerms terms =
      match scannedExpression terms with
      | none => .ok ""
      | some expression =>
        match expression.Values with
        | [value] => .ok value
        | _ => .error (.errorf "multiple values for the node affinity") := by
  induction terms with
  | nil => rfl
  | cons selectorTerm rest ih =>
    simp only [nodeOfTerms, scannedExpression, nodeOfExpressions_eq]
    cases hfirst : firstNodeExpression selectorTerm.MatchExpressions with
    | none => simpa using ih
    | some e =>
      simp only
      cases hvals : e.Values with
      | nil => simp [hvals]
      | cons v vs =>
        cases vs with
        | cons v2 vs2 => simp [hvals]
        | nil =>
          by_cases hv : v = ""
          · subst hv
            simpa using ih
          · simp [hv, hvals]

theorem scannedExpression_some (terms : List NodeSelectorTerm) (e : NodeSelectorRequirement)
    (h : scannedExpression terms = some e) :
    (∃ t ∈ terms, firstNodeExpression t.MatchExpressions = some e) ∧ e.Values ≠ [""] := by
  induction terms with
  | nil => simp [scannedExpression] at h
  | cons selectorTerm rest ih =>
    simp only [scannedExpression] at h
    split at h
    · rename_i e2 hfirst
      split at h
      · obtain ⟨⟨t, ht, hft⟩, hv⟩ := ih h
        exact ⟨⟨t, List.mem_cons_of_mem _ ht, hft⟩, hv⟩
      · rename_i hvals
        simp only [Option.some.injEq] at h
        subst h
        exact ⟨⟨selectorTerm, by simp, hfirst⟩, hvals⟩
    · obtain ⟨⟨t, ht, hft⟩, hv⟩ := ih h
      exact ⟨⟨t, List.mem_cons_of_mem _ ht, hft⟩, hv⟩

theorem Wrapf_isError {α : Type} (r : GoResult α) (msg : String) :
    (Wrapf r msg).isError = r.isError := by
  cases r <;> rfl

/-- C14, counterexample: the descriptor `twoTermPV` offers three candidate nodes, one in its
first selector term and two in its second; `getPathAndNodeForPV` returns the first one and
`Delete` succeeds, although the constraint does not require exactly one node. -/
theorem getPathAndNodeForPV_ignores_later_terms :
    (∃ a r t e, twoTermPV.NodeAffinity = some a ∧ a.Required = some r
        ∧ t ∈ r.NodeSelectorTerms ∧ e ∈ t.MatchExpressions
        ∧ e.Key = KeyNode ∧ e.Operator = NodeSelectorOpIn ∧ e.Values = ["n2", "n3"])
      ∧ getPathAndNodeForPV twoTermPV = .ok ("/data", "n1")
      ∧ (Delete sampleProvisioner sampleEnv twoTermPV).1 = .ok () := by
  refine ⟨⟨_, _, { MatchExpressions :=
      [{ Key := KeyNode, Operator := NodeSelectorOpIn, Values := ["n2", "n3"] }] },
    { Key := KeyNode, Operator := NodeSelectorOpIn, Values := ["n2", "n3"] },
    rfl, rfl, ?_, ?_, rfl, rfl, rfl⟩, by decide, by decide⟩
  · exact List.mem_cons_of_mem _ (List.mem_singleton.2 rfl)
  · exact List.mem_singleton.2 rfl


/-- The body of `getPathAndNodeForPV` once host path, node affinity and required clause are
in place. -/
theorem getPathAndNodeForPVBody_required (pv : PersistentVolume) (a : VolumeNodeAffinity)
    (r : NodeSelector) (ha : pv.NodeAffinity = some a) (hr : a.Required = some r) :
    getPathAndNodeForPVBody pv =
      match pv.HostPath with
      | none => .error (.errorf "no HostPath set")
      | some hostPath =>
        if Dir hostPath.Path = "." ∨ Dir hostPath.Path = "/" then
          .error (.errorf "invalid HostPath set")
        else
          match scannedExpression r.NodeSelectorTerms with
          | none => .error (.errorf "cannot find affinited node")
          | some expression =>
            match expression.Values with
            | [value] => .ok (Dir hostPath.Path, value)
            | _ => .error (.errorf "multiple values for the node affinity") := by
  unfold getPathAndNodeForPVBody
  cases pv.HostPath with
  | none => rfl
  | some hostPath =>
    simp only [ha, hr, nodeOfTerms_eq]
    split
    · rfl
    · cases hscan : scannedExpression r.NodeSelectorTerms with
      | none => simp
      | some e =>
        have hne := (scannedExpression_some _ _ hscan).2
        simp only
        cases hvals : e.Values with
        | nil => simp
        | cons v vs =>
          cases vs with
          | cons v2 vs2 => simp
          | nil =>
            have hv : v ≠ "" := by
              intro hv
              rw [hvals, hv] at hne
              exact hne rfl
            simp [hv]

/-- C14, amended: `getPathAndNodeForPV` fails when the node affinity is absent, when its
required clause is absent, and when the expression at which its scan of the selector terms
ends (the first expression on `kubernetes.io/hostname` with operator `In` of the first term
that has one, terms listing just the empty name being passed over) lists a number of values
other than one.  It succeeds only when that expression lists exactly one value, which is the
node returned and is not empty; candidates offered by later terms or expressions are not
looked at.  Whenever it fails, `Delete` fails without any effect. -/
theorem getPathAndNodeForPV_affinity (pv : PersistentVolume) :
    (pv.NodeAffinity = none → (getPathAndNodeForPV pv).isError = true)
      ∧ (∀ a, pv.NodeAffinity = some a → a.Required = none →
          (getPathAndNodeForPV pv).isError = true)
      ∧ (∀ a r e, pv.NodeAffinity = some a → a.Required = some r →
          scannedExpression r.NodeSelectorTerms = some e → e.Values.length ≠ 1 →
          (getPathAndNodeForPV pv).isError = true)
      ∧ (∀ path node, getPathAndNodeForPV pv = .ok (path, node) →
          ∃ a r e, pv.NodeAffinity = some a ∧ a.Required = some r
            ∧ scannedExpression r.NodeSelectorTerms = some e
            ∧ e.Key = KeyNode ∧ e.Operator = NodeSelectorOpIn
            ∧ e.Values = [node] ∧ node ≠ "")
      ∧ (∀ (p : LocalLVMProvisioner) (env : Env), (getPathAndNodeForPV pv).isError = true →
          (Delete p env pv).1.isError = true ∧ (Delete p env pv).2 = []) := by
  refine ⟨?_, ?_, ?_, ?_, ?_⟩
  · intro ha
    unfold getPathAndNodeForPV
    rw [Wrapf_isError]
    unfold getPathAndNodeForPVBody
    cases pv.HostPath with
    | none => rfl
    | some hostPath =>
      simp only [ha]
      split <;> rfl
  · intro a ha hr
    unfold getPathAndNodeForPV
    rw [Wrapf_isError]
    unfold getPathAndNodeForPVBody
    cases pv.HostPath with
    | none => rfl
    | some hostPath =>
      simp only [ha, hr]
      split <;> rfl
  · intro a r e ha hr hscan hlen
    unfold getPathAndNodeForPV
    rw [Wrapf_isError, getPathAndNodeForPVBody_required pv a r ha hr]
    cases pv.HostPath with
    | none => rfl
    | some hostPath =>
      simp only [hscan]
      split
      · rfl
      · cases hvals : e.Values with
        | nil => rfl
        | cons v vs =>
          cases vs with
          | cons v2 vs2 => rfl
          | nil => rw [hvals] at hlen; exact absurd rfl hlen
  · intro path node hok
    cases ha : pv.NodeAffinity with
    | none =>
      have : (getPathAndNodeForPV pv).isError = true := by
        unfold getPathAndNodeForPV
        rw [Wrapf_isError]
        unfold getPathAndNodeForPVBody
        cases pv.HostPath with
        | none => rfl
        | some hostPath =>
          simp only [ha]
          split <;> rfl
      rw [hok] at this
      cases this
    | some a =>
      cases hr : a.Required with
      | none =>
        have : (getPathAndNodeForPV pv).isError = true := by
          unfold getPathAndNodeForPV
          rw [Wrapf_isError]
          unfold getPathAndNodeForPVBody
          cases pv.HostPath with
          | none => rfl
          | some hostPath =>
            simp only [ha, hr]
            split <;> rfl
        rw [hok] at this
        cases this
      | some r =>
        unfold getPathAndNodeForPV at hok
        rw [getPathAndNodeForPVBody_required pv a r ha hr] at hok
        cases hhp : pv.HostPath with
        | none => rw [hhp] at hok; simp [Wrapf] at hok
        | some hostPath =>
          rw [hhp] at hok
          simp only at hok
          split at hok
          · simp [Wrapf] at hok
          · cases hscan : scannedExpression r.NodeSelectorTerms with
            | none => rw [hscan] at hok; simp [Wrapf] at hok
            | some e =>
              rw [hscan] at hok
              simp only at hok
              obtain ⟨⟨t, -, hfirst⟩, hne⟩ := scannedExpression_some _ _ hscan
              obtain ⟨-, hkey, hop⟩ := firstNodeExpression_some _ _ hfirst
              cases hvals : e.Values with
              | nil => rw [hvals] at hok; simp [Wrapf] at hok
              | cons v vs =>
                cases vs with
                | cons v2 vs2 => rw [hvals] at hok; simp [Wrapf] at hok
                | nil =>
                  rw [hvals] at hok
                  simp only [Wrapf, GoResult.ok.injEq, Prod.mk.injEq] at hok
                  refine ⟨a, r, e, rfl, hr, hscan, hkey, hop, by rw [hvals, hok.2], ?_⟩
                  intro hnode
                  rw [hvals, hok.2, hnode] at hne
                  exact hne rfl
  · intro p env herr
    unfold Delete
    cases hres : getPathAndNodeForPV pv with
    | error e => exact ⟨rfl, rfl⟩
    | panic msg => rw [hres] at herr; cases herr
    | ok r => rw [hres] at herr; cases herr

theorem getPathAndNodeForPV_affinity_witness :
    (getPathAndNodeForPV unpinnedPV).isError = true
      ∧ (getPathAndNodeForPV twoValuePV).isError = true
      ∧ (Delete sampleProvisioner sampleEnv twoValuePV).2 = []
      ∧ getPathAndNodeForPV samplePV = .ok ("/data", "n1")
      ∧ ∃ a r e, samplePV.NodeAffinity = some a ∧ a.Required = some r
          ∧ scannedExpression r.NodeSelectorTerms = some e
          ∧ e.Key = KeyNode ∧ e.Operator = NodeSelectorOpIn
          ∧ e.Values = ["n1"] ∧ "n1" ≠ "" :=
  ⟨(getPathAndNodeForPV_affinity unpinnedPV).1 rfl,
    (getPathAndNodeForPV_affinity twoValuePV).2.2.1 _ _
      { Key := KeyNode, Operator := NodeSelectorOpIn, Values := ["n1", "n2"] }
      rfl rfl (by decide) (by decide),
    ((getPathAndNodeForPV_affinity twoValuePV).2.2.2.2 sampleProvisioner sampleEnv
      (by decide)).2,
    by decide,
    (getPathAndNodeForPV_affinity samplePV).2.2.2.1 "/data" "n1" (by decide)⟩


/-! ## The helper pod of `Provision` -/

theorem podCreateCount_eq (effects : List Effect) :
    podCreateCount effects = effects.countP Effect.isPodCreate := by
  unfold podCreateCount
  congr 1

theorem podCreateCount_zero (effects : List Effect)
    (h : ∀ e ∈ effects, e.isPodCreate = false) : podCreateCount effects = 0 := by
  rw [podCreateCount_eq, List.countP_eq_zero]
  intro e he
  simp [h e he]

theorem pollLoop_effects (env : Env) (ns name : String) (n : Nat) :
    ∀ i, ∀ e ∈ (pollLoop env ns name n i).2, e = .podGet ns name ∨ e = .sleep 1 := by
  induction n with
  | zero => intro i e he; simp [pollLoop] at he
  | succ n ih =>
    intro i e he
    simp only [pollLoop] at he
    split at he
    · simp only [List.mem_singleton] at he
      exact Or.inl he
    · split at he
      · simp only [List.mem_singleton] at he
        exact Or.inl he
      · simp only [List.mem_cons] at he
        rcases he with h | h | h
        · exact Or.inl h
        · exact Or.inr h
        · exact ih _ e h

theorem pollLoop_isPodCreate (env : Env) (ns name : String) (n i : Nat) :
    ∀ e ∈ (pollLoop env ns name n i).2, e.isPodCreate = false := by
  intro e he
  rcases pollLoop_effects env ns name n i e he with h | h <;> rw [h] <;> rfl

theorem deleteHelperPod_isPodCreate (env : Env) (ns name : String) :
    ∀ e ∈ deleteHelperPod env ns name, e.isPodCreate = false := by
  intro e he
  unfold deleteHelperPod at he
  split at he
  · simp only [List.mem_singleton] at he
    rw [he]; rfl
  · simp only [List.mem_cons, List.mem_singleton, List.not_mem_nil, or_false] at he
    rcases he with h | h <;> rw [h] <;> rfl

/-- The effects of `createHelperPod`: none at all when the call is turned down before the
`Create` request, otherwise the `Create` request for the helper pod followed by effects
that create nothing. -/
theorem createHelperPod_effects (p : LocalLVMProvisioner) (env : Env) (action : ActionType)
    (args : List String) (node : String) :
    (createHelperPod p env action args node).2 = []
      ∨ ∃ name arg1 tail,
          (if action = ActionTypeCreate then args.get? 4 else args.get? 2) = some name
            ∧ args.get? 1 = some arg1
            ∧ (createHelperPod p env action args node).2
                = .podCreate p.podNamespace (helperPod p action name args arg1 node) :: tail
            ∧ ∀ e ∈ tail, e.isPodCreate = false := by
  cases hname : (if action = ActionTypeCreate then args.get? 4 else args.get? 2) with
  | none => exact Or.inl (by simp only [createHelperPod, hname])
  | some name =>
    by_cases hcond : name = "" ∨ node = ""
    · exact Or.inl (by simp only [createHelperPod, hname, if_pos hcond])
    · cases harg : args.get? 1 with
      | none => exact Or.inl (by simp only [createHelperPod, hname, if_neg hcond, harg])
      | some arg1 =>
        cases habs : Abs env.getwd arg1 with
        | panic msg =>
          exact Or.inl (by simp only [createHelperPod, hname, if_neg hcond, harg, habs])
        | error e =>
          exact Or.inl (by simp only [createHelperPod, hname, if_neg hcond, harg, habs])
        | ok path0 =>
          by_cases hpath : trimSuffixSlash path0 = ""
          · exact Or.inl (by
              simp only [createHelperPod, hname, if_neg hcond, harg, habs, if_pos hpath])
          · right
            cases hcreate : env.podCreate p.podNamespace
                (helperPod p action name args arg1 node) with
            | error msg =>
              exact ⟨name, arg1, [], rfl, rfl, by
                simp only [createHelperPod, hname, if_neg hcond, harg, habs, if_neg hpath,
                  hcreate], by simp⟩
            | ok pod =>
              have hpoll := pollLoop_isPodCreate env p.podNamespace pod.Name
                env.cmdTimeoutCounts.toNat 0
              have hdel := deleteHelperPod_isPodCreate env p.podNamespace pod.Name
              cases hres : (pollLoop env p.podNamespace pod.Name
                  env.cmdTimeoutCounts.toNat 0).1 with
              | panic msg =>
                refine ⟨name, arg1, _, rfl, rfl, by
                  simp only [createHelperPod, hname, if_neg hcond, harg, habs, if_neg hpath,
                    hcreate, hres]
                  rfl, ?_⟩
                intro e he
                rcases List.mem_append.1 he with h | h
                · exact hpoll e h
                · exact hdel e h
              | error err =>
                refine ⟨name, arg1, _, rfl, rfl, by
                  simp only [createHelperPod, hname, if_neg hcond, harg, habs, if_neg hpath,
                    hcreate, hres]
                  rfl, ?_⟩
                intro e he
                rcases List.mem_append.1 he with h | h
                · exact hpoll e h
                · exact hdel e h
              | ok completed =>
                cases completed with
                | false =>
                  refine ⟨name, arg1, _, rfl, rfl, by
                    simp only [createHelperPod, hname, if_neg hcond, harg, habs, if_neg hpath,
                      hcreate, hres]
                    rfl, ?_⟩
                  intro e he
                  rcases List.mem_append.1 he with h | h
                  · exact hpoll e h
                  · exact hdel e h
                | true =>
                  refine ⟨name, arg1, _, rfl, rfl, by
                    simp only [createHelperPod, hname, if_neg hcond, harg, habs, if_neg hpath,
                      hcreate, hres]
                    rfl, ?_⟩
                  intro e he
                  rcases List.mem_append.1 he with h | h
                  · exact hpoll e h
                  · rcases List.mem_cons.1 h with h2 | h2
                    · rw [h2]; rfl
                    · exact hdel e h2


theorem getPathAndVGOnNode_isPodCreate (p : LocalLVMProvisioner) (env : Env) (node : String) :
    ∀ e ∈ (getPathAndVGOnNode p env node).2, e.isPodCreate = false := by
  intro e he
  have hshape : (getPathAndVGOnNode p env node).2 = [.configRLock]
      ∨ (getPathAndVGOnNode p env node).2
          = [.configRLock, .log "config doesn't contain node %v, use %v instead"] := by
    unfold getPathAndVGOnNode
    cases p.config with
    | none => exact Or.inl rfl
    | some c =>
      simp only
      cases c.get node with
      | some npMap =>
        simp only
        split
        · exact Or.inl rfl
        · split <;> exact Or.inl rfl
      | none =>
        simp only
        cases c.get NodeDefaultNonListedNodes with
        | none => exact Or.inl rfl
        | some npMap =>
          simp only
          split
          · exact Or.inr rfl
          · split <;> exact Or.inr rfl
  rcases hshape with h | h <;> rw [h] at he <;> simp at he
  · rw [he]; rfl
  · rcases he with h2 | h2 <;> rw [h2] <;> rfl

/-- The effects and the success of `Provision` once validation and node resolution have
passed: those of the one call of `createHelperPod`, behind the lock and the log line. -/
theorem Provision_resolved (p : LocalLVMProvisioner) (env : Env) (opts : VolumeOptions)
    (node : Node) (size : Int) (mountPath vgName : String)
    (hsel : opts.PVC.Selector.isSome = false)
    (hmode : ∀ m ∈ opts.PVC.AccessModes, m = ReadWriteOnce)
    (hnode : opts.SelectedNode = some node)
    (hsize : opts.PVC.StorageRequest = some size)
    (hge : 4 * 1024 * 1024 ≤ size)
    (hres : (getPathAndVGOnNode p env node.Name).1 = .ok (mountPath, vgName)) :
    (Provision p env opts).2 = (getPathAndVGOnNode p env node.Name).2
        ++ .log "Creating volume %v (%v/%v) at %v:%v"
          :: (createHelperPod p env ActionTypeCreate
              (createArgs opts mountPath vgName size) node.Name).2
      ∧ (Provision p env opts).1.isOk = (createHelperPod p env ActionTypeCreate
              (createArgs opts mountPath vgName size) node.Name).1.isOk := by
  rw [Provision_valid p env opts node size hsel hmode hnode hsize hge, hres]
  simp only
  cases (createHelperPod p env ActionTypeCreate
    (createArgs opts mountPath vgName size) node.Name).1 <;> exact ⟨rfl, rfl⟩

theorem Clean_canonical (m : String) (hm : IsCanonicalPath m) : Clean m = m := by
  obtain ⟨fs, hne, hfs, hdata⟩ := hm
  cases fs with
  | nil => exact absurd rfl hne
  | cons e fs =>
    apply String.ext
    have hout : (Clean m).data = cleanChars (rootedPath (e :: fs) ++ []) := by
      simp [Clean, hdata]
    rw [hout, cleanChars_rootedPath_append e fs hfs [] rfl, cleanLoop_nil, rootedBuf_reverse,
      hdata]
    simp

theorem trimSuffixSlash_canonical (m : String) (hm : IsCanonicalPath m) :
    trimSuffixSlash m ≠ "" := by
  obtain ⟨fs, hne, hfs, hdata⟩ := hm
  cases fs with
  | nil => exact absurd rfl hne
  | cons e fs =>
    have he : e ≠ [] := (hfs e (by simp)).1
    have hlen : 2 ≤ m.data.reverse.length := by
      rw [List.length_reverse, hdata]
      cases e with
      | nil => exact absurd rfl he
      | cons c e => simp [rootedPath]
    unfold trimSuffixSlash
    cases hrev : m.data.reverse with
    | nil => rw [hrev] at hlen; simp at hlen
    | cons c rest =>
      rw [hrev] at hlen
      simp only
      split
      · intro h
        have hdata2 : rest.reverse = [] := congrArg String.data h
        have : rest = [] := by simpa using hdata2
        rw [this] at hlen
        simp at hlen
      · intro h
        rw [h] at hrev
        cases hrev

/-- With non-empty names and a canonical path argument `createHelperPod` gets as far as the
`Create` request. -/
theorem createHelperPod_canonical_effects (p : LocalLVMProvisioner) (env : Env)
    (action : ActionType) (args : List String) (node name arg1 : String)
    (hname : (if action = ActionTypeCreate then args.get? 4 else args.get? 2) = some name)
    (hne : name ≠ "") (hnode : node ≠ "") (harg : args.get? 1 = some arg1)
    (hcanon : IsCanonicalPath arg1) :
    (createHelperPod p env action args node).2 ≠ [] := by
  have hcond : ¬ (name = "" ∨ node = "") := by simp [hne, hnode]
  have habs : Abs env.getwd arg1 = .ok arg1 := by
    simp [Abs, hcanon.isAbs, Clean_canonical arg1 hcanon]
  have hpath := trimSuffixSlash_canonical arg1 hcanon
  simp only [createHelperPod, hname, if_neg hcond, harg, habs, if_neg hpath]
  split
  · simp
  · split <;> simp


/-! ## Decimal notation of the size argument -/

theorem digitChar_spec : ∀ d, d < 10 →
    (Nat.digitChar d).toNat - 48 = d ∧ (Nat.digitChar d).isDigit = true
      ∧ Nat.digitChar d ≠ '-' ∧ (d ≠ 0 → Nat.digitChar d ≠ '0') := by
  decide

theorem decimalValue_foldl (ds : List Char) : ∀ a : Nat,
    ds.foldl (fun acc c => acc * 10 + (c.toNat - 48)) a = a * 10 ^ ds.length + decimalValue ds := by
  induction ds with
  | nil => intro a; simp [decimalValue]
  | cons c ds ih =>
    intro a
    simp only [List.foldl_cons, decimalValue, List.length_cons]
    rw [ih (a * 10 + (c.toNat - 48)), ih (0 * 10 + (c.toNat - 48))]
    ring

theorem decimalValue_cons (c : Char) (ds : List Char) :
    decimalValue (c :: ds) = (c.toNat - 48) * 10 ^ ds.length + decimalValue ds := by
  have := decimalValue_foldl ds (0 * 10 + (c.toNat - 48))
  simpa [decimalValue] using this

/-- The digits that `Nat.toDigitsCore` puts in front of `ds` are worth `n`. -/
theorem toDigitsCore_value (fuel : Nat) : ∀ (n : Nat) (ds : List Char), n < fuel →
    decimalValue (Nat.toDigitsCore 10 fuel n ds) = n * 10 ^ ds.length + decimalValue ds := by
  induction fuel with
  | zero => intro n ds h; exact absurd h (Nat.not_lt_zero n)
  | succ fuel ih =>
    intro n ds h
    have hd := (digitChar_spec (n % 10) (Nat.mod_lt n (by decide))).1
    simp only [Nat.toDigitsCore]
    split
    · rename_i hq
      have hn : n % 10 = n := by omega
      rw [decimalValue_cons, hd, hn]
    · rename_i hq
      have hlt : n / 10 < fuel := by omega
      rw [ih (n / 10) _ hlt, decimalValue_cons, hd, List.length_cons]
      have hn : n = 10 * (n / 10) + n % 10 := (Nat.div_add_mod n 10).symm
      generalize n / 10 = q at *
      generalize n % 10 = r at *
      rw [hn]
      ring

theorem toDigitsCore_isDigit (fuel : Nat) : ∀ (n : Nat) (ds : List Char),
    ds.all Char.isDigit = true → (Nat.toDigitsCore 10 fuel n ds).all Char.isDigit = true := by
  induction fuel with
  | zero => intro n ds h; exact h
  | succ fuel ih =>
    intro n ds h
    have hd := (digitChar_spec (n % 10) (Nat.mod_lt n (by decide))).2.1
    simp only [Nat.toDigitsCore]
    split
    · simp [hd, h]
    · exact ih _ _ (by simp [hd, h])

theorem toDigitsCore_head (fuel : Nat) : ∀ (n : Nat) (ds : List Char), n < fuel →
    ∃ c rest, Nat.toDigitsCore 10 fuel n ds = c :: rest ∧ c ≠ '-'
      ∧ (c = '0' → n = 0 ∧ rest = ds) := by
  induction fuel with
  | zero => intro n ds h; exact absurd h (Nat.not_lt_zero n)
  | succ fuel ih =>
    intro n ds h
    have hd := digitChar_spec (n % 10) (Nat.mod_lt n (by decide))
    simp only [Nat.toDigitsCore]
    split
    · rename_i hq
      refine ⟨_, _, rfl, hd.2.2.1, fun h0 => ?_⟩
      have hr : n % 10 = 0 := by
        by_contra hne
        exact hd.2.2.2 hne h0
      exact ⟨by omega, rfl⟩
    · rename_i hq
      have hlt : n / 10 < fuel := by omega
      obtain ⟨c, rest, heq, hminus, hzero⟩ := ih (n / 10) (Nat.digitChar (n % 10) :: ds) hlt
      exact ⟨c, rest, heq, hminus, fun h0 => absurd (hzero h0).1 hq⟩

/-- The digits of `Nat.repr` are the decimal notation of the number. -/
theorem Nat_repr_decimal (n : Nat) :
    ∃ c rest, (Nat.repr n).data = c :: rest ∧ c ≠ '-' ∧ isDecimalString (c :: rest) = true
      ∧ decimalValue (c :: rest) = n := by
  obtain ⟨c, rest, heq, hminus, hzero⟩ := toDigitsCore_head (n + 1) n [] (Nat.lt_succ_self n)
  have hdata : (Nat.repr n).data = Nat.toDigitsCore 10 (n + 1) n [] := rfl
  have hall := toDigitsCore_isDigit (n + 1) n [] rfl
  have hval := toDigitsCore_value (n + 1) n [] (Nat.lt_succ_self n)
  rw [heq] at hall hval
  refine ⟨c, rest, by rw [hdata, heq], hminus, ?_, by simpa [decimalValue] using hval⟩
  simp only [isDecimalString, List.head?_cons, Option.some.injEq, decide_eq_true_eq]
  refine ⟨by simp, hall, fun h0 => ?_⟩
  rw [(hzero h0).2, h0]

/-- The string that `FormatInt` returns denotes its argument in decimal notation. -/
theorem FormatInt_readDecimal (n : Int) : readDecimal (FormatInt n) = some n := by
  cases n with
  | ofNat m =>
    obtain ⟨c, rest, hdata, hminus, hwf, hval⟩ := Nat_repr_decimal m
    have : (FormatInt (Int.ofNat m)).data = c :: rest := hdata
    simp only [readDecimal, this, if_neg hminus, hwf, if_true, hval]
    rfl
  | negSucc m =>
    obtain ⟨c, rest, hdata, hminus, hwf, hval⟩ := Nat_repr_decimal (m + 1)
    have : (FormatInt (Int.negSucc m)).data = '-' :: c :: rest := by
      show ("-" ++ Nat.repr (m + 1)).data = _
      rw [String.data_append, hdata]
      rfl
    have hne : decimalValue (c :: rest) ≠ 0 := by rw [hval]; omega
    simp only [readDecimal, this, if_true, hwf, hval, true_and]
    simp [Int.negSucc_eq]


theorem isDigit_toNat (c : Char) (h : c.isDigit = true) : 48 ≤ c.toNat ∧ c.toNat ≤ 57 := by
  simp only [Char.isDigit, Bool.and_eq_true, decide_eq_true_eq] at h
  exact ⟨h.1, h.2⟩

theorem digit_eq_zero (c : Char) (h : c.isDigit = true) (h0 : c.toNat - 48 = 0) : c = '0' := by
  have := isDigit_toNat c h
  apply Char.ext
  apply UInt32.ext
  show c.toNat = 48
  omega

theorem digit_injective (c d : Char) (hc : c.isDigit = true) (hd : d.isDigit = true)
    (h : c.toNat - 48 = d.toNat - 48) : c = d := by
  have h1 := isDigit_toNat c hc
  have h2 := isDigit_toNat d hd
  apply Char.ext
  apply UInt32.ext
  show c.toNat = d.toNat
  omega

theorem decimalValue_lt (ds : List Char) (h : ds.all Char.isDigit = true) :
    decimalValue ds < 10 ^ ds.length := by
  induction ds with
  | nil => simp [decimalValue]
  | cons c ds ih =>
    simp only [List.all_cons, Bool.and_eq_true] at h
    have hc := isDigit_toNat c h.1
    have := ih h.2
    rw [decimalValue_cons, List.length_cons, pow_succ]
    have hd : c.toNat - 48 ≤ 9 := by omega
    nlinarith

theorem decimalValue_ge (c : Char) (ds : List Char) (hc : c.isDigit = true) (h0 : c ≠ '0') :
    10 ^ ds.length ≤ decimalValue (c :: ds) := by
  rw [decimalValue_cons]
  have : c.toNat - 48 ≠ 0 := fun h => h0 (digit_eq_zero c hc h)
  have h1 : 1 ≤ c.toNat - 48 := by omega
  calc 10 ^ ds.length = 1 * 10 ^ ds.length := (Nat.one_mul _).symm
    _ ≤ (c.toNat - 48) * 10 ^ ds.length := Nat.mul_le_mul_right _ h1
    _ ≤ (c.toNat - 48) * 10 ^ ds.length + decimalValue ds := Nat.le_add_right _ _

theorem decimalValue_injective_of_length : ∀ (ds es : List Char),
    ds.all Char.isDigit = true → es.all Char.isDigit = true → ds.length = es.length →
    decimalValue ds = decimalValue es → ds = es := by
  intro ds
  induction ds with
  | nil =>
    intro es _ _ hlen _
    cases es with
    | nil => rfl
    | cons e es => simp at hlen
  | cons c ds ih =>
    intro es hds hes hlen hval
    cases es with
    | nil => simp at hlen
    | cons e es =>
      simp only [List.all_cons, Bool.and_eq_true] at hds hes
      simp only [List.length_cons, Nat.add_right_cancel_iff] at hlen
      rw [decimalValue_cons, decimalValue_cons, hlen] at hval
      have h1 := decimalValue_lt ds hds.2
      have h2 := decimalValue_lt es hes.2
      rw [hlen] at h1
      have hpos : 0 < 10 ^ es.length := by positivity
      generalize 10 ^ es.length = P at *
      have hq : c.toNat - 48 = e.toNat - 48 := by
        have e1 : ((c.toNat - 48) * P + decimalValue ds) / P = c.toNat - 48 := by
          rw [Nat.add_comm, Nat.add_mul_div_right _ _ hpos, Nat.div_eq_of_lt h1, Nat.zero_add]
        have e2 : ((e.toNat - 48) * P + decimalValue es) / P = e.toNat - 48 := by
          rw [Nat.add_comm, Nat.add_mul_div_right _ _ hpos, Nat.div_eq_of_lt h2, Nat.zero_add]
        rw [← e1, ← e2, hval]
      rw [hq] at hval
      have hrest : decimalValue ds = decimalValue es := Nat.add_left_cancel hval
      rw [digit_injective c e hds.1 hes.1 hq, ih es hds.2 hes.2 hlen hrest]

theorem isDecimalString_spec (ds : List Char) (h : isDecimalString ds = true) :
    ds.all Char.isDigit = true ∧
      (ds = ['0'] ∨ ∃ c rest, ds = c :: rest ∧ c ≠ '0' ∧ c.isDigit = true) := by
  simp only [isDecimalString, decide_eq_true_eq] at h
  obtain ⟨hne, hall, hzero⟩ := h
  refine ⟨hall, ?_⟩
  cases ds with
  | nil => exact absurd rfl hne
  | cons c rest =>
    by_cases hc : c = '0'
    · left
      exact hzero (by simp [hc])
    · right
      simp only [List.all_cons, Bool.and_eq_true] at hall
      exact ⟨c, rest, rfl, hc, hall.1⟩

/-- Two digit strings in decimal notation that are worth the same are the same string. -/
theorem decimalValue_injective (ds es : List Char) (hds : isDecimalString ds = true)
    (hes : isDecimalString es = true) (hval : decimalValue ds = decimalValue es) : ds = es := by
  obtain ⟨hall1, h1⟩ := isDecimalString_spec ds hds
  obtain ⟨hall2, h2⟩ := isDecimalString_spec es hes
  have hzero : ∀ (c : Char) (rest : List Char), c ≠ '0' → c.isDigit = true →
      decimalValue (c :: rest) ≠ 0 := by
    intro c rest hc hdig h0
    have := decimalValue_ge c rest hdig hc
    have hpos : 0 < 10 ^ rest.length := by positivity
    omega
  rcases h1 with h1 | ⟨c, rest, h1, hc, hcd⟩ <;> rcases h2 with h2 | ⟨e, rest2, h2, he, hed⟩
  · rw [h1, h2]
  · rw [h1, h2] at hval
    exact absurd hval.symm (hzero e rest2 he hed)
  · rw [h1, h2] at hval
    exact absurd hval (hzero c rest hc hcd)
  · have hlen : ds.length = es.length := by
      have a1 := decimalValue_lt ds hall1
      have a2 := decimalValue_lt es hall2
      have b1 := decimalValue_ge c rest hcd hc
      have b2 := decimalValue_ge e rest2 hed he
      rw [← h1] at b1
      rw [← h2] at b2
      have l1 : ds.length = rest.length + 1 := by rw [h1]; rfl
      have l2 : es.length = rest2.length + 1 := by rw [h2]; rfl
      rw [hval] at a1 b1
      have c1 : 10 ^ rest.length < 10 ^ es.length := lt_of_le_of_lt b1 a2
      have c2 : 10 ^ rest2.length < 10 ^ ds.length := lt_of_le_of_lt b2 a1
      have d1 := (Nat.pow_lt_pow_iff_right (by decide : 1 < 10)).1 c1
      have d2 := (Nat.pow_lt_pow_iff_right (by decide : 1 < 10)).1 c2
      omega
    exact decimalValue_injective_of_length ds es hall1 hall2 hlen hval

/-- An integer has only one decimal notation. -/
theorem readDecimal_injective (s t : String) (n : Int) (hs : readDecimal s = some n)
    (ht : readDecimal t = some n) : s = t := by
  have key : ∀ (u : String) (m : Int), readDecimal u = some m →
      (∃ ds, u.data = '-' :: ds ∧ isDecimalString ds = true ∧ decimalValue ds ≠ 0
          ∧ m = -(decimalValue ds : Int))
        ∨ (∃ ds, u.data = ds ∧ isDecimalString ds = true ∧ m = (decimalValue ds : Int)
            ∧ ds.head? ≠ some '-') := by
    intro u m hu
    unfold readDecimal at hu
    split at hu
    · cases hu
    · rename_i c ds hdata
      split at hu
      · rename_i hc
        split at hu
        · rename_i hcond
          simp only [Option.some.injEq] at hu
          exact Or.inl ⟨ds, by rw [hdata, hc], hcond.1, hcond.2, hu.symm⟩
        · cases hu
      · rename_i hc
        split at hu
        · rename_i hcond
          simp only [Option.some.injEq] at hu
          exact Or.inr ⟨c :: ds, hdata, hcond, hu.symm, by simpa using hc⟩
        · cases hu
  apply String.ext
  rcases key s n hs with ⟨ds, hd, hw, hne, hv⟩ | ⟨ds, hd, hw, hv, -⟩ <;>
    rcases key t n ht with ⟨es, he, hw2, hne2, hv2⟩ | ⟨es, he, hw2, hv2, -⟩
  · rw [hd, he, decimalValue_injective ds es hw hw2 (by omega)]
  · omega
  · omega
  · rw [hd, he, decimalValue_injective ds es hw hw2 (by omega)]

/-- The result of `Provision` once validation and node resolution have passed: the
descriptor when the one call of `createHelperPod` succeeds, otherwise the failure of that
call. -/
theorem Provision_resolved_result (p : LocalLVMProvisioner) (env : Env) (opts : VolumeOptions)
    (node : Node) (size : Int) (mountPath vgName : String)
    (hsel : opts.PVC.Selector.isSome = false)
    (hmode : ∀ m ∈ opts.PVC.AccessModes, m = ReadWriteOnce)
    (hnode : opts.SelectedNode = some node)
    (hsize : opts.PVC.StorageRequest = some size)
    (hge : 4 * 1024 * 1024 ≤ size)
    (hres : (getPathAndVGOnNode p env node.Name).1 = .ok (mountPath, vgName)) :
    (Provision p env opts).1 =
      match (createHelperPod p env ActionTypeCreate
          (createArgs opts mountPath vgName size) node.Name).1 with
      | .ok _ => .ok (newPersistentVolume opts
          (Join mountPath (opts.PVC.Namespace ++ "-" ++ opts.PVC.Name)) node)
      | .error e => .error e
      | .panic msg => .panic msg := by
  rw [Provision_valid p env opts node size hsel hmode hnode hsize hge, hres]
  simp only
  cases (createHelperPod p env ActionTypeCreate
    (createArgs opts mountPath vgName size) node.Name).1 <;> rfl

/-- A `create` call with an empty volume name or an empty node name is turned down before
any request is made. -/
theorem createHelperPod_create_empty (p : LocalLVMProvisioner) (env : Env)
    (opts : VolumeOptions) (mountPath vgName : String) (size : Int) (node : String)
    (h : opts.PVName = "" ∨ node = "") :
    createHelperPod p env ActionTypeCreate (createArgs opts mountPath vgName size) node
      = (.error (.wrapf ("failed to create volume " ++ opts.PVName)
          (.errorf "invalid empty name or node")), []) := by
  have hname : (createArgs opts mountPath vgName size).get? 4 = some opts.PVName := rfl
  have hmsg : "failed to " ++ ActionTypeCreate ++ " volume " = "failed to create volume " := by
    decide
  simp only [createHelperPod, if_true, hname, if_pos h, hmsg]

/-- C15, counterexample: the request `unnamedOptions` passes validation (no selector, only
`ReadWriteOnce`, node `n1` selected, 8 MiB requested) and node resolution (`/data`, `vg0`,
from a config that `canonicalizeConfig` produced), yet `Provision` submits no helper pod for
it: the volume name is empty, and the call is turned down with the error
`invalid empty name or node`. -/
theorem Provision_empty_volume_name_submits_nothing :
    unnamedOptions.PVC.Selector.isSome = false
      ∧ (∀ m ∈ unnamedOptions.PVC.AccessModes, m = ReadWriteOnce)
      ∧ unnamedOptions.SelectedNode = some ⟨"n1"⟩
      ∧ unnamedOptions.PVC.StorageRequest = some (8 * 1024 * 1024)
      ∧ canonicalizeConfig sampleEnv sampleConfigData = .ok ⟨[("n1", ⟨"/data", ["vg0"]⟩)]⟩
      ∧ sampleProvisioner.config = some ⟨[("n1", ⟨"/data", ["vg0"]⟩)]⟩
      ∧ (getPathAndVGOnNode sampleProvisioner sampleEnv "n1").1 = .ok ("/data", "vg0")
      ∧ podCreateCount (Provision sampleProvisioner sampleEnv unnamedOptions).2 = 0
      ∧ (Provision sampleProvisioner sampleEnv unnamedOptions).1
          = .error (.wrapf "failed to create volume " (.errorf "invalid empty name or node")) := by
  decide

/-- C15, amended: for a request that passes validation and node resolution, `Provision`
runs `createHelperPod` exactly once, for the action `create`, on the selected node and with
the argument list `["create", mountPath, volumeGroup, namespace-name, volumeName, digits]`,
where `(mountPath, volumeGroup)` is the result of `getPathAndVGOnNode` for the selected node
and `digits` is the requested number of bytes in decimal notation, the only string that
denotes that number.  The effects of
`Provision` are those of that one call behind the lock and a log line; it returns the
descriptor when the call succeeds and the failure of the call otherwise.  At most one pod is
submitted; a submitted pod is named `create-volumeName`, is bound to the selected node and
carries the argument list unchanged.  With non-empty volume and node names and a config from
`canonicalizeConfig`, exactly one pod is submitted; with an empty volume name or an empty
node name no pod is submitted and `Provision` returns the error
`invalid empty name or node`. -/
theorem Provision_dispatches_create (p : LocalLVMProvisioner) (env : Env)
    (opts : VolumeOptions) (node : Node) (size : Int) (mountPath vgName : String)
    (hsel : opts.PVC.Selector.isSome = false)
    (hmode : ∀ m ∈ opts.PVC.AccessModes, m = ReadWriteOnce)
    (hnode : opts.SelectedNode = some node)
    (hsize : opts.PVC.StorageRequest = some size)
    (hge : 4 * 1024 * 1024 ≤ size)
    (hres : (getPathAndVGOnNode p env node.Name).1 = .ok (mountPath, vgName)) :
    ∃ (digits : String) (args : List String),
      readDecimal digits = some size
      ∧ (∀ other : String, readDecimal other = some size → other = digits)
      ∧ args = ["create", mountPath, vgName, opts.PVC.Namespace ++ "-" ++ opts.PVC.Name,
        opts.PVName, digits]
      ∧ (Provision p env opts).2 = (getPathAndVGOnNode p env node.Name).2
          ++ .log "Creating volume %v (%v/%v) at %v:%v"
            :: (createHelperPod p env ActionTypeCreate args node.Name).2
      ∧ (Provision p env opts).1
          = (match (createHelperPod p env ActionTypeCreate args node.Name).1 with
            | .ok _ => .ok (newPersistentVolume opts
                (Join mountPath (opts.PVC.Namespace ++ "-" ++ opts.PVC.Name)) node)
            | .error e => .error e
            | .panic msg => .panic msg)
      ∧ podCreateCount (Provision p env opts).2 ≤ 1
      ∧ (∀ ns pod, Effect.podCreate ns pod ∈ (Provision p env opts).2 →
          ns = p.podNamespace ∧ pod.Name = "create-" ++ opts.PVName
            ∧ pod.NodeName = node.Name ∧ pod.Args = args ∧ pod.Image = p.helperImage)
      ∧ (opts.PVName ≠ "" → node.Name ≠ "" →
          (∃ env0 raw cfg, canonicalizeConfig env0 raw = .ok cfg ∧ p.config = some cfg) →
          podCreateCount (Provision p env opts).2 = 1)
      ∧ (opts.PVName = "" ∨ node.Name = "" →
          podCreateCount (Provision p env opts).2 = 0
            ∧ (Provision p env opts).1
                = .error (.wrapf ("failed to create volume " ++ opts.PVName)
                    (.errorf "invalid empty name or node"))) := by
  obtain ⟨heff, -⟩ :=
    Provision_resolved p env opts node size mountPath vgName hsel hmode hnode hsize hge hres
  have hresult :=
    Provision_resolved_result p env opts node size mountPath vgName hsel hmode hnode hsize hge
      hres
  have hlock := getPathAndVGOnNode_isPodCreate p env node.Name
  have hlockCount := podCreateCount_zero _ hlock
  refine ⟨FormatInt size, createArgs opts mountPath vgName size, FormatInt_readDecimal size,
    fun other hother =>
      readDecimal_injective other (FormatInt size) size hother (FormatInt_readDecimal size),
    rfl, heff, hresult, ?_, ?_, ?_, ?_⟩
  · rw [heff]
    rcases createHelperPod_effects p env ActionTypeCreate
      (createArgs opts mountPath vgName size) node.Name with h | ⟨name, arg1, tail, -, -, h, htail⟩
    · rw [h, podCreateCount_eq, List.countP_append, ← podCreateCount_eq, hlockCount]
      simp [List.countP_cons, Effect.isPodCreate]
    · rw [h, podCreateCount_eq, List.countP_append, ← podCreateCount_eq, hlockCount]
      have htail0 := podCreateCount_zero _ htail
      rw [podCreateCount_eq] at htail0
      simp [List.countP_cons, Effect.isPodCreate, htail0]
  · intro ns pod hmem
    rw [heff] at hmem
    rcases List.mem_append.1 hmem with h | h
    · have := hlock _ h
      simp [Effect.isPodCreate] at this
    · rcases List.mem_cons.1 h with h | h
      · cases h
      · rcases createHelperPod_effects p env ActionTypeCreate
          (createArgs opts mountPath vgName size) node.Name with
          h0 | ⟨name, arg1, tail, hname, harg, h1, htail⟩
        · rw [h0] at h; simp at h
        · rw [h1] at h
          rcases List.mem_cons.1 h with h2 | h2
          · simp only [createArgs, ActionTypeCreate, if_true, List.get?, Option.some.injEq]
              at hname harg
            simp only [Effect.podCreate.injEq] at h2
            rw [h2.1, h2.2, ← hname]
            exact ⟨rfl, rfl, rfl, rfl, rfl⟩
          · have := htail _ h2
            simp [Effect.isPodCreate] at this
  · intro hpv hnodeName ⟨env0, raw, cfg, hcfg, hp⟩
    have hcanon := getPathAndVGOnNode_canonical env0 raw cfg p env _ _ _ hcfg hp hres
    have hne := createHelperPod_canonical_effects p env ActionTypeCreate
      (createArgs opts mountPath vgName size) node.Name opts.PVName mountPath rfl hpv hnodeName
      rfl hcanon
    rw [heff]
    rcases createHelperPod_effects p env ActionTypeCreate
      (createArgs opts mountPath vgName size) node.Name with h | ⟨name, arg1, tail, -, -, h, htail⟩
    · exact absurd h hne
    · rw [h, podCreateCount_eq, List.countP_append, ← podCreateCount_eq, hlockCount]
      have htail0 := podCreateCount_zero _ htail
      rw [podCreateCount_eq] at htail0
      simp [List.countP_cons, Effect.isPodCreate, htail0]
  · intro hempty
    have hcall := createHelperPod_create_empty p env opts mountPath vgName size node.Name hempty
    refine ⟨?_, ?_⟩
    · rw [heff, hcall, podCreateCount_eq, List.countP_append, ← podCreateCount_eq, hlockCount]
      simp [List.countP_cons, Effect.isPodCreate]
    · rw [hresult, hcall]

theorem Provision_dispatches_create_witness :
    (getPathAndVGOnNode sampleProvisioner sampleEnv "n1").1 = .ok ("/data", "vg0")
      ∧ podCreateCount (Provision sampleProvisioner sampleEnv sampleOptions).2 = 1
      ∧ Effect.podCreate "kube-system" samplePod
          ∈ (Provision sampleProvisioner sampleEnv sampleOptions).2
      ∧ samplePod.Args = ["create", "/data", "vg0", "ns-claim1", "pvc-1", "8388608"]
      ∧ samplePod.NodeName = "n1"
      ∧ readDecimal "8388608" = some (8 * 1024 * 1024)
      ∧ (∃ (digits : String) (args : List String),
        readDecimal digits = some (8 * 1024 * 1024)
        ∧ args = ["create", "/data", "vg0", "ns" ++ "-" ++ "claim1", "pvc-1", digits]
        ∧ (Provision sampleProvisioner sampleEnv sampleOptions).2
            = (getPathAndVGOnNode sampleProvisioner sampleEnv "n1").2
              ++ .log "Creating volume %v (%v/%v) at %v:%v"
                :: (createHelperPod sampleProvisioner sampleEnv ActionTypeCreate args "n1").2)
      ∧ ∃ (digits : String) (args : List String),
        readDecimal digits = some (8 * 1024 * 1024)
        ∧ args = ["create", "/data", "vg0", "ns" ++ "-" ++ "claim1", "", digits]
        ∧ podCreateCount (Provision sampleProvisioner sampleEnv unnamedOptions).2 = 0 :=
  have h := Provision_dispatches_create sampleProvisioner sampleEnv sampleOptions ⟨"n1"⟩
    (8 * 1024 * 1024) "/data" "vg0" rfl (by decide) rfl rfl (by decide) (by decide)
  have h0 := Provision_dispatches_create sampleProvisioner sampleEnv unnamedOptions ⟨"n1"⟩
    (8 * 1024 * 1024) "/data" "vg0" rfl (by decide) rfl rfl (by decide) (by decide)
  ⟨by decide, by decide, by decide, by decide, rfl, by decide,
    h.elim fun digits hd => hd.elim fun args hargs =>
      ⟨digits, args, hargs.1, hargs.2.2.1, hargs.2.2.2.1⟩,
    h0.elim fun digits hd => hd.elim fun args hargs =>
      ⟨digits, args, hargs.1, hargs.2.2.1, (hargs.2.2.2.2.2.2.2.2 (Or.inl rfl)).1⟩⟩


/-! ## The name of the helper pod -/

theorem string_append_left_cancel (a x y : String) (h : a ++ x = a ++ y) : x = y := by
  apply String.ext
  have hdata : (a ++ x).data = (a ++ y).data := by rw [h]
  rw [String.data_append, String.data_append] at hdata
  exact List.append_cancel_left hdata

/-- C16: the name of the helper pod is `action-volumeName`, whatever the provisioner, the
arguments and the node are; for the actions `create` and `delete` two helper pods have the
same name if and only if they are for the same action and the same volume name.  The pod
that `createHelperPod` submits carries that name, the volume name being the fifth argument
of a `create` call and the third of a `delete` call. -/
theorem helperPod_name_unique (p1 p2 : LocalLVMProvisioner) (action1 action2 : ActionType)
    (name1 name2 : String) (args1 args2 : List String) (arg1 arg2 node1 node2 : String) :
    (helperPod p1 action1 name1 args1 arg1 node1).Name = action1 ++ "-" ++ name1
      ∧ ((action1 = ActionTypeCreate ∨ action1 = ActionTypeDelete) →
          (action2 = ActionTypeCreate ∨ action2 = ActionTypeDelete) →
          ((helperPod p1 action1 name1 args1 arg1 node1).Name
              = (helperPod p2 action2 name2 args2 arg2 node2).Name
            ↔ action1 = action2 ∧ name1 = name2))
      ∧ (∀ (env : Env) (ns : String) (pod : Pod),
          Effect.podCreate ns pod ∈ (createHelperPod p1 env action1 args1 node1).2 →
          ∃ name, (if action1 = ActionTypeCreate then args1.get? 4 else args1.get? 2) = some name
            ∧ pod.Name = action1 ++ "-" ++ name) := by
  refine ⟨rfl, ?_, ?_⟩
  · intro h1 h2
    constructor
    · intro hname
      simp only [helperPod] at hname
      rcases h1 with h1 | h1 <;> rcases h2 with h2 | h2 <;> subst h1 <;> subst h2
      · exact ⟨rfl, string_append_left_cancel _ _ _ hname⟩
      · exact absurd hname
          (append_ne_append_of_take 1 _ _ _ _ (by decide) (by decide) (by decide))
      · exact absurd hname
          (append_ne_append_of_take 1 _ _ _ _ (by decide) (by decide) (by decide))
      · exact ⟨rfl, string_append_left_cancel _ _ _ hname⟩
    · rintro ⟨ha, hn⟩
      rw [ha, hn]
      rfl
  · intro env ns pod hmem
    rcases createHelperPod_effects p1 env action1 args1 node1 with
      h0 | ⟨name, a1, tail, hname, -, h, htail⟩
    · rw [h0] at hmem; simp at hmem
    · rw [h] at hmem
      rcases List.mem_cons.1 hmem with h2 | h2
      · simp only [Effect.podCreate.injEq] at h2
        exact ⟨name, hname, by rw [h2.2]; rfl⟩
      · have := htail _ h2
        simp [Effect.isPodCreate] at this

theorem helperPod_name_unique_witness :
    (helperPod sampleProvisioner ActionTypeCreate "pvc-1" sampleArgs "/data" "n1").Name
        = "create-pvc-1"
      ∧ (helperPod sampleProvisioner ActionTypeDelete "pvc-1" sampleDeleteArgs "/data" "n1").Name
        = "delete-pvc-1"
      ∧ ((helperPod sampleProvisioner ActionTypeCreate "pvc-1" sampleArgs "/data" "n1").Name
            = (helperPod sampleProvisioner ActionTypeDelete "pvc-1" sampleDeleteArgs "/data"
                "n1").Name
          ↔ ActionTypeCreate = ActionTypeDelete ∧ "pvc-1" = "pvc-1") :=
  ⟨by decide, by decide,
    (helperPod_name_unique sampleProvisioner sampleProvisioner ActionTypeCreate ActionTypeDelete
      "pvc-1" "pvc-1" sampleArgs sampleDeleteArgs "/data" "/data" "n1" "n1").2.1
      (Or.inl rfl) (Or.inr rfl)⟩


/-! ## Reloading the config -/

/-- C17: when the loaded raw config equals the active raw snapshot, `refreshConfig` returns
a nil error and the provisioner as it was, and its only effect is taking the lock: nothing
is swapped, `canonicalizeConfig` has no part in the outcome, and `Applied config` is not
logged. -/
theorem refreshConfig_same_is_noop (p : LocalLVMProvisioner) (env : Env) (data : ConfigData)
    (hload : loadConfigFile env p.configFile = .ok data) (hsame : p.configData = some data) :
    refreshConfig p env = (.ok (), p, [.configLock])
      ∧ (refreshConfig p env).2.1.config = p.config
      ∧ (refreshConfig p env).2.1.configData = p.configData
      ∧ Effect.log "Applied config: %v" ∉ (refreshConfig p env).2.2 := by
  have h : refreshConfig p env = (.ok (), p, [.configLock]) := by
    unfold refreshConfig
    simp only [hload, hsame, if_true]
  rw [h]
  exact ⟨rfl, rfl, rfl, by simp⟩

theorem refreshConfig_same_is_noop_witness :
    canonicalizeConfig emptyPathEnv emptyPathConfigData
        = .panic "index out of range [0] with length 0"
      ∧ refreshConfig staleProvisioner emptyPathEnv = (.ok (), staleProvisioner, [.configLock])
      ∧ refreshConfig sampleProvisioner sampleEnv = (.ok (), sampleProvisioner, [.configLock]) :=
  ⟨rfl,
    (refreshConfig_same_is_noop staleProvisioner emptyPathEnv emptyPathConfigData rfl rfl).1,
    (refreshConfig_same_is_noop sampleProvisioner sampleEnv sampleConfigData rfl rfl).1⟩

/-- One call of `refreshConfig` leaves config and raw snapshot as they were, or replaces
both, the new config being what `canonicalizeConfig` makes of the new snapshot. -/
theorem refreshConfig_step (p : LocalLVMProvisioner) (env : Env) :
    (refreshConfig p env).2.1 = p
      ∨ ∃ data cfg, canonicalizeConfig env data = .ok cfg
          ∧ (refreshConfig p env).2.1 = { p with configData := some data, config := some cfg } := by
  unfold refreshConfig
  cases loadConfigFile env p.configFile with
  | error e => exact Or.inl rfl
  | panic msg => exact Or.inl rfl
  | ok data =>
    simp only
    split
    · exact Or.inl rfl
    · cases hcanon : canonicalizeConfig env data with
      | error e => exact Or.inl rfl
      | panic msg => exact Or.inl rfl
      | ok cfg => exact Or.inr ⟨data, cfg, hcanon, rfl⟩

theorem refreshConfig_invariant (p : LocalLVMProvisioner) (env : Env)
    (h : ConfigStoreInvariant p) : ConfigStoreInvariant (refreshConfig p env).2.1 := by
  rcases refreshConfig_step p env with hstep | ⟨data, cfg, hcanon, hstep⟩
  · rw [hstep]; exact h
  · rw [hstep]
    exact Or.inr ⟨data, cfg, rfl, rfl, fun env2 => by rw [canonicalizeConfig_env env2 env, hcanon]⟩

theorem refreshAll_invariant (loads : List Env) :
    ∀ p, ConfigStoreInvariant p → ConfigStoreInvariant (refreshAll p loads) := by
  induction loads with
  | nil => intro p h; exact h
  | cons env rest ih =>
    intro p h
    exact ih _ (refreshConfig_invariant p env h)

theorem watchAndRefreshConfig_invariant (ticks : List Env) :
    ∀ p, ConfigStoreInvariant p → ConfigStoreInvariant (watchAndRefreshConfig p ticks).1 := by
  induction ticks with
  | nil => intro p h; exact h
  | cons env rest ih =>
    intro p h
    have hstep := refreshConfig_invariant p env h
    simp only [watchAndRefreshConfig]
    split
    · rename_i p2 effects heq
      have : (refreshConfig p env).2.1 = p2 := by rw [heq]
      exact ih _ (this ▸ hstep)
    · rename_i p2 effects heq
      have : (refreshConfig p env).2.1 = p2 := by rw [heq]
      exact ih _ (this ▸ hstep)
    · rename_i p2 effects heq
      have : (refreshConfig p env).2.1 = p2 := by rw [heq]
      exact this ▸ hstep

/-- C20: the provisioner that `NewProvisioner` starts from has neither config nor raw
snapshot; after any sequence of `refreshConfig` calls, whatever each call loads, config and
raw snapshot are both unset or the config is `canonicalizeConfig` of the raw snapshot.  The
same holds for the provisioner that `NewProvisioner` returns and after any number of ticks
of its watcher.  A single call leaves both as they were or replaces both together. -/
theorem configStore_invariant (configFile podNamespace helperImage : String)
    (loads : List Env) :
    (initialProvisioner configFile podNamespace helperImage).config = none
      ∧ (initialProvisioner configFile podNamespace helperImage).configData = none
      ∧ ConfigStoreInvariant
          (refreshAll (initialProvisioner configFile podNamespace helperImage) loads)
      ∧ (∀ (env : Env) (p : LocalLVMProvisioner),
          (NewProvisioner env configFile podNamespace helperImage).1 = .ok p →
          ConfigStoreInvariant p ∧ ConfigStoreInvariant (watchAndRefreshConfig p loads).1)
      ∧ (∀ (p : LocalLVMProvisioner) (env : Env),
          ((refreshConfig p env).2.1.config = p.config
              ∧ (refreshConfig p env).2.1.configData = p.configData)
            ∨ ∃ data cfg, canonicalizeConfig env data = .ok cfg
                ∧ (refreshConfig p env).2.1.configData = some data
                ∧ (refreshConfig p env).2.1.config = some cfg) := by
  have hinit : ConfigStoreInvariant (initialProvisioner configFile podNamespace helperImage) :=
    Or.inl ⟨rfl, rfl⟩
  refine ⟨rfl, rfl, refreshAll_invariant loads _ hinit, ?_, ?_⟩
  · intro env p hnew
    have hp : p = (refreshConfig (initialProvisioner configFile podNamespace helperImage)
        env).2.1 := by
      unfold NewProvisioner at hnew
      split at hnew
      · rename_i p2 effects heq
        simp only [GoResult.ok.injEq] at hnew
        rw [heq, ← hnew]
      · simp at hnew
      · simp at hnew
    have hinv : ConfigStoreInvariant p := hp ▸ refreshConfig_invariant _ env hinit
    exact ⟨hinv, watchAndRefreshConfig_invariant loads p hinv⟩
  · intro p env
    rcases refreshConfig_step p env with hstep | ⟨data, cfg, hcanon, hstep⟩
    · exact Or.inl (by rw [hstep]; exact ⟨rfl, rfl⟩)
    · exact Or.inr ⟨data, cfg, hcanon, by rw [hstep], by rw [hstep]⟩

theorem configStore_invariant_witness :
    (refreshAll (initialProvisioner "/etc/config/config.json" "kube-system" "helper:latest")
        [unreadableEnv, sampleEnv, emptyPathEnv, twoVGEnv, unreadableEnv]).config
        = some ⟨[("n1", ⟨"/data", ["vg0", "vg1"]⟩)]⟩
      ∧ (refreshAll (initialProvisioner "/etc/config/config.json" "kube-system" "helper:latest")
        [unreadableEnv, sampleEnv, emptyPathEnv, twoVGEnv, unreadableEnv]).configData
        = some twoVGConfigData
      ∧ ConfigStoreInvariant
          (refreshAll (initialProvisioner "/etc/config/config.json" "kube-system" "helper:latest")
            [unreadableEnv, sampleEnv, emptyPathEnv, twoVGEnv, unreadableEnv])
      ∧ ∀ p : LocalLVMProvisioner,
          (NewProvisioner sampleEnv "/etc/config/config.json" "kube-system" "helper:latest").1
            = .ok p → ConfigStoreInvariant p :=
  ⟨by decide, by decide,
    (configStore_invariant "/etc/config/config.json" "kube-system" "helper:latest"
      [unreadableEnv, sampleEnv, emptyPathEnv, twoVGEnv, unreadableEnv]).2.2.1,
    fun p hp => ((configStore_invariant "/etc/config/config.json" "kube-system" "helper:latest"
      []).2.2.2.1 sampleEnv p hp).1⟩


/-! ## Resolution on a canonicalized config -/

/-- C19: on a config returned by `canonicalizeConfig`, `getPathAndVGOnNode` never returns
the error `no mount path defined`; when it succeeds, the path is that of the matched entry
(exact match, else fallback), is absolute and is not the root, and the volume group is one
of those of the matched entry. -/
theorem getPathAndVGOnNode_on_canonical (env0 : Env) (raw : ConfigData) (cfg : Config)
    (p : LocalLVMProvisioner) (env : Env) (node : String)
    (hcfg : canonicalizeConfig env0 raw = .ok cfg) (hp : p.config = some cfg) :
    (getPathAndVGOnNode p env node).1 ≠ .error (noMountPathError node)
      ∧ ∀ path vg, (getPathAndVGOnNode p env node).1 = .ok (path, vg) →
          ∃ npMap, matchedEntry cfg node = some npMap ∧ path = npMap.Path
            ∧ IsAbs path = true ∧ path ≠ "/" ∧ vg ∈ npMap.VGs := by
  constructor
  · cases hm : matchedEntry cfg node with
    | none =>
      rw [getPathAndVGOnNode_result, hp]
      simp only [hm, noMountPathError, ne_eq, GoResult.error.injEq, GoError.errorf.injEq,
        String.append_assoc]
      exact append_ne_append_of_take 1 _ _ _ _ (by decide) (by decide) (by decide)
    | some npMap =>
      obtain ⟨k, hk⟩ := matchedEntry_mem cfg node npMap hm
      have hcanon : IsCanonicalPath npMap.Path :=
        canonicalizeConfig_paths env0 raw cfg hcfg (k, npMap) hk
      rw [getPathAndVGOnNode_resolveEntry p env node cfg npMap hp hm]
      unfold resolveEntry
      rw [if_neg hcanon.ne_empty]
      split
      · simp only [noMountPathError, ne_eq, GoResult.error.injEq, GoError.errorf.injEq]
        exact append_ne_append_of_take 4 _ _ _ _ (by decide) (by decide) (by decide)
      · simp
  · intro path vg hok
    obtain ⟨c, npMap, hc, hm, hpath, hvg, hne, -⟩ :=
      getPathAndVGOnNode_selects_entry p env node path vg hok
    rw [hp] at hc
    cases hc
    obtain ⟨k, hk⟩ := matchedEntry_mem cfg node npMap hm
    have hcanon : IsCanonicalPath npMap.Path :=
      canonicalizeConfig_paths env0 raw cfg hcfg (k, npMap) hk
    refine ⟨npMap, hm, hpath, ?_, ?_, ?_⟩
    · rw [hpath]; exact hcanon.isAbs
    · rw [hpath]; exact hcanon.ne_root
    · rw [hvg]; exact rangeFirstKey_mem env _ hne

theorem getPathAndVGOnNode_on_canonical_witness :
    canonicalizeConfig sampleEnv twoVGConfigData = .ok ⟨[("n1", ⟨"/data", ["vg0", "vg1"]⟩)]⟩
      ∧ (getPathAndVGOnNode twoVGProvisioner secondKeyEnv "n1").1 = .ok ("/data", "vg1")
      ∧ (getPathAndVGOnNode twoVGProvisioner secondKeyEnv "n1").1
          ≠ .error (noMountPathError "n1")
      ∧ ∃ npMap, matchedEntry ⟨[("n1", ⟨"/data", ["vg0", "vg1"]⟩)]⟩ "n1" = some npMap
          ∧ "/data" = npMap.Path ∧ IsAbs "/data" = true ∧ "/data" ≠ "/" ∧ "vg1" ∈ npMap.VGs :=
  ⟨by decide, by decide,
    (getPathAndVGOnNode_on_canonical sampleEnv twoVGConfigData
      ⟨[("n1", ⟨"/data", ["vg0", "vg1"]⟩)]⟩ twoVGProvisioner secondKeyEnv "n1"
      (by decide) rfl).1,
    (getPathAndVGOnNode_on_canonical sampleEnv twoVGConfigData
      ⟨[("n1", ⟨"/data", ["vg0", "vg1"]⟩)]⟩ twoVGProvisioner secondKeyEnv "n1"
      (by decide) rfl).2 "/data" "vg1" (by decide)⟩


/-! ## The polling loop -/

theorem podGetCount_append (l1 l2 : List Effect) :
    podGetCount (l1 ++ l2) = podGetCount l1 + podGetCount l2 := by
  simp [podGetCount, List.countP_append]

theorem deleteHelperPod_podGetCount (env : Env) (ns name : String) :
    podGetCount (deleteHelperPod env ns name) = 0 := by
  unfold deleteHelperPod
  split <;> rfl

/-- The polling loop issues at most as many status queries as it has iterations left. -/
theorem pollLoop_podGetCount_le (env : Env) (ns name : String) (n : Nat) :
    ∀ i, podGetCount (pollLoop env ns name n i).2 ≤ n := by
  induction n with
  | zero => intro i; simp [pollLoop, podGetCount]
  | succ n ih =>
    intro i
    simp only [pollLoop]
    split
    · simp [podGetCount]
    · split
      · simp [podGetCount]
      · have := ih (i + 1)
        simp only [podGetCount, List.countP_cons] at this ⊢
        simpa using this

/-- The polling loop stops at the first status query that reports `Succeeded` and at the
first one that fails; each query before it, answered by any other phase, costs one
iteration. -/
theorem pollLoop_stops (env : Env) (ns name : String) (n : Nat) :
    ∀ i k, k < n →
      (∀ j, j < k → ∃ phase, env.podGet (i + j) ns name = .ok phase ∧ phase ≠ PodSucceeded) →
      (env.podGet (i + k) ns name = .ok PodSucceeded →
          (pollLoop env ns name n i).1 = .ok true
            ∧ podGetCount (pollLoop env ns name n i).2 = k + 1)
        ∧ (∀ msg, env.podGet (i + k) ns name = .error msg →
          (pollLoop env ns name n i).1 = .error (.external msg)
            ∧ podGetCount (pollLoop env ns name n i).2 = k + 1) := by
  induction n with
  | zero => intro i k hk; exact absurd hk (Nat.not_lt_zero k)
  | succ n ih =>
    intro i k hk hbefore
    cases k with
    | zero =>
      simp only [Nat.add_zero]
      constructor
      · intro hget
        simp [pollLoop, hget, podGetCount]
      · intro msg hget
        simp [pollLoop, hget, podGetCount]
    | succ k =>
      obtain ⟨phase, hget, hphase⟩ := hbefore 0 (Nat.succ_pos k)
      rw [Nat.add_zero] at hget
      have hk2 : k < n := Nat.lt_of_succ_lt_succ hk
      have hbefore2 : ∀ j, j < k →
          ∃ phase, env.podGet (i + 1 + j) ns name = .ok phase ∧ phase ≠ PodSucceeded := by
        intro j hj
        have := hbefore (j + 1) (Nat.succ_lt_succ hj)
        rwa [show i + (j + 1) = i + 1 + j by omega] at this
      have hih := ih (i + 1) k hk2 hbefore2
      rw [show i + 1 + k = i + (k + 1) by omega] at hih
      have hstep : pollLoop env ns name (n + 1) i
          = ((pollLoop env ns name n (i + 1)).1,
              .podGet ns name :: .sleep 1 :: (pollLoop env ns name n (i + 1)).2) := by
        simp only [pollLoop, hget, if_neg hphase]
      have hcount : podGetCount
            (.podGet ns name :: .sleep 1 :: (pollLoop env ns name n (i + 1)).2)
          = podGetCount (pollLoop env ns name n (i + 1)).2 + 1 := by
        simp [podGetCount, List.countP_cons]
      rw [hstep]
      simp only [hcount]
      constructor
      · intro h
        exact ⟨(hih.1 h).1, by rw [(hih.1 h).2]⟩
      · intro msg h
        exact ⟨(hih.2 msg h).1, by rw [(hih.2 msg h).2]⟩

/-- When no status query fails or reports `Succeeded`, the polling loop uses up all its
iterations. -/
theorem pollLoop_exhausted (env : Env) (ns name : String) (n : Nat) :
    ∀ i, (∀ k, k < n →
        ∃ phase, env.podGet (i + k) ns name = .ok phase ∧ phase ≠ PodSucceeded) →
      podGetCount (pollLoop env ns name n i).2 = n := by
  induction n with
  | zero => intro i _; rfl
  | succ n ih =>
    intro i h
    obtain ⟨phase, hget, hphase⟩ := h 0 (Nat.succ_pos n)
    rw [Nat.add_zero] at hget
    have h2 : ∀ k, k < n →
        ∃ phase, env.podGet (i + 1 + k) ns name = .ok phase ∧ phase ≠ PodSucceeded := by
      intro k hk
      have := h (k + 1) (Nat.succ_lt_succ hk)
      rwa [show i + (k + 1) = i + 1 + k by omega] at this
    have hih := ih (i + 1) h2
    simp only [pollLoop, hget, if_neg hphase]
    simp only [podGetCount, List.countP_cons] at hih ⊢
    simpa using hih

/-- With the helper pod created, the status queries of `createHelperPod` are those of its
polling loop, whose result decides the outcome. -/
theorem createHelperPod_polled (p : LocalLVMProvisioner) (env : Env) (action : ActionType)
    (args : List String) (node name : String) (pod : Pod)
    (h : HelperPodCreated p env action args node name pod) :
    podGetCount (createHelperPod p env action args node).2
        = podGetCount (pollLoop env p.podNamespace pod.Name env.cmdTimeoutCounts.toNat 0).2
      ∧ (createHelperPod p env action args node).1 =
        match (pollLoop env p.podNamespace pod.Name env.cmdTimeoutCounts.toNat 0).1 with
        | .panic msg => .panic msg
        | .error e => .error (.wrapf ("failed to " ++ action ++ " volume " ++ name) e)
        | .ok false => .error (timeoutError env action name)
        | .ok true => .ok () := by
  obtain ⟨pod0, heq⟩ := createHelperPod_created p env action args node name pod h
  have hdel := deleteHelperPod_podGetCount env p.podNamespace pod.Name
  rw [heq]
  have hcons : ∀ l : List Effect, podGetCount (.podCreate p.podNamespace pod0 :: l)
      = podGetCount l := by
    intro l; simp [podGetCount, List.countP_cons]
  have hlog : ∀ l : List Effect, podGetCount (.log "Volume %v has been %vd on %v:%v" :: l)
      = podGetCount l := by
    intro l; simp [podGetCount, List.countP_cons]
  split <;> simp only [List.cons_append, hcons, podGetCount_append, hlog, hdel, Nat.add_zero,
    and_self]


/-- C18: with the helper pod created, `createHelperPod` issues at most `CmdTimeoutCounts`
status queries (at most 120 with the initial value of that variable).  When the queries
before the `k`-th are answered by phases other than `Succeeded` (a failed pod included), the
call stops after `k + 1` queries with a nil error if the `k`-th reports `Succeeded`, and
after `k + 1` queries with the error of the query if the `k`-th fails.  When all
`CmdTimeoutCounts` queries are answered by other phases, each has cost one iteration and the
call ends with the timeout error. -/
theorem createHelperPod_polling_bounded (p : LocalLVMProvisioner) (env : Env)
    (action : ActionType) (args : List String) (node name : String) (pod : Pod)
    (h : HelperPodCreated p env action args node name pod) :
    podGetCount (createHelperPod p env action args node).2 ≤ env.cmdTimeoutCounts.toNat
      ∧ (env.cmdTimeoutCounts = CmdTimeoutCounts →
          podGetCount (createHelperPod p env action args node).2 ≤ 120)
      ∧ (∀ k, k < env.cmdTimeoutCounts.toNat →
          (∀ j, j < k → ∃ phase, env.podGet j p.podNamespace pod.Name = .ok phase
            ∧ phase ≠ PodSucceeded) →
          (env.podGet k p.podNamespace pod.Name = .ok PodSucceeded →
              (createHelperPod p env action args node).1 = .ok ()
                ∧ podGetCount (createHelperPod p env action args node).2 = k + 1)
            ∧ (∀ msg, env.podGet k p.podNamespace pod.Name = .error msg →
              (createHelperPod p env action args node).1
                  = .error (.wrapf ("failed to " ++ action ++ " volume " ++ name)
                      (.external msg))
                ∧ podGetCount (createHelperPod p env action args node).2 = k + 1))
      ∧ ((∀ j, j < env.cmdTimeoutCounts.toNat →
            ∃ phase, env.podGet j p.podNamespace pod.Name = .ok phase ∧ phase ≠ PodSucceeded) →
          (createHelperPod p env action args node).1 = .error (timeoutError env action name)
            ∧ podGetCount (createHelperPod p env action args node).2
                = env.cmdTimeoutCounts.toNat) := by
  obtain ⟨hcount, hres⟩ := createHelperPod_polled p env action args node name pod h
  have hle := pollLoop_podGetCount_le env p.podNamespace pod.Name env.cmdTimeoutCounts.toNat 0
  refine ⟨by rw [hcount]; exact hle, ?_, ?_, ?_⟩
  · intro hdefault
    rw [hcount]
    have h120 : env.cmdTimeoutCounts.toNat = 120 := by rw [hdefault]; rfl
    exact h120 ▸ hle
  · intro k hk hbefore
    have hbefore0 : ∀ j, j < k → ∃ phase, env.podGet (0 + j) p.podNamespace pod.Name = .ok phase
        ∧ phase ≠ PodSucceeded := by
      intro j hj
      rw [Nat.zero_add]
      exact hbefore j hj
    have hstop := pollLoop_stops env p.podNamespace pod.Name env.cmdTimeoutCounts.toNat 0 k hk
      hbefore0
    rw [Nat.zero_add] at hstop
    constructor
    · intro hget
      obtain ⟨h1, h2⟩ := hstop.1 hget
      rw [hcount, hres, h1, h2]
      exact ⟨rfl, rfl⟩
    · intro msg hget
      obtain ⟨h1, h2⟩ := hstop.2 msg hget
      rw [hcount, hres, h1, h2]
      exact ⟨rfl, rfl⟩
  · intro hall
    have hall0 : ∀ k, k < env.cmdTimeoutCounts.toNat →
        ∃ phase, env.podGet (0 + k) p.podNamespace pod.Name = .ok phase
          ∧ phase ≠ PodSucceeded := by
      intro k hk
      rw [Nat.zero_add]
      exact hall k hk
    have hfalse := (pollLoop_not_completed env p.podNamespace pod.Name
      env.cmdTimeoutCounts.toNat 0).2 hall0
    have hn := pollLoop_exhausted env p.podNamespace pod.Name env.cmdTimeoutCounts.toNat 0 hall0
    rw [hcount, hres, hfalse, hn]
    exact ⟨rfl, rfl⟩

theorem createHelperPod_polling_bounded_witness :
    HelperPodCreated sampleProvisioner secondQueryFailsEnv ActionTypeCreate sampleArgs "n1"
        "pvc-1" samplePod
      ∧ (createHelperPod sampleProvisioner secondQueryFailsEnv ActionTypeCreate sampleArgs
          "n1").1
          = .error (.wrapf ("failed to " ++ ActionTypeCreate ++ " volume " ++ "pvc-1")
              (.external "connection refused"))
      ∧ podGetCount (createHelperPod sampleProvisioner secondQueryFailsEnv ActionTypeCreate
          sampleArgs "n1").2 = 1 + 1
      ∧ podGetCount (createHelperPod sampleProvisioner failedPodEnv ActionTypeCreate
          sampleArgs "n1").2 = 3
      ∧ podGetCount (createHelperPod sampleProvisioner sampleEnv ActionTypeCreate
          sampleArgs "n1").2 = 2 :=
  ⟨⟨by decide, by decide, by decide, "/data", "/data", by decide, by decide, by decide, rfl⟩,
    ((createHelperPod_polling_bounded sampleProvisioner secondQueryFailsEnv ActionTypeCreate
      sampleArgs "n1" "pvc-1" samplePod
      ⟨by decide, by decide, by decide, "/data", "/data", by decide, by decide, by decide,
        rfl⟩).2.2.1 1 (by decide)
      (fun j hj => ⟨"Failed", by
        have hj0 : j = 0 := by omega
        subst hj0
        rfl, by decide⟩)).2 "connection refused" rfl |>.1,
    ((createHelperPod_polling_bounded sampleProvisioner secondQueryFailsEnv ActionTypeCreate
      sampleArgs "n1" "pvc-1" samplePod
      ⟨by decide, by decide, by decide, "/data", "/data", by decide, by decide, by decide,
        rfl⟩).2.2.1 1 (by decide)
      (fun j hj => ⟨"Failed", by
        have hj0 : j = 0 := by omega
        subst hj0
        rfl, by decide⟩)).2 "connection refused" rfl |>.2,
    by decide, by decide⟩

end LocalLVM
